import Mathlib

/-!
Verification of the shading-network conversion engine of
src/Maya/texturesTransform.py.

The Python module queries and mutates the Maya scene graph through
maya.cmds.  We embed the scene as an explicit state value (nodes, node
types, connections, attribute values, shading-group memberships) and
embed each maya.cmds call used by the engine as a function on that
state.  Calls that can raise a Maya error are modelled in
Except String; Python try/except blocks are modelled by inspecting the
Except value, and an uncaught exception propagates out of the embedded
function exactly where the Python code has no enclosing try.

Machine reals (Maya floats) are modelled as rationals: the engine only
ever compares them for exact equality against 0.0, which floats decide
exactly, so no rounding behaviour is observable.

Recursive scene walks (convert_node_for_renderer,
walk_upstream_for_file) are embedded with an explicit fuel parameter;
call sites supply fuel nodeCount + 1, and the termination theorem for
claim C5 shows that this fuel is never exhausted on well-formed scenes.
-/

/-- A plug: one attribute endpoint on a named node ("node.attr"). -/
structure Plug where
  node : String
  attr : String
deriving DecidableEq, Repr

/-- An attribute value as returned by cmds.getAttr: a scalar float, a
colour/vector triple (Python shape [(r, g, b)]), or a string. -/
inductive MVal where
  | num (q : Rat)
  | triple (r g b : Rat)
  | str (s : String)
deriving DecidableEq, Repr

/-- Association-list lookup, first (most recent) binding wins. -/
def alookup {α β : Type} [DecidableEq α] : List (α × β) → α → Option β
  | [], _ => none
  | (k, v) :: rest, key => if k = key then some v else alookup rest key

/-- The live Maya scene graph, as far as the engine observes it. -/
structure Scene where
  /-- Names of nodes that currently exist, in creation order. -/
  nodes : List String
  /-- Node name to node type (cmds.nodeType). -/
  ntypes : List (String × String)
  /-- Node type to the attribute names its nodes expose
  (cmds.attributeQuery). -/
  kindAttrs : List (String × List String)
  /-- Live connections as (source plug, destination plug) pairs. -/
  conns : List (Plug × Plug)
  /-- Stored attribute values (cmds.getAttr / cmds.setAttr). -/
  vals : List (Plug × MVal)
  /-- Node types creatable in this session (cmds.allNodeTypes). -/
  avail : List String
  /-- Shading-group membership: shadingEngine node to member list. -/
  sgMembers : List (String × List String)
deriving DecidableEq, Repr

/-- Model of cmds.objExists. -/
def objExists (s : Scene) (n : String) : Bool :=
  s.nodes.contains n

/-- Model of cmds.nodeType: raises on a node that does not exist. -/
def nodeTypeE (s : Scene) (n : String) : Except String String :=
  if objExists s n then .ok ((alookup s.ntypes n).getD "unknown")
  else .error ("No object named " ++ n)

/-- Attribute list of an existing node, via its node type. -/
def attrsOfNode (s : Scene) (n : String) : List String :=
  (alookup s.kindAttrs ((alookup s.ntypes n).getD "unknown")).getD []

/-- Model of cmds.attributeQuery(attr, node=n, exists=True): raises if
the node itself is missing, otherwise reports attribute existence. -/
def attrExistsE (s : Scene) (n : String) (a : String) : Except String Bool :=
  if objExists s n then .ok ((attrsOfNode s n).contains a)
  else .error ("No object named " ++ n)

/-- A plug is valid when its node exists and exposes the attribute. -/
def plugValid (s : Scene) (p : Plug) : Bool :=
  objExists s p.node && (attrsOfNode s p.node).contains p.attr

/-- Incoming source plugs of a destination plug, in connection order:
model of cmds.listConnections(dst, source=True, destination=False,
plugs=True).  Raises when the queried node does not exist. -/
def listIncomingE (s : Scene) (p : Plug) : Except String (List Plug) :=
  if objExists s p.node then
    .ok ((s.conns.filter (fun c => c.2 = p)).map (fun c => c.1))
  else .error ("No object named " ++ p.node)

/-- All source nodes feeding any attribute of a node: model of
cmds.listConnections(node, source=True, destination=False,
plugs=False). -/
def listIncomingNodesE (s : Scene) (n : String) : Except String (List String) :=
  if objExists s n then
    .ok ((s.conns.filter (fun c => c.2.node = n)).map (fun c => c.1.node))
  else .error ("No object named " ++ n)

/-- Nodes of a given type connected (either direction) to a node:
model of cmds.listConnections(node, type=t). -/
def connectedOfTypeE (s : Scene) (n : Option String) (t : String) :
    Except String (List String) :=
  match n with
  | none => .error "Invalid arguments: None"
  | some n =>
    if objExists s n then
      .ok (((s.conns.filterMap (fun c =>
          if c.1.node = n then some c.2.node
          else if c.2.node = n then some c.1.node else none)).filter
            (fun m => (alookup s.ntypes m).getD "unknown" = t)).dedup)
    else .error ("No object named " ++ n)

/-- Model of cmds.isConnected(src, dst): raises when either plug is
invalid, otherwise reports whether the exact connection exists. -/
def isConnectedE (s : Scene) (src dst : Plug) : Except String Bool :=
  if plugValid s src && plugValid s dst then
    .ok (s.conns.contains (src, dst))
  else .error "isConnected: invalid plug"

/-- Model of cmds.connectAttr(src, dst, force=True): raises when either
plug is invalid; otherwise replaces any existing incoming connection of
dst ("last connection wins") and records the new one. -/
def connectAttrE (s : Scene) (src dst : Plug) :
    Except String Unit × Scene :=
  if plugValid s src && plugValid s dst then
    (.ok (), { s with conns :=
      (s.conns.filter (fun c => ¬ (c.2 = dst))) ++ [(src, dst)] })
  else (.error "connectAttr: invalid plug", s)

/-- Model of cmds.getAttr: raises when the plug is invalid or carries
no stored value (embedded scenes are fully specified). -/
def getAttrE (s : Scene) (p : Plug) : Except String MVal :=
  if plugValid s p then
    match alookup s.vals p with
    | some v => .ok v
    | none => .error ("getAttr: no value stored on " ++ p.node)
  else .error ("getAttr: invalid plug " ++ p.node)

/-- In-place update of the stored-value table. -/
def setVal (vals : List (Plug × MVal)) (p : Plug) (v : MVal) :
    List (Plug × MVal) :=
  if vals.any (fun q => q.1 = p) then
    vals.map (fun q => if q.1 = p then (p, v) else q)
  else vals ++ [(p, v)]

/-- Model of cmds.setAttr: raises when the plug is invalid or when the
destination already receives a live connection (Maya refuses to set a
connected destination attribute). -/
def setAttrE (s : Scene) (p : Plug) (v : MVal) :
    Except String Unit × Scene :=
  if plugValid s p then
    if s.conns.any (fun c => c.2 = p) then
      (.error ("setAttr: destination attribute " ++ p.attr ++
        " is connected"), s)
    else (.ok (), { s with vals := setVal s.vals p v })
  else (.error "setAttr: invalid plug", s)

/-- Underscore string of a given length, used to disambiguate names. -/
def uscores : Nat → String
  | 0 => ""
  | n + 1 => uscores n ++ "_"

/-- Candidate names tried when creating a node from a name hint. -/
def nameCandidates (hint : String) (n : Nat) : List String :=
  (List.range n).map (fun k => hint ++ uscores k)

/-- First candidate name not already taken by an existing node.  Maya
disambiguates with numeric suffixes; the engine never inspects the
suffix, so the precise disambiguation scheme is unobservable. -/
def freshName (s : Scene) (hint : String) : String :=
  ((nameCandidates hint (s.nodes.length + 1)).filter
    (fun c => ¬ s.nodes.contains c)).headD (hint ++ uscores (s.nodes.length + 1))

/-- Model of cmds.shadingNode / cmds.createNode: creates one node of
the given type under a fresh name derived from the hint. -/
def createNodeS (s : Scene) (ty : String) (hint : String) :
    String × Scene :=
  let name := freshName s hint
  (name, { s with nodes := s.nodes ++ [name], ntypes := (name, ty) :: s.ntypes })

/-- Model of cmds.sets(sg, q=True): member list of a shading group. -/
def sgMembersE (s : Scene) (sg : String) : Except String (List String) :=
  if objExists s sg then .ok ((alookup s.sgMembers sg).getD [])
  else .error ("No object named " ++ sg)

/-- Model of cmds.sets(members, e=True, forceElement=sg): removes the
members from every shading group and adds them to sg. -/
def forceElementS (s : Scene) (members : List String) (sg : String) : Scene :=
  let stripped := s.sgMembers.map
    (fun gm => (gm.1, gm.2.filter (fun m => ¬ members.contains m)))
  if stripped.any (fun gm => gm.1 = sg) then
    let added := stripped.map
      (fun gm => if gm.1 = sg then (gm.1, gm.2 ++ members) else gm)
    { s with sgMembers := added }
  else
    { s with sgMembers := stripped ++ [(sg, members)] }

/-! ## Static tables of texturesTransform.py -/

/-- One entry of NODE_CONVERSION_TABLE for a (source type, renderer)
pair.  The source key "type" is spelled ctype here. -/
structure ConvRule where
  ctype : String
  inputs : List (String × String)
  outputs : List (String × String)
  post_set : List (String × MVal)
deriving DecidableEq, Repr

/-- NODE_CONVERSION_TABLE of texturesTransform.py, in source order. -/
def NODE_CONVERSION_TABLE : List (String × List (String × ConvRule)) := [
  ("bump2d", [
    ("Redshift", ConvRule.mk "RedshiftBumpMap"
      [("bumpValue", "input")] [("outNormal", "out")] [("inputType", MVal.num 0)]),
    ("Arnold", ConvRule.mk "bump2d"
      [("bumpValue", "bumpValue")] [("outNormal", "outNormal")] []),
    ("Maya", ConvRule.mk "bump2d"
      [("bumpValue", "bumpValue")] [("outNormal", "outNormal")] [])]),
  ("aiNormalMap", [
    ("Redshift", ConvRule.mk "RedshiftBumpMap"
      [("input", "input")] [("outValue", "out")] [("inputType", MVal.num 1)]),
    ("Arnold", ConvRule.mk "aiNormalMap"
      [("input", "input")] [("outValue", "outValue")] []),
    ("Maya", ConvRule.mk "bump2d"
      [("input", "bumpValue")] [("outValue", "outNormal")] [("bumpInterp", MVal.num 1)])]),
  ("aiColorCorrect", [
    ("Redshift", ConvRule.mk "rsColorCorrect"
      [("input", "input")] [("outColor", "outColor")] []),
    ("Arnold", ConvRule.mk "aiColorCorrect"
      [("input", "input")] [("outColor", "outColor")] []),
    ("Maya", ConvRule.mk "colorCorrect"
      [("input", "inColor")] [("outColor", "outColor")] [])]),
  ("rsColorCorrect", [
    ("Arnold", ConvRule.mk "aiColorCorrect"
      [("input", "input")] [("outColor", "outColor")] []),
    ("Maya", ConvRule.mk "colorCorrect"
      [("input", "inColor")] [("outColor", "outColor")] []),
    ("Redshift", ConvRule.mk "rsColorCorrect"
      [("input", "input")] [("outColor", "outColor")] [])]),
  ("aiRange", [
    ("Redshift", ConvRule.mk "rsRange"
      [("input", "input")] [("outColor", "outColor")] []),
    ("Maya", ConvRule.mk "remapValue"
      [("input", "inputValue")] [("outColor", "outValue")] []),
    ("Arnold", ConvRule.mk "aiRange"
      [("input", "input")] [("outColor", "outColor")] [])]),
  ("aiMultiply", [
    ("Redshift", ConvRule.mk "rsColorLayer"
      [("input1", "input1")] [("outColor", "outColor")] []),
    ("Maya", ConvRule.mk "multiplyDivide"
      [("input1", "input1")] [("outColor", "output")] []),
    ("Arnold", ConvRule.mk "aiMultiply"
      [("input1", "input1")] [("outColor", "outColor")] [])])]

/-- Lookup NODE_CONVERSION_TABLE.get(nodeType, \x7b\x7d).get(renderer):
the conversion rule for a node type toward a renderer, if any. -/
def ruleFor (nodeType renderer : String) : Option ConvRule :=
  match alookup NODE_CONVERSION_TABLE nodeType with
  | none => none
  | some byRenderer => alookup byRenderer renderer

/-- PASSTHROUGH_NODES of texturesTransform.py. -/
def PASSTHROUGH_NODES : List String := [
  "file", "place2dTexture", "colorCorrect",
  "remapValue", "remapColor", "remapHsv",
  "multiplyDivide", "clamp", "reverse",
  "blendColors", "condition", "ramp",
  "noise", "fractal", "stencil",
  "layeredTexture", "gammaCorrect",
  "hsvToRgb", "rgbToHsv",
  "unitConversion", "luminance"]

/-- RENDERER_MATERIALS of texturesTransform.py, in source order. -/
def RENDERER_MATERIALS : List (String × List String) := [
  ("Redshift", [
    "RedshiftStandardMaterial", "RedshiftArchitectural",
    "RedshiftCarPaint", "RedshiftHair", "RedshiftIncandescent",
    "RedshiftMaterial", "RedshiftMaterialBlender",
    "RedshiftMatteShadowCatcher", "RedshiftOSLSurfaceShader",
    "RedshiftOpenPBRMaterial", "RedshiftPrincipledHair",
    "RedshiftShaderSwitch", "RedshiftSkin", "RedshiftSprite",
    "RedshiftSubSurfaceScatter", "RedshiftToonMaterial"]),
  ("Arnold", [
    "aiStandardSurface", "aiFlat", "aiAmbientOcclusion",
    "aiCarPaint", "aiHair", "aiLayerShader", "aiMatte",
    "aiMixShader", "aiShadowMatte", "aiSkin", "aiToon", "aiWireframe"]),
  ("Maya", [
    "standardSurface", "lambert", "blinn",
    "phong", "phongE", "surfaceShader"]),
  ("MASH", ["MASH"])]

/-- get_renderer_from_mat_type of texturesTransform.py: first renderer
whose material list contains the type, else the "Maya" fallback. -/
def get_renderer_from_mat_type (mat_type : String) : String :=
  match RENDERER_MATERIALS.find? (fun rm => rm.2.contains mat_type) with
  | some rm => rm.1
  | none => "Maya"

/-- MASTER_MAP of texturesTransform.py, in source (insertion) order:
source attribute to, per target material type, the destination
attribute and the preferred upstream output plug. -/
def MASTER_MAP : List (String × List (String × (String × String))) := [
  ("baseColor", [
    ("RedshiftStandardMaterial", ("base_color", "outColor")),
    ("RedshiftMaterial", ("diffuse_color", "outColor")),
    ("RedshiftArchitectural", ("diffuse", "outColor")),
    ("RedshiftCarPaint", ("base_color", "outColor")),
    ("RedshiftSkin", ("overall_color", "outColor")),
    ("RedshiftToonMaterial", ("base_color", "outColor")),
    ("RedshiftOpenPBRMaterial", ("base_color", "outColor")),
    ("aiStandardSurface", ("baseColor", "outColor")),
    ("aiFlat", ("color", "outColor")),
    ("aiToon", ("base_color", "outColor")),
    ("standardSurface", ("baseColor", "outColor")),
    ("lambert", ("color", "outColor")),
    ("blinn", ("color", "outColor")),
    ("phong", ("color", "outColor")),
    ("phongE", ("color", "outColor")),
    ("surfaceShader", ("outColor", "outColor")),
    ("MASH", ("MASH_Color.texture", "outColor"))]),
  ("color", [
    ("RedshiftStandardMaterial", ("base_color", "outColor")),
    ("RedshiftMaterial", ("diffuse_color", "outColor")),
    ("aiStandardSurface", ("baseColor", "outColor")),
    ("standardSurface", ("baseColor", "outColor")),
    ("lambert", ("color", "outColor")),
    ("blinn", ("color", "outColor")),
    ("phong", ("color", "outColor")),
    ("phongE", ("color", "outColor")),
    ("MASH", ("MASH_Color.texture", "outColor"))]),
  ("specularRoughness", [
    ("RedshiftStandardMaterial", ("refl_roughness", "outAlpha")),
    ("RedshiftMaterial", ("refl_roughness", "outAlpha")),
    ("RedshiftOpenPBRMaterial", ("specular_roughness", "outAlpha")),
    ("RedshiftToonMaterial", ("refl_roughness", "outAlpha")),
    ("aiStandardSurface", ("specularRoughness", "outAlpha")),
    ("standardSurface", ("specularRoughness", "outAlpha")),
    ("blinn", ("eccentricity", "outAlpha")),
    ("MASH", ("MASH_Distribute.strengthMap", "outAlpha"))]),
  ("eccentricity", [
    ("RedshiftStandardMaterial", ("refl_roughness", "outAlpha")),
    ("aiStandardSurface", ("specularRoughness", "outAlpha")),
    ("standardSurface", ("specularRoughness", "outAlpha"))]),
  ("roughness", [
    ("RedshiftStandardMaterial", ("refl_roughness", "outAlpha")),
    ("aiStandardSurface", ("specularRoughness", "outAlpha")),
    ("standardSurface", ("specularRoughness", "outAlpha"))]),
  ("metalness", [
    ("RedshiftStandardMaterial", ("metalness", "outAlpha")),
    ("RedshiftOpenPBRMaterial", ("metalness", "outAlpha")),
    ("aiStandardSurface", ("metalness", "outAlpha")),
    ("standardSurface", ("metalness", "outAlpha")),
    ("MASH", ("MASH_Distribute.strengthMap", "outAlpha"))]),
  ("specularColor", [
    ("RedshiftStandardMaterial", ("refl_color", "outColor")),
    ("RedshiftMaterial", ("refl_color", "outColor")),
    ("aiStandardSurface", ("specularColor", "outColor")),
    ("standardSurface", ("specularColor", "outColor")),
    ("blinn", ("specularColor", "outColor")),
    ("phong", ("specularColor", "outColor")),
    ("phongE", ("specularColor", "outColor"))]),
  ("emissionColor", [
    ("RedshiftStandardMaterial", ("emission_color", "outColor")),
    ("RedshiftIncandescent", ("color", "outColor")),
    ("RedshiftOpenPBRMaterial", ("emission_color", "outColor")),
    ("aiStandardSurface", ("emissionColor", "outColor")),
    ("standardSurface", ("emissionColor", "outColor")),
    ("MASH", ("MASH_Color.texture", "outColor"))]),
  ("incandescence", [
    ("RedshiftStandardMaterial", ("emission_color", "outColor")),
    ("RedshiftIncandescent", ("color", "outColor")),
    ("aiStandardSurface", ("emissionColor", "outColor")),
    ("standardSurface", ("emissionColor", "outColor"))]),
  ("opacity", [
    ("RedshiftStandardMaterial", ("opacity_color", "outColor")),
    ("RedshiftMaterial", ("opacity_color", "outColor")),
    ("RedshiftSprite", ("opacity_color", "outColor")),
    ("aiStandardSurface", ("opacity", "outColor")),
    ("standardSurface", ("opacity", "outColor")),
    ("MASH", ("MASH_Distribute.strengthMap", "outAlpha"))]),
  ("transparency", [
    ("RedshiftStandardMaterial", ("opacity_color", "outColor")),
    ("aiStandardSurface", ("opacity", "outColor")),
    ("standardSurface", ("opacity", "outColor")),
    ("MASH", ("MASH_Distribute.strengthMap", "outAlpha"))]),
  ("normalCamera", [
    ("RedshiftStandardMaterial", ("bump_input", "out")),
    ("RedshiftMaterial", ("bump_input", "out")),
    ("RedshiftOpenPBRMaterial", ("bump_input", "out")),
    ("RedshiftToonMaterial", ("bump_input", "out")),
    ("aiStandardSurface", ("normalCamera", "outNormal")),
    ("standardSurface", ("normalCamera", "outNormal")),
    ("blinn", ("normalCamera", "outNormal")),
    ("phong", ("normalCamera", "outNormal")),
    ("lambert", ("normalCamera", "outNormal"))]),
  ("displacementShader", [
    ("RedshiftStandardMaterial", ("_displacement_", "outColor")),
    ("RedshiftMaterial", ("_displacement_", "outColor")),
    ("aiStandardSurface", ("_displacement_", "outColor")),
    ("standardSurface", ("_displacement_", "outColor"))]),
  ("subsurfaceColor", [
    ("RedshiftStandardMaterial", ("subsurface_color", "outColor")),
    ("RedshiftSkin", ("shallow_color", "outColor")),
    ("aiStandardSurface", ("subsurfaceColor", "outColor")),
    ("standardSurface", ("subsurfaceColor", "outColor"))]),
  ("coatColor", [
    ("RedshiftStandardMaterial", ("coat_color", "outColor")),
    ("aiStandardSurface", ("coatColor", "outColor")),
    ("standardSurface", ("coatColor", "outColor"))]),
  ("coatRoughness", [
    ("RedshiftStandardMaterial", ("coat_roughness", "outAlpha")),
    ("aiStandardSurface", ("coatRoughness", "outAlpha")),
    ("standardSurface", ("coatRoughness", "outAlpha"))]),
  ("base", [
    ("RedshiftStandardMaterial", ("diffuse_weight", "outAlpha")),
    ("aiStandardSurface", ("base", "outAlpha")),
    ("standardSurface", ("base", "outAlpha"))]),
  ("specular", [
    ("RedshiftStandardMaterial", ("refl_weight", "outAlpha")),
    ("aiStandardSurface", ("specular", "outAlpha")),
    ("standardSurface", ("specular", "outAlpha"))]),
  ("emission", [
    ("RedshiftStandardMaterial", ("emission_weight", "outAlpha")),
    ("aiStandardSurface", ("emission", "outAlpha")),
    ("standardSurface", ("emission", "outAlpha"))]),
  ("subsurface", [
    ("RedshiftStandardMaterial", ("subsurface_weight", "outAlpha")),
    ("aiStandardSurface", ("subsurface", "outAlpha")),
    ("standardSurface", ("subsurface", "outAlpha"))]),
  ("coat", [
    ("RedshiftStandardMaterial", ("coat_weight", "outAlpha")),
    ("aiStandardSurface", ("coat", "outAlpha")),
    ("standardSurface", ("coat", "outAlpha"))])]

/-- The keys of VALUE_MAP of texturesTransform.py.  VALUE_MAP maps each
key to the same row object as MASTER_MAP; collect_data only ever tests
key membership, so the key set is the whole content.  The source dict
literal lists "metalness" twice; a Python dict keeps one key. -/
def VALUE_MAP_KEYS : List String := [
  "baseColor", "color", "specularRoughness", "metalness",
  "specularColor", "emissionColor", "incandescence", "opacity",
  "base", "specular", "emission", "subsurface", "coat",
  "coatRoughness", "eccentricity"]

/-! ## The recursive graph converter (convert_node_for_renderer) -/

/-- The per-run conversion cache: original node name to converted node
name, most recent insertion first. -/
def Cache := List (String × String)
deriving instance DecidableEq, Repr for Cache

/-- The type of the recursive converter call threaded through the
wiring helpers. -/
def Conv : Type :=
  String → Scene × Cache → Except String String × (Scene × Cache)

/-- Lines 435-445 of texturesTransform.py, one upstream plug: convert
the upstream node (an uncaught error propagates), then inside try:
check isConnected and connect the converted node, still under the
original upstream attribute name; any error in the try body is
swallowed (except: pass). -/
def wireUp (conv : Conv) (newNode newIn : String) (up : Plug)
    (sc : Scene × Cache) : Except String Unit × (Scene × Cache) :=
  match conv up.node sc with
  | (.error e, sc') => (.error e, sc')
  | (.ok convUp, sc') =>
    match isConnectedE sc'.1 ⟨convUp, up.attr⟩ ⟨newNode, newIn⟩ with
    | .error _ => (.ok (), sc')
    | .ok true => (.ok (), sc')
    | .ok false =>
      (.ok (), ((connectAttrE sc'.1 ⟨convUp, up.attr⟩ ⟨newNode, newIn⟩).2, sc'.2))

/-- The for-up_plug-in-ups loop around wireUp. -/
def wireUpsList (conv : Conv) (newNode newIn : String) :
    List Plug → Scene × Cache → Except String Unit × (Scene × Cache)
  | [], sc => (.ok (), sc)
  | up :: rest, sc =>
    match wireUp conv newNode newIn up sc with
    | (.error e, sc') => (.error e, sc')
    | (.ok _, sc') => wireUpsList conv newNode newIn rest sc'

/-- Lines 431-445, one input-remap pair: skip when the original node
lacks the old attribute, else wire every plug feeding it. -/
def wireInput (conv : Conv) (src newNode : String)
    (pair : String × String) (sc : Scene × Cache) :
    Except String Unit × (Scene × Cache) :=
  match attrExistsE sc.1 src pair.1 with
  | .error e => (.error e, sc)
  | .ok false => (.ok (), sc)
  | .ok true =>
    match listIncomingE sc.1 ⟨src, pair.1⟩ with
    | .error e => (.error e, sc)
    | .ok ups => wireUpsList conv newNode pair.2 ups sc

/-- The for-old_in,new_in loop over the rule's input remap. -/
def wireInputsList (conv : Conv) (src newNode : String) :
    List (String × String) → Scene × Cache →
    Except String Unit × (Scene × Cache)
  | [], sc => (.ok (), sc)
  | pair :: rest, sc =>
    match wireInput conv src newNode pair sc with
    | (.error e, sc') => (.error e, sc')
    | (.ok _, sc') => wireInputsList conv src newNode rest sc'

/-- Lines 423-427: apply the rule's post_set literals, each setAttr
wrapped in try/except pass. -/
def postSetLoop (newNode : String) : List (String × MVal) → Scene → Scene
  | [], s => s
  | (a, v) :: rest, s =>
    postSetLoop newNode rest (setAttrE s ⟨newNode, a⟩ v).2

/-- One unfolding of convert_node_for_renderer (lines 405-446), with
the recursive occurrence abstracted as conv: cache hit returns the
cached node; passthrough types, types without a rule for this
renderer, and unavailable target types are cached as themselves and
returned; otherwise one node of the rule's target type is created,
cached before any input is processed, given its post_set values, and
its remapped inputs are wired from the recursively converted upstream
nodes. -/
def convertStep (renderer : String) (conv : Conv) (src : String)
    (sc : Scene × Cache) : Except String String × (Scene × Cache) :=
  match alookup sc.2 src with
  | some r => (.ok r, sc)
  | none =>
    match nodeTypeE sc.1 src with
    | .error e => (.error e, sc)
    | .ok ty =>
      if PASSTHROUGH_NODES.contains ty then
        (.ok src, (sc.1, (src, src) :: sc.2))
      else
        match ruleFor ty renderer with
        | none => (.ok src, (sc.1, (src, src) :: sc.2))
        | some rule =>
          if rule.ctype ∈ sc.1.avail then
            let created := createNodeS sc.1 rule.ctype (src ++ "_NF_conv")
            let cache1 : Cache := (src, created.1) :: sc.2
            let s2 := postSetLoop created.1 rule.post_set created.2
            match wireInputsList conv src created.1 rule.inputs (s2, cache1) with
            | (.error e, sc') => (.error e, sc')
            | (.ok _, sc') => (.ok created.1, sc')
          else (.ok src, (sc.1, (src, src) :: sc.2))

/-- Fuel-indexed convert_node_for_renderer: fuel bounds the recursion
depth, which the Python call stack leaves unbounded.  The termination
theorem for claim C5 shows nodeCount + 1 fuel is never exhausted. -/
def convertFuel (renderer : String) : Nat → String → Scene × Cache →
    Except String String × (Scene × Cache)
  | 0, _, sc => (.error "RECURSION_LIMIT", sc)
  | fuel + 1, src, sc => convertStep renderer (convertFuel renderer fuel) src sc

/-- convert_node_for_renderer of texturesTransform.py with the source
argument order, fuel made explicit. -/
def convert_node_for_renderer (fuel : Nat) (src_node target_renderer : String)
    (sc : Scene × Cache) : Except String String × (Scene × Cache) :=
  convertFuel target_renderer fuel src_node sc

/-- get_final_plug of texturesTransform.py (lines 449-458): convert
the owning node of a source plug and remap the plug's output attribute
name through the rule's output remap; a node type without a rule
returns the plug unchanged without touching the cache. -/
def get_final_plug (fuel : Nat) (source_plug : Plug)
    (target_renderer : String) (sc : Scene × Cache) :
    Except String Plug × (Scene × Cache) :=
  match nodeTypeE sc.1 source_plug.node with
  | .error e => (.error e, sc)
  | .ok ty =>
    match ruleFor ty target_renderer with
    | none => (.ok source_plug, sc)
    | some rule =>
      match convertFuel target_renderer fuel source_plug.node sc with
      | (.error e, sc') => (.error e, sc')
      | (.ok newNode, sc') =>
        (.ok ⟨newNode, (alookup rule.outputs source_plug.attr).getD source_plug.attr⟩, sc')

/-! ## Planner: walk_upstream_for_file, get_exact_source_plug,
collect_data -/

/-- The for-up loop of walk_upstream_for_file, with the recursive call
abstracted: results of the children are concatenated and the visited
set (a shared mutable Python set) is threaded through. -/
def walkMany
    (walk : String → List String → Except String (List String) × List String) :
    List String → List String → Except String (List String) × List String
  | [], visited => (.ok [], visited)
  | up :: rest, visited =>
    match walk up visited with
    | (.error e, v') => (.error e, v')
    | (.ok rs, v') =>
      match walkMany walk rest v' with
      | (.error e, v'') => (.error e, v'')
      | (.ok rs', v'') => (.ok (rs ++ rs'), v'')

/-- Fuel-indexed walk_upstream_for_file (lines 484-495): stop on a
visited node, mark the node visited, return it if it is a file node,
else walk every node feeding it. -/
def walkFuel (s : Scene) : Nat → String → List String →
    Except String (List String) × List String
  | 0, _, visited => (.error "RECURSION_LIMIT", visited)
  | fuel + 1, node, visited =>
    if visited.contains node then (.ok [], visited)
    else
      let visited1 := node :: visited
      match nodeTypeE s node with
      | .error e => (.error e, visited1)
      | .ok ty =>
        if ty = "file" then (.ok [node], visited1)
        else
          match listIncomingNodesE s node with
          | .error e => (.error e, visited1)
          | .ok ups => walkMany (walkFuel s fuel) ups visited1

/-- walk_upstream_for_file called as collect_data does, with a fresh
visited set and sufficient fuel. -/
def walk_upstream_for_file (s : Scene) (node : String) :
    Except String (List String) :=
  (walkFuel s (s.nodes.length + 1) node []).1

/-- get_exact_source_plug of texturesTransform.py (lines 498-503):
first plug feeding the attribute, if any. -/
def get_exact_source_plug (s : Scene) (shader attr : String) :
    Except String (Option Plug) :=
  match listIncomingE s ⟨shader, attr⟩ with
  | .error e => .error e
  | .ok conns => .ok conns.head?

/-- One transfer entry as built by collect_data: the dictionary of
lines 558-571 / 594-607. -/
structure Entry where
  shader : String
  shader_attr : String
  source_plug : Option Plug
  source_node : Option String
  source_attr : Option String
  file_node : Option String
  file_path : String
  tgt_attr : String
  preferred_plug : String
  target_type : String
  transfer_mode : String
  raw_value : Option MVal
deriving DecidableEq, Repr

/-- A texture-mode entry (lines 558-571). -/
def texEntry (shader srcAttr : String) (sp : Plug) (fnode : Option String)
    (fpath tgtAttr prefPlug ttype : String) : Entry :=
  ⟨shader, srcAttr, some sp, some sp.node, some sp.attr, fnode, fpath,
    tgtAttr, prefPlug, ttype, "texture", none⟩

/-- A value-mode entry (lines 594-607). -/
def valEntry (shader srcAttr tgtAttr prefPlug ttype : String)
    (v : MVal) : Entry :=
  ⟨shader, srcAttr, none, none, none, none, "", tgtAttr, prefPlug,
    ttype, "value", some v⟩

/-- The literal-default filter of lines 582-592: skip a pure-black
triple unless the channel is a base/specular colour channel, and skip
a scalar 0.0 for the three weight channels listed in the source. -/
def skipValue (srcAttr : String) (v : MVal) : Bool :=
  match v with
  | .triple r g b =>
    decide (r = 0 ∧ g = 0 ∧ b = 0) &&
      !(["baseColor", "color", "specularColor"].contains srcAttr)
  | .num q =>
    decide (q = 0) && ["emission", "subsurface", "coat"].contains srcAttr
  | .str _ => false

/-- The file-path lookup of lines 554-557: data path of the nearest
upstream file node, empty when there is none.  The getAttr is not
guarded in the source, so its error propagates. -/
def filePathOf (s : Scene) (fnode : Option String) : Except String String :=
  match fnode with
  | none => .ok ""
  | some f =>
    match getAttrE s ⟨f, "fileTextureName"⟩ with
    | .error e => .error e
    | .ok (.str p) => .ok p
    | .ok _ => .ok ""

/-- One iteration of the collect_data loop (lines 542-607) for one
MASTER_MAP row: nothing when the target material has no mapping or
the shader lacks the attribute; a texture entry when a live connection
feeds it; else, for attributes in VALUE_MAP, a value entry unless the
literal is filtered out (a getAttr failure is caught and skipped). -/
def collectOne (s : Scene) (shader ttype srcAttr : String)
    (tmap : List (String × (String × String))) :
    Except String (List Entry) :=
  match alookup tmap ttype with
  | none => .ok []
  | some (tgtAttr, prefPlug) =>
    match attrExistsE s shader srcAttr with
    | .error e => .error e
    | .ok false => .ok []
    | .ok true =>
      match get_exact_source_plug s shader srcAttr with
      | .error e => .error e
      | .ok (some sourcePlug) =>
        match walk_upstream_for_file s sourcePlug.node with
        | .error e => .error e
        | .ok fileNodes =>
          match filePathOf s fileNodes.head? with
          | .error e => .error e
          | .ok fpath =>
            .ok [texEntry shader srcAttr sourcePlug fileNodes.head?
              fpath tgtAttr prefPlug ttype]
      | .ok none =>
        if VALUE_MAP_KEYS.contains srcAttr then
          match getAttrE s ⟨shader, srcAttr⟩ with
          | .error _ => .ok []
          | .ok v =>
            if skipValue srcAttr v then .ok []
            else .ok [valEntry shader srcAttr tgtAttr prefPlug ttype v]
        else .ok []

/-- The collect_data loop over the MASTER_MAP rows in source order. -/
def collectRows (s : Scene) (shader ttype : String) :
    List (String × List (String × (String × String))) →
    Except String (List Entry)
  | [] => .ok []
  | (srcAttr, tmap) :: rest =>
    match collectOne s shader ttype srcAttr tmap with
    | .error e => .error e
    | .ok es =>
      match collectRows s shader ttype rest with
      | .error e => .error e
      | .ok rest' => .ok (es ++ rest')

/-- collect_data of texturesTransform.py (lines 536-609). -/
def collect_data (shader target_mat_type : String) (s : Scene) :
    Except String (List Entry) :=
  collectRows s shader target_mat_type MASTER_MAP

/-! ## Validator: validate_transfer -/

/-- Prefix test on character lists (String.startsWith does not reduce
in the kernel, so the model uses its own). -/
def listPre : List Char → List Char → Bool
  | [], _ => true
  | _ :: _, [] => false
  | a :: as, b :: bs => a = b && listPre as bs

/-- Model of str.startswith(p). -/
def strStartsWith (s p : String) : Bool :=
  listPre p.data s.data

/-- Characters before the first occurrence of c. -/
def upToChar (c : Char) : List Char → List Char
  | [] => []
  | x :: xs => if x = c then [] else x :: upToChar c xs

/-- Characters after the first occurrence of c (empty when absent). -/
def afterChar (c : Char) : List Char → List Char
  | [] => []
  | x :: xs => if x = c then xs else afterChar c xs

/-- A validation issue: level "warn" or "error", a message, and the
entry it refers to. -/
structure Warning where
  level : String
  message : String
  entry : Entry
deriving DecidableEq, Repr

/-- The missing-texture-path warning text (lines 619-622). -/
def fileWarnMsg (f shaderAttr : String) : String :=
  "File node '" ++ f ++ "' on '" ++ shaderAttr ++
    "' has NO texture path.\n  ➤ Assign an image in Hypershade first."

/-- The slot-collision warning text (lines 624-627): names the earlier
entry recorded for the slot and the current entry. -/
def conflictMsg (prevAttr curAttr tgt : String) : String :=
  "Conflict: '" ++ prevAttr ++ "' and '" ++ curAttr ++
    "' both target '" ++ tgt ++ "'.\n  ➤ Last connection wins."

/-- The missing-destination-attribute error text (lines 634-637). -/
def missingAttrMsg (tgt target : String) : String :=
  "Attribute '" ++ tgt ++ "' NOT found on '" ++ target ++
    "'.\n  ➤ Make sure the renderer plugin is loaded."

/-- The pending-auto-conversion warning text (lines 643-647). -/
def autoConvMsg (srcNode nt ctype renderer : String) : String :=
  "'" ++ srcNode ++ "' (" ++ nt ++ ") will be AUTO-CONVERTED to '" ++
    ctype ++ "' for " ++ renderer ++
    ".\n  ➤ NodeFlow handles this automatically."

/-- Python truthiness of the target_node argument. -/
def truthyTarget : Option String → Bool
  | none => false
  | some x => x ≠ ""

/-- tgt_attr.split(".")[0]. -/
def baseOf (tgt : String) : String :=
  ⟨upToChar '.' tgt.data⟩

/-- Warnings contributed by one entry of validate_transfer
(lines 616-647), given the slot_seen table so far; an attributeQuery
or nodeType failure propagates (neither call is guarded). -/
def validateEntry (s : Scene) (target_node : Option String)
    (ttype renderer : String) (slotSeen : List (String × Entry))
    (e : Entry) : Except String (List Warning) :=
  let ws1 : List Warning :=
    match e.file_node with
    | some f => if e.file_path = "" then
        [⟨"warn", fileWarnMsg f e.shader_attr, e⟩] else []
    | none => []
  let ws2 : List Warning :=
    match alookup slotSeen e.tgt_attr with
    | some prev => [⟨"warn", conflictMsg prev.shader_attr e.shader_attr e.tgt_attr, e⟩]
    | none => []
  let dstCheck : Except String (List Warning) :=
    if ttype ≠ "MASH" && truthyTarget target_node &&
        !(strStartsWith e.tgt_attr "_displacement_") &&
        !(strStartsWith e.tgt_attr "MASH_") then
      match target_node with
      | none => .ok []
      | some x =>
        match attrExistsE s x (baseOf e.tgt_attr) with
        | .error err => .error err
        | .ok true => .ok []
        | .ok false => .ok [⟨"error", missingAttrMsg e.tgt_attr x, e⟩]
    else .ok []
  match dstCheck with
  | .error err => .error err
  | .ok ws3 =>
    match e.source_node with
    | none => .ok (ws1 ++ ws2 ++ ws3)
    | some sn =>
      match nodeTypeE s sn with
      | .error err => .error err
      | .ok nt =>
        let ws4 : List Warning :=
          if (alookup NODE_CONVERSION_TABLE nt).isSome then
            match ruleFor nt renderer with
            | some conv =>
              if conv.ctype ≠ nt then
                [⟨"warn", autoConvMsg sn nt conv.ctype renderer, e⟩]
              else []
            | none => []
          else []
        .ok (ws1 ++ ws2 ++ ws3 ++ ws4)

/-- The validate_transfer loop, threading slot_seen (last entry for a
destination attribute wins, line 628). -/
def validateRows (s : Scene) (target_node : Option String)
    (ttype renderer : String) :
    List Entry → List (String × Entry) → Except String (List Warning)
  | [], _ => .ok []
  | e :: rest, slotSeen =>
    match validateEntry s target_node ttype renderer slotSeen e with
    | .error err => .error err
    | .ok ws =>
      match validateRows s target_node ttype renderer rest
          ((e.tgt_attr, e) :: slotSeen) with
      | .error err => .error err
      | .ok ws' => .ok (ws ++ ws')

/-- validate_transfer of texturesTransform.py (lines 612-648). -/
def validate_transfer (data : List Entry) (target_node : Option String)
    (target_mat_type : String) (s : Scene) : Except String (List Warning) :=
  validateRows s target_node target_mat_type
    (get_renderer_from_mat_type target_mat_type) data []

/-! ## Executor: do_transfer, assign_shader_to_meshes -/

/-- Executor loop state: the log so far, the lazily created MASH
colour node, the per-run conversion cache, and the scene. -/
structure DTSt where
  log : List String
  colorNode : Option String
  cache : Cache
  scene : Scene
deriving DecidableEq, Repr

/-- Append one log line. -/
def addLog (st : DTSt) (line : String) : DTSt :=
  { st with log := st.log ++ [line] }

/-- node.attr as the Python code renders a plug string. -/
def plugStr (p : Plug) : String :=
  p.node ++ "." ++ p.attr

/-- Right-pad with spaces, modelling Python format "s:<n". -/
def padTo (s : String) (n : Nat) : String :=
  s ++ String.mk (List.replicate (n - s.length) ' ')

/-- Rendering of a raw value in the OK-V log line.  The Python code
interpolates the Python value repr; any rendering is faithful up to
formatting, which no claim observes. -/
def mvalStr : MVal → String
  | .num q => toString q
  | .triple r g b => "[(" ++ toString r ++ ", " ++ toString g ++ ", " ++
      toString b ++ ")]"
  | .str s => s

/-- Everything after the first dot: tgt_attr.split(".", 1)[1]. -/
def afterFirstDot (t : String) : String :=
  ⟨afterChar '.' t.data⟩

/-- Lines 702-722, the texture branch of one executor entry, after the
destination plug has been resolved: a file-type source is wired from
its preferred plug directly, anything else goes through
get_final_plug (whose errors propagate — there is no try around it);
a vanished final node logs SKIP; the connection itself is guarded,
logging SKIP / OK-T / FAIL. -/
def execTexture (renderer : String) (st : DTSt) (e : Entry) (dst : Plug) :
    Except String Unit × DTSt :=
  match e.source_node with
  | none => (.error "nodeType: invalid argument None", st)
  | some srcN =>
    match nodeTypeE st.scene srcN with
    | .error err => (.error err, st)
    | .ok ty =>
      let finalRes : Except String Plug × DTSt :=
        if ty = "file" then (.ok ⟨srcN, e.preferred_plug⟩, st)
        else
          match e.source_plug with
          | none => (.error "split: invalid argument None", st)
          | some sp =>
            match get_final_plug (st.scene.nodes.length + 1) sp renderer
                (st.scene, st.cache) with
            | (.error err, (s', c')) =>
              (.error err, { st with scene := s', cache := c' })
            | (.ok fp, (s', c')) =>
              (.ok fp, { st with scene := s', cache := c' })
      match finalRes with
      | (.error err, st') => (.error err, st')
      | (.ok final, st') =>
        if ¬ objExists st'.scene final.node then
          (.ok (), addLog st' ("[SKIP] Source node '" ++ final.node ++ "' gone."))
        else
          match isConnectedE st'.scene final dst with
          | .error err =>
            (.ok (), addLog st' ("[FAIL] " ++ plugStr final ++ "  →  " ++
              plugStr dst ++ "\n       " ++ err))
          | .ok true =>
            (.ok (), addLog st' ("[SKIP] Already connected: " ++
              plugStr final ++ " → " ++ plugStr dst))
          | .ok false =>
            match connectAttrE st'.scene final dst with
            | (.error err, s') =>
              (.ok (), addLog { st' with scene := s' }
                ("[FAIL] " ++ plugStr final ++ "  →  " ++ plugStr dst ++
                  "\n       " ++ err))
            | (.ok _, s') =>
              (.ok (), addLog { st' with scene := s' }
                ("[OK-T] " ++ padTo (plugStr final) 50 ++ "  →  " ++ plugStr dst))

/-- Lines 725-739, the value branch: the setAttr and its logging are
inside try/except, so a failure logs FAIL and continues. -/
def execValue (st : DTSt) (e : Entry) (dst : Plug) :
    Except String Unit × DTSt :=
  match e.raw_value with
  | none =>
    (.ok (), addLog st ("[FAIL] value set " ++ plugStr dst ++
      ": setAttr: invalid value None"))
  | some v =>
    match setAttrE st.scene dst v with
    | (.error err, s') =>
      (.ok (), addLog { st with scene := s' }
        ("[FAIL] value set " ++ plugStr dst ++ ": " ++ err))
    | (.ok _, s') =>
      (.ok (), addLog { st with scene := s' }
        ("[OK-V] " ++ e.shader ++ "." ++ padTo e.shader_attr 30 ++
          "  →  " ++ plugStr dst ++ "  =  " ++ mvalStr v))

/-- Dispatch on the entry's transfer mode once the destination plug is
known. -/
def execModes (renderer : String) (st : DTSt) (e : Entry) (dst : Plug) :
    Except String Unit × DTSt :=
  if e.transfer_mode = "texture" then execTexture renderer st e dst
  else if e.transfer_mode = "value" then execValue st e dst
  else (.ok (), st)

/-- Lines 662-688, MASH destination resolution: the MASH_Color node is
created lazily once per run and reused (st.colorNode); the
MASH_Distribute strength map is enabled before use.  The two setAttr
calls here are unguarded in the source, so their errors propagate. -/
def execMashEntry (mash_waiter : Option String) (renderer : String)
    (st : DTSt) (e : Entry) : Except String Unit × DTSt :=
  match mash_waiter with
  | none => (.ok (), addLog st "[ERROR] MASH Waiter not found.")
  | some w =>
    if ¬ objExists st.scene w then
      (.ok (), addLog st "[ERROR] MASH Waiter not found.")
    else if strStartsWith e.tgt_attr "MASH_Color." then
      let mashAttr := afterFirstDot e.tgt_attr
      match st.colorNode with
      | some c => execModes renderer st e ⟨c, mashAttr⟩
      | none =>
        match connectedOfTypeE st.scene (some w) "MASH_Color" with
        | .error err => (.error err, st)
        | .ok existing =>
          match existing.head? with
          | some c =>
            execModes renderer { st with colorNode := some c } e ⟨c, mashAttr⟩
          | none =>
            let created := createNodeS st.scene "MASH_Color" (w ++ "_Color")
            match setAttrE created.2 ⟨created.1, "mapType"⟩ (.num 1) with
            | (.error err, s') =>
              (.error err, { st with scene := s', colorNode := some created.1 })
            | (.ok _, s') =>
              let st' := addLog { st with scene := s', colorNode := some created.1 }
                ("[INFO] Created MASH_Color: " ++ created.1)
              execModes renderer st' e ⟨created.1, mashAttr⟩
    else if strStartsWith e.tgt_attr "MASH_Distribute." then
      let mashAttr := afterFirstDot e.tgt_attr
      match connectedOfTypeE st.scene (some w) "MASH_Distribute" with
      | .error err => (.error err, st)
      | .ok dist =>
        match dist.head? with
        | none =>
          (.ok (), addLog st ("[SKIP] No MASH_Distribute for '" ++
            e.shader_attr ++ "'."))
        | some d =>
          match setAttrE st.scene ⟨d, "useStrengthMap"⟩ (.num 1) with
          | (.error err, s') => (.error err, { st with scene := s' })
          | (.ok _, s') =>
            execModes renderer { st with scene := s' } e ⟨d, mashAttr⟩
    else (.ok (), st)

/-- One iteration of the do_transfer loop (lines 657-739): resolve the
destination plug (MASH indirection, shading-group displacement, or a
plain attribute of the target node) and apply the entry. -/
def do_transfer_entry (target_node : Option String) (ttype : String)
    (mash_waiter : Option String) (renderer : String) (st : DTSt)
    (e : Entry) : Except String Unit × DTSt :=
  if ttype = "MASH" then execMashEntry mash_waiter renderer st e
  else if e.tgt_attr = "_displacement_" then
    match connectedOfTypeE st.scene target_node "shadingEngine" with
    | .error err => (.error err, st)
    | .ok sgs =>
      match sgs.head? with
      | none => (.ok (), addLog st "[SKIP] No shadingGroup for displacement.")
      | some sg => execModes renderer st e ⟨sg, "displacementShader"⟩
  else
    match target_node with
    | none => (.ok (), addLog st "[ERROR] Target 'None' not found.")
    | some x =>
      if ¬ objExists st.scene x then
        (.ok (), addLog st ("[ERROR] Target '" ++ x ++ "' not found."))
      else execModes renderer st e ⟨x, e.tgt_attr⟩

/-- The do_transfer loop over all entries; an uncaught error aborts
the remaining entries, as an uncaught Python exception would. -/
def do_transfer_loop (target_node : Option String) (ttype : String)
    (mash_waiter : Option String) (renderer : String) :
    List Entry → DTSt → Except String Unit × DTSt
  | [], st => (.ok (), st)
  | e :: rest, st =>
    match do_transfer_entry target_node ttype mash_waiter renderer st e with
    | (.error err, st') => (.error err, st')
    | (.ok _, st') => do_transfer_loop target_node ttype mash_waiter renderer rest st'

/-- do_transfer of texturesTransform.py (lines 651-741): fresh log,
fresh conversion cache, no MASH colour node; returns the log, or the
uncaught exception.  The scene reflects all mutations made before any
uncaught error. -/
def do_transfer (data : List Entry) (target_node : Option String)
    (target_mat_type : String) (mash_waiter : Option String) (s : Scene) :
    Except String (List String) × Scene :=
  let renderer := get_renderer_from_mat_type target_mat_type
  match do_transfer_loop target_node target_mat_type mash_waiter renderer
      data ⟨[], none, [], s⟩ with
  | (.error err, st) => (.error err, st.scene)
  | (.ok _, st) => (.ok st.log, st.scene)

/-- Count of entries the run reports as applied: log lines tagged OK-T
or OK-V. -/
def okCount (log : List String) : Nat :=
  (log.filter (fun l => strStartsWith l "[OK")).length

/-- The per-old-shading-group loop of assign_shader_to_meshes
(lines 769-778): move every member to the new shading group, count
them and log the reassignment; empty groups are skipped. -/
def assignLoop (newSg : String) :
    List String → Nat × Scene × List String →
    Except String (Nat × Scene × List String)
  | [], acc => .ok acc
  | sg :: rest, (total, s, log) =>
    match sgMembersE s sg with
    | .error e => .error e
    | .ok members =>
      if members.length > 0 then
        assignLoop newSg rest (total + members.length,
          forceElementS s members newSg,
          log ++ ["[ASSIGN] " ++ toString members.length ++
            " object(s) reassigned: " ++ sg ++ " → " ++ newSg])
      else assignLoop newSg rest (total, s, log)

/-- assign_shader_to_meshes of texturesTransform.py (lines 759-779):
reassign all members of the old shader's shading groups to the new
shader's first shading group; the old shader is never deleted.
Returns the reassigned count, the scene and the appended log. -/
def assign_shader_to_meshes (new_shader old_shader : String)
    (log : List String) (s : Scene) :
    Except String (Nat × Scene × List String) :=
  match connectedOfTypeE s (some old_shader) "shadingEngine" with
  | .error e => .error e
  | .ok old_sgs =>
    match connectedOfTypeE s (some new_shader) "shadingEngine" with
    | .error e => .error e
    | .ok new_sgs =>
      match new_sgs.head? with
      | none =>
        .ok (0, s, log ++ ["[SKIP] No shading group on new shader '" ++
          new_shader ++ "'."])
      | some newSg => assignLoop newSg old_sgs (0, s, log)

/-! ## Decidability instances and concrete test scenes -/

deriving instance DecidableEq for Except

/-- Scene for claim C10: one aiNormalMap node and the bump2d type
available, so the Maya-schema rule (aiNormalMap to bump2d) can fire. -/
def c10Scene : Scene :=
  ⟨["N"], [("N", "aiNormalMap")],
   [("aiNormalMap", ["input", "outValue"]),
    ("bump2d", ["bumpValue", "outNormal", "bumpInterp"])],
   [], [], ["bump2d"], []⟩

/-- C10: a material type listed under no renderer resolves to the
"Maya" schema, and conversion toward that schema applies the Maya
node-conversion rules: on a live aiNormalMap node it creates a new
node of the mapped bump2d kind rather than doing nothing or failing. -/
theorem C10_unknown_material_uses_maya_schema (mt : String)
    (h : ∀ rm ∈ RENDERER_MATERIALS, ¬ (mt ∈ rm.2)) :
    get_renderer_from_mat_type mt = "Maya" ∧
    (convert_node_for_renderer 2 "N" (get_renderer_from_mat_type mt)
      (c10Scene, [])).1 = .ok "N_NF_conv" ∧
    alookup (convert_node_for_renderer 2 "N" (get_renderer_from_mat_type mt)
      (c10Scene, [])).2.1.ntypes "N_NF_conv" = some "bump2d" := by
  have h1 : get_renderer_from_mat_type mt = "Maya" := by
    unfold get_renderer_from_mat_type
    rw [List.find?_eq_none.mpr]
    intro rm hrm
    simpa using h rm hrm
  refine ⟨h1, ?_, ?_⟩ <;> rw [h1] <;> decide

/-- Witness for C10 at the concrete unknown material type. -/
theorem C10_unknown_material_uses_maya_schema_witness :
    (∀ rm ∈ RENDERER_MATERIALS, ¬ ("unknownMaterialXYZ" ∈ rm.2)) ∧
    get_renderer_from_mat_type "unknownMaterialXYZ" = "Maya" := by
  have h : ∀ rm ∈ RENDERER_MATERIALS, ¬ ("unknownMaterialXYZ" ∈ rm.2) := by decide
  exact ⟨h, (C10_unknown_material_uses_maya_schema "unknownMaterialXYZ" h).1⟩

/-- Scene for claim C3: passthrough node P (colorCorrect) fed by a
convertible node U (bump2d), with the Redshift target type present. -/
def c3Scene : Scene :=
  ⟨["P", "U"],
   [("P", "colorCorrect"), ("U", "bump2d")],
   [("colorCorrect", ["inColor", "outColor"]),
    ("bump2d", ["bumpValue", "outNormal", "bumpInterp"]),
    ("RedshiftBumpMap", ["input", "out", "inputType"])],
   [(⟨"U", "outNormal"⟩, ⟨"P", "inColor"⟩)],
   [], ["RedshiftBumpMap"], []⟩

/-- Counterexample to C3: converting the passthrough node P returns P
and leaves the scene completely unchanged — the upstream convertible
node U is neither converted nor even entered in the cache, although
converting U directly would change the scene.  The claim says the
converter still recurses into a passthrough node's upstream inputs so
that deeper nodes get converted; it does not. -/
theorem C3_passthrough_no_recursion_counterexample :
    convert_node_for_renderer 5 "P" "Redshift" (c3Scene, []) =
      (.ok "P", (c3Scene, [("P", "P")])) ∧
    ¬ ((convert_node_for_renderer 5 "U" "Redshift" (c3Scene, [])).2.1 =
      c3Scene) := by
  decide

/-- C3 amended: when a node's kind is passthrough or has no conversion
rule for the target schema, the converter returns the original node as
the converted reference, caches that identity mapping, and creates no
new node — but it does not recurse into the node's upstream inputs:
the scene is returned untouched and nothing deeper is converted. -/
theorem C3_amended_passthrough_returns_original_without_recursion
    (renderer src ty : String) (fuel : Nat) (s : Scene) (c : Cache)
    (hnc : alookup c src = none) (hty : nodeTypeE s src = .ok ty)
    (hpass : PASSTHROUGH_NODES.contains ty = true ∨ ruleFor ty renderer = none) :
    convert_node_for_renderer (fuel + 1) src renderer (s, c) =
      (.ok src, (s, (src, src) :: c)) := by
  unfold convert_node_for_renderer convertFuel convertStep
  rw [hnc, hty]
  rcases hpass with h | h
  · have hm : ty ∈ PASSTHROUGH_NODES := by simpa using h
    simp [hm]
  · by_cases hp : ty ∈ PASSTHROUGH_NODES
    · simp [hp]
    · simp [hp, h]

/-- Witness for the amended C3 on the concrete passthrough scene. -/
theorem C3_amended_passthrough_witness :
    alookup ([] : Cache) "P" = none ∧
    nodeTypeE c3Scene "P" = .ok "colorCorrect" ∧
    PASSTHROUGH_NODES.contains "colorCorrect" = true ∧
    convert_node_for_renderer 5 "P" "Redshift" (c3Scene, []) =
      (.ok "P", (c3Scene, [("P", "P")])) :=
  ⟨by decide, by decide, by decide,
    C3_amended_passthrough_returns_original_without_recursion
      "Redshift" "P" "colorCorrect" 4 c3Scene []
      (by decide) (by decide) (Or.inl (by decide))⟩

/-- Reduction of wireUp once the recursive conversion result is
known. -/
theorem wireUp_ok (conv : Conv) (nN nI : String) (up : Plug)
    (sc sc' : Scene × Cache) (convUp : String)
    (h : conv up.node sc = (.ok convUp, sc')) :
    wireUp conv nN nI up sc =
      match isConnectedE sc'.1 ⟨convUp, up.attr⟩ ⟨nN, nI⟩ with
      | .error _ => (.ok (), sc')
      | .ok true => (.ok (), sc')
      | .ok false =>
        (.ok (), ((connectAttrE sc'.1 ⟨convUp, up.attr⟩ ⟨nN, nI⟩).2, sc'.2)) := by
  unfold wireUp
  rw [h]

/-- Scene for claim C2: node A (aiNormalMap) fed by U (bump2d) on its
input attribute; both kinds have Redshift rules mapping to
RedshiftBumpMap, whose output attribute is named out (the remap
outNormal to out / outValue to out is what the claim expects to be
applied during recursive wiring). -/
def c2Scene : Scene :=
  ⟨["A", "U"],
   [("A", "aiNormalMap"), ("U", "bump2d")],
   [("aiNormalMap", ["input", "outValue"]),
    ("bump2d", ["bumpValue", "outNormal", "bumpInterp"]),
    ("RedshiftBumpMap", ["input", "out", "inputType"])],
   [(⟨"U", "outNormal"⟩, ⟨"A", "input"⟩)],
   [], ["RedshiftBumpMap"], []⟩

/-- Counterexample to C2: converting A to Redshift converts the
upstream U to U_NF_conv (a RedshiftBumpMap), but wires nothing — the
connection set is unchanged, and in particular the remapped plug
U_NF_conv.out that the claim requires to be connected to
A_NF_conv.input is absent.  The code used the original attribute name
outNormal, which the converted node does not expose, and swallowed the
failure. -/
theorem C2_no_output_remap_counterexample :
    (convert_node_for_renderer 5 "A" "Redshift" (c2Scene, [])).1 =
      .ok "A_NF_conv" ∧
    alookup (convert_node_for_renderer 5 "A" "Redshift" (c2Scene, [])).2.2 "U" =
      some "U_NF_conv" ∧
    (convert_node_for_renderer 5 "A" "Redshift" (c2Scene, [])).2.1.conns =
      c2Scene.conns ∧
    ¬ ((⟨"U_NF_conv", "out"⟩, ⟨"A_NF_conv", "input"⟩) ∈
      (convert_node_for_renderer 5 "A" "Redshift" (c2Scene, [])).2.1.conns) := by
  decide

/-- C2 amended: when the converter wires a recursively converted
upstream node, the connection it attempts uses the upstream plug's
original output attribute name — the upstream node's output_remap is
not consulted.  Consequently any connection added by the wiring step
is exactly (convertedUpstream, originalAttr) to the new input, and
when the converted upstream node does not expose the original
attribute name, no connection is made at all and the scene is left as
the recursive conversion produced it. -/
theorem C2_amended_original_attr_name_used (conv : Conv)
    (newNode newIn : String) (up : Plug) (sc : Scene × Cache)
    (convUp : String) (sc' : Scene × Cache)
    (h : conv up.node sc = (.ok convUp, sc')) :
    (∀ c, c ∈ (wireUp conv newNode newIn up sc).2.1.conns →
      c ∈ sc'.1.conns ∨ c = (⟨convUp, up.attr⟩, ⟨newNode, newIn⟩)) ∧
    (plugValid sc'.1 ⟨convUp, up.attr⟩ = false →
      (wireUp conv newNode newIn up sc).2.1 = sc'.1) := by
  have hw := wireUp_ok conv newNode newIn up sc sc' convUp h
  rcases hic : isConnectedE sc'.1 ⟨convUp, up.attr⟩ ⟨newNode, newIn⟩ with e | b
  · rw [hic] at hw
    have hred : wireUp conv newNode newIn up sc = (.ok (), sc') := hw
    rw [hred]
    exact ⟨fun c hc => Or.inl hc, fun _ => rfl⟩
  · cases b
    · rw [hic] at hw
      have hred : wireUp conv newNode newIn up sc =
          (.ok (), ((connectAttrE sc'.1 ⟨convUp, up.attr⟩ ⟨newNode, newIn⟩).2, sc'.2)) := hw
      rw [hred]
      constructor
      · intro c hc
        simp only at hc
        unfold connectAttrE at hc
        by_cases hv : (plugValid sc'.1 ⟨convUp, up.attr⟩ &&
            plugValid sc'.1 ⟨newNode, newIn⟩) = true
        · rw [if_pos hv] at hc
          simp only [List.mem_append, List.mem_filter, List.mem_singleton] at hc
          rcases hc with ⟨hc, _⟩ | hc
          exacts [Or.inl hc, Or.inr hc]
        · rw [if_neg hv] at hc
          exact Or.inl hc
      · intro hv
        exfalso
        unfold isConnectedE at hic
        rw [if_neg (by simp [hv])] at hic
        exact Except.noConfusion hic
    · rw [hic] at hw
      have hred : wireUp conv newNode newIn up sc = (.ok (), sc') := hw
      rw [hred]
      exact ⟨fun c hc => Or.inl hc, fun _ => rfl⟩

/-- Witness for the amended C2: the recursive conversion of U inside
the conversion of A returns U_NF_conv whose out-named output makes the
original name outNormal invalid, so the wiring step adds nothing. -/
theorem C2_amended_original_attr_name_used_witness :
    (convertFuel "Redshift" 4 "U"
      ((convert_node_for_renderer 5 "A" "Redshift" (c2Scene, [])).2.1,
        (convert_node_for_renderer 5 "A" "Redshift" (c2Scene, [])).2.2)).1 =
      .ok "U_NF_conv" ∧
    plugValid (convert_node_for_renderer 5 "A" "Redshift" (c2Scene, [])).2.1
      ⟨"U_NF_conv", "outNormal"⟩ = false ∧
    (wireUp (convertFuel "Redshift" 4) "A_NF_conv" "input"
      ⟨"U", "outNormal"⟩
      ((convert_node_for_renderer 5 "A" "Redshift" (c2Scene, [])).2.1,
        (convert_node_for_renderer 5 "A" "Redshift" (c2Scene, [])).2.2)).2.1 =
      (convertFuel "Redshift" 4 "U"
        ((convert_node_for_renderer 5 "A" "Redshift" (c2Scene, [])).2.1,
          (convert_node_for_renderer 5 "A" "Redshift" (c2Scene, [])).2.2)).2.1 := by
  refine ⟨by decide, by decide, ?_⟩
  exact (C2_amended_original_attr_name_used (convertFuel "Redshift" 4)
    "A_NF_conv" "input" ⟨"U", "outNormal"⟩ _ "U_NF_conv" _ (by decide)).2 (by decide)

/-- Scene for claim C8: a valid target T and a healthy value entry,
but the plan's first entry references the deleted node GHOST. -/
def c8Scene : Scene :=
  ⟨["S", "T"],
   [("S", "aiStandardSurface"), ("T", "standardSurface")],
   [("aiStandardSurface", ["baseColor", "coat"]),
    ("standardSurface", ["baseColor", "coat"])],
   [], [(⟨"S", "coat"⟩, .num 3)], [], []⟩

/-- The stale texture entry of claim C8: its source node GHOST no
longer exists in the scene. -/
def c8Ghost : Entry :=
  texEntry "GHOST" "baseColor" ⟨"GHOST", "outColor"⟩ none ""
    "baseColor" "outColor" "standardSurface"

/-- The healthy value entry of claim C8, after the stale one. -/
def c8Val : Entry :=
  valEntry "S" "coat" "coat" "outAlpha" "standardSurface" (.num 3)

/-- C8: executing a plan whose first entry has a stale source node
raises the Maya error from cmds.nodeType(source_node) — called at line
706 before any existence check — out of do_transfer: no log is
returned, and the remaining healthy value entry is never applied (the
target's coat value stays unset).  The [SKIP] Source node gone
handling at lines 712-713 shows the intended graceful path, but it is
only reached after the unguarded nodeType call. -/
theorem C8_stale_source_raises_uncaught :
    (do_transfer [c8Ghost, c8Val] (some "T") "standardSurface" none c8Scene).1 =
      .error "No object named GHOST" ∧
    alookup (do_transfer [c8Ghost, c8Val] (some "T") "standardSurface" none
      c8Scene).2.vals ⟨"T", "coat"⟩ = none := by
  decide

/-- Scene for claim C9: old material old with two shading groups SG1
(members m1, m2) and SG2 (member m3); new material new with empty
shading group SGn. -/
def c9Scene : Scene :=
  ⟨["old", "new", "SG1", "SG2", "SGn", "m1", "m2", "m3"],
   [("old", "blinn"), ("new", "aiStandardSurface"),
    ("SG1", "shadingEngine"), ("SG2", "shadingEngine"),
    ("SGn", "shadingEngine")],
   [("blinn", ["outColor"]), ("aiStandardSurface", ["outColor"]),
    ("shadingEngine", ["surfaceShader"])],
   [(⟨"old", "outColor"⟩, ⟨"SG1", "surfaceShader"⟩),
    (⟨"old", "outColor"⟩, ⟨"SG2", "surfaceShader"⟩),
    (⟨"new", "outColor"⟩, ⟨"SGn", "surfaceShader"⟩)],
   [], [],
   [("SG1", ["m1", "m2"]), ("SG2", ["m3"]), ("SGn", [])]⟩

theorem alookup_append {α β : Type} [DecidableEq α] (l1 l2 : List (α × β)) (k : α) :
    alookup (l1 ++ l2) k =
      match alookup l1 k with
      | some v => some v
      | none => alookup l2 k := by
  induction l1 with
  | nil => rfl
  | cons h t ih =>
    obtain ⟨k', v'⟩ := h
    by_cases hk : k' = k
    · simp [alookup, hk]
    · simp [alookup, hk, ih]

theorem alookup_map_filter (l : List (String × List String)) (k : String)
    (p : String → Bool) :
    alookup (l.map (fun gm => (gm.1, gm.2.filter p))) k =
      (alookup l k).map (fun v => v.filter p) := by
  induction l with
  | nil => rfl
  | cons h t ih =>
    obtain ⟨k', v'⟩ := h
    by_cases hk : k' = k
    · simp [alookup, hk]
    · simp [alookup, hk, ih]

theorem alookup_map_addif (l : List (String × List String)) (k sg : String)
    (members : List String) :
    alookup (l.map (fun gm => if gm.1 = sg then (gm.1, gm.2 ++ members) else gm)) k =
      (alookup l k).map (fun v => if k = sg then v ++ members else v) := by
  induction l with
  | nil => rfl
  | cons h t ih =>
    obtain ⟨k', v'⟩ := h
    dsimp only [List.map]
    by_cases hsg : k' = sg
    · subst hsg
      rw [if_pos rfl]
      by_cases hk : k' = k
      · subst hk
        simp [alookup, ih]
      · simp [alookup, hk, ih, Ne.symm hk]
    · rw [if_neg hsg]
      by_cases hk : k' = k
      · subst hk
        simp [alookup, hsg]
      · simp [alookup, hk, ih]

theorem alookup_isSome_any {β : Type} (l : List (String × β)) (k : String) :
    l.any (fun q => q.1 = k) = (alookup l k).isSome := by
  induction l with
  | nil => rfl
  | cons h t ih =>
    obtain ⟨k', v'⟩ := h
    by_cases hk : k' = k
    · simp [alookup, hk]
    · simp [alookup, hk, ih]

def sgMem (s : Scene) (g : String) : List String :=
  (alookup s.sgMembers g).getD []

theorem forceElementS_frame (s : Scene) (members : List String) (sg : String) :
    (forceElementS s members sg).nodes = s.nodes ∧
    (forceElementS s members sg).ntypes = s.ntypes ∧
    (forceElementS s members sg).kindAttrs = s.kindAttrs ∧
    (forceElementS s members sg).conns = s.conns ∧
    (forceElementS s members sg).vals = s.vals ∧
    (forceElementS s members sg).avail = s.avail := by
  unfold forceElementS
  dsimp only
  split <;> exact ⟨rfl, rfl, rfl, rfl, rfl, rfl⟩

theorem sgMem_forceElementS_self (s : Scene) (members : List String) (sg : String) :
    sgMem (forceElementS s members sg) sg =
      (sgMem s sg).filter (fun m => ¬ members.contains m) ++ members := by
  unfold forceElementS sgMem
  dsimp only
  split
  · rw [alookup_map_addif, alookup_map_filter]
    cases h : alookup s.sgMembers sg with
    | none =>
      next hany =>
        rw [alookup_isSome_any, alookup_map_filter, h] at hany
        simp at hany
    | some v => simp
  · rw [alookup_append, alookup_map_filter]
    cases h : alookup s.sgMembers sg with
    | none => simp [alookup]
    | some v =>
      next hany =>
        rw [alookup_isSome_any, alookup_map_filter, h] at hany
        simp at hany

theorem sgMem_forceElementS_other (s : Scene) (members : List String)
    (sg g : String) (hg : g ≠ sg) :
    sgMem (forceElementS s members sg) g =
      (sgMem s g).filter (fun m => ¬ members.contains m) := by
  unfold forceElementS sgMem
  dsimp only
  split
  · rw [alookup_map_addif, alookup_map_filter]
    cases h : alookup s.sgMembers g with
    | none => simp
    | some v => simp [hg]
  · rw [alookup_append, alookup_map_filter]
    cases h : alookup s.sgMembers g with
    | none => simp [alookup, Ne.symm hg]
    | some v => simp

theorem objExists_forceElementS (s : Scene) (members : List String)
    (sg n : String) : objExists (forceElementS s members sg) n = objExists s n := by
  unfold objExists
  rw [(forceElementS_frame s members sg).1]

theorem assignLoop_cons (newSg sg : String) (rest : List String)
    (total : Nat) (s : Scene) (log : List String) (members : List String)
    (hm : sgMembersE s sg = .ok members) :
    assignLoop newSg (sg :: rest) (total, s, log) =
      if members.length > 0 then
        assignLoop newSg rest (total + members.length,
          forceElementS s members newSg,
          log ++ ["[ASSIGN] " ++ toString members.length ++
            " object(s) reassigned: " ++ sg ++ " → " ++ newSg])
      else assignLoop newSg rest (total, s, log) := by
  conv_lhs => unfold assignLoop
  rw [hm]

theorem assignLoop_spec (newSg : String) :
    ∀ (sgs : List String) (total : Nat) (s : Scene) (log : List String),
    (∀ g ∈ sgs, objExists s g = true) →
    (newSg ∉ sgs) →
    (List.Pairwise (fun a b => ∀ m ∈ sgMem s a, m ∉ sgMem s b) sgs) →
    ∃ s' log',
      assignLoop newSg sgs (total, s, log) =
        .ok (total + (sgs.map (fun g => (sgMem s g).length)).sum, s', log') ∧
      s'.nodes = s.nodes ∧ s'.ntypes = s.ntypes ∧ s'.conns = s.conns ∧
      (∀ g ∈ sgs, ∀ m ∈ sgMem s g, m ∈ sgMem s' newSg) ∧
      (∀ m ∈ sgMem s newSg, m ∈ sgMem s' newSg) := by
  intro sgs
  induction sgs with
  | nil =>
    intro total s log _ _ _
    exact ⟨s, log, by simp [assignLoop], rfl, rfl, rfl, by simp, fun m hm => hm⟩
  | cons sg rest ih =>
    intro total s log hex hnot hpair
    have hex_sg : objExists s sg = true := hex sg (List.mem_cons_self sg rest)
    have hm : sgMembersE s sg = .ok (sgMem s sg) := by
      unfold sgMembersE sgMem
      rw [if_pos hex_sg]
    rw [List.pairwise_cons] at hpair
    obtain ⟨hdisj, hpair_rest⟩ := hpair
    by_cases hlen : (sgMem s sg).length > 0
    · -- members nonempty: move them and recurse
      have hfr := forceElementS_frame s (sgMem s sg) newSg
      set s1 := forceElementS s (sgMem s sg) newSg with hs1
      have hmem_rest : ∀ g ∈ rest, sgMem s1 g = sgMem s g := by
        intro g hg
        have hgne : g ≠ newSg := by
          intro hgeq
          exact hnot (hgeq ▸ List.mem_cons_of_mem sg hg)
        rw [hs1, sgMem_forceElementS_other s (sgMem s sg) newSg g hgne]
        apply List.filter_eq_self.mpr
        intro m hmm
        simp only [decide_eq_true_eq]
        intro hcon
        exact (hdisj g hg) m (by simpa using hcon) hmm
      have hex1 : ∀ g ∈ rest, objExists s1 g = true := by
        intro g hg
        rw [hs1, objExists_forceElementS]
        exact hex g (List.mem_cons_of_mem sg hg)
      have hnot1 : newSg ∉ rest := fun hc => hnot (List.mem_cons_of_mem sg hc)
      have hpair1 : List.Pairwise (fun a b => ∀ m ∈ sgMem s1 a, m ∉ sgMem s1 b) rest := by
        apply List.Pairwise.imp_of_mem ?_ hpair_rest
        intro a b ha hb hab
        rw [hmem_rest a ha, hmem_rest b hb]
        exact hab
      obtain ⟨s', log', heq, hn, ht, hc, hmems, hpres⟩ :=
        ih (total + (sgMem s sg).length) s1
          (log ++ ["[ASSIGN] " ++ toString (sgMem s sg).length ++
            " object(s) reassigned: " ++ sg ++ " → " ++ newSg])
          hex1 hnot1 hpair1
      have hself : sgMem s1 newSg =
          (sgMem s newSg).filter (fun m => ¬ (sgMem s sg).contains m) ++ sgMem s sg :=
        sgMem_forceElementS_self s (sgMem s sg) newSg
      refine ⟨s', log', ?_, by rw [hn, hs1]; exact hfr.1,
        by rw [ht, hs1]; exact hfr.2.1, by rw [hc, hs1]; exact hfr.2.2.2.1, ?_, ?_⟩
      · show assignLoop newSg (sg :: rest) (total, s, log) = _
        have hsum : total + (sgMem s sg).length +
            (rest.map (fun g => (sgMem s1 g).length)).sum =
            total + ((sg :: rest).map (fun g => (sgMem s g).length)).sum := by
          rw [List.map_congr_left (fun g hg => by rw [hmem_rest g hg])]
          simp [Nat.add_assoc]
        rw [assignLoop_cons newSg sg rest total s log (sgMem s sg) hm]
        rw [if_pos hlen]
        rw [heq, hsum]
      · intro g hg m hmem
        rcases List.mem_cons.mp hg with hgeq | hgr
        · subst hgeq
          apply hpres
          rw [hself]
          exact List.mem_append_right _ hmem
        · rw [← hmem_rest g hgr] at hmem
          exact hmems g hgr m hmem
      · intro m hmem
        apply hpres
        rw [hself]
        by_cases hin : (sgMem s sg).contains m
        · exact List.mem_append_right _ (by simpa using hin)
        · exact List.mem_append_left _ (List.mem_filter.mpr ⟨hmem, by simpa using hin⟩)
    · -- members empty: skip
      have hempty : sgMem s sg = [] := List.length_eq_zero.mp (by omega)
      obtain ⟨s', log', heq, hn, ht, hc, hmems, hpres⟩ :=
        ih total s log (fun g hg => hex g (List.mem_cons_of_mem sg hg))
          (fun hc => hnot (List.mem_cons_of_mem sg hc)) hpair_rest
      refine ⟨s', log', ?_, hn, ht, hc, ?_, hpres⟩
      · have hsum : total + (rest.map (fun g => (sgMem s g).length)).sum =
            total + ((sg :: rest).map (fun g => (sgMem s g).length)).sum := by
          simp [hempty]
        rw [assignLoop_cons newSg sg rest total s log (sgMem s sg) hm]
        rw [if_neg hlen]
        rw [heq, hsum]
      · intro g hg m hmem
        rcases List.mem_cons.mp hg with hgeq | hgr
        · subst hgeq
          rw [hempty] at hmem
          exact absurd hmem (List.not_mem_nil m)
        · exact hmems g hgr m hmem

theorem connectedOfTypeE_ok_exists (s : Scene) (n : String) (t : String)
    (l : List String) (h : connectedOfTypeE s (some n) t = .ok l) :
    objExists s n = true := by
  by_contra hc
  unfold connectedOfTypeE at h
  dsimp only at h
  rw [if_neg hc] at h
  exact Except.noConfusion h

theorem assign_shader_unfold (s : Scene) (new_shader old_shader : String)
    (log : List String) (old_sgs new_sgs : List String) (newSg : String)
    (ho : connectedOfTypeE s (some old_shader) "shadingEngine" = .ok old_sgs)
    (hn : connectedOfTypeE s (some new_shader) "shadingEngine" = .ok new_sgs)
    (hhead : new_sgs.head? = some newSg) :
    assign_shader_to_meshes new_shader old_shader log s =
      assignLoop newSg old_sgs (0, s, log) := by
  unfold assign_shader_to_meshes
  rw [ho]
  dsimp only
  rw [hn]
  dsimp only
  rw [hhead]

/-- C9: after a transfer run, every member of every shading group of
the old material is reassigned into the new material's (first) shading
group and counted in the returned total, and the old material node
still exists — assign_shader_to_meshes never deletes a node (the node
list is unchanged). -/
theorem C9_reassigns_all_consumers_keeps_old_shader
    (s : Scene) (new_shader old_shader : String) (log : List String)
    (old_sgs new_sgs : List String) (newSg : String)
    (ho : connectedOfTypeE s (some old_shader) "shadingEngine" = .ok old_sgs)
    (hn : connectedOfTypeE s (some new_shader) "shadingEngine" = .ok new_sgs)
    (hhead : new_sgs.head? = some newSg)
    (hex : ∀ g ∈ old_sgs, objExists s g = true)
    (hnot : newSg ∉ old_sgs)
    (hpair : List.Pairwise (fun a b => ∀ m ∈ sgMem s a, m ∉ sgMem s b) old_sgs) :
    ∃ s' log',
      assign_shader_to_meshes new_shader old_shader log s =
        .ok ((old_sgs.map (fun g => (sgMem s g).length)).sum, s', log') ∧
      s'.nodes = s.nodes ∧
      objExists s' old_shader = true ∧
      (∀ g ∈ old_sgs, ∀ m ∈ sgMem s g, m ∈ sgMem s' newSg) := by
  obtain ⟨s', log', heq, hnodes, _, _, hmems, _⟩ :=
    assignLoop_spec newSg old_sgs 0 s log hex hnot hpair
  have hold : objExists s old_shader = true :=
    connectedOfTypeE_ok_exists s old_shader "shadingEngine" old_sgs ho
  refine ⟨s', log', ?_, hnodes, ?_, hmems⟩
  · rw [assign_shader_unfold s new_shader old_shader log old_sgs new_sgs newSg ho hn hhead]
    rw [heq]
    rw [Nat.zero_add]
  · unfold objExists at hold ⊢
    rw [hnodes]
    exact hold

/-- Witness for C9 on the concrete two-shading-group scene: total 3,
all of m1, m2, m3 end up in SGn, and old survives. -/
theorem C9_witness :
    connectedOfTypeE c9Scene (some "old") "shadingEngine" = .ok ["SG1", "SG2"] ∧
    connectedOfTypeE c9Scene (some "new") "shadingEngine" = .ok ["SGn"] ∧
    (∃ s' log',
      assign_shader_to_meshes "new" "old" [] c9Scene =
        .ok (((["SG1", "SG2"] : List String).map
          (fun g => (sgMem c9Scene g).length)).sum, s', log') ∧
      s'.nodes = c9Scene.nodes ∧
      objExists s' "old" = true ∧
      (∀ g ∈ (["SG1", "SG2"] : List String), ∀ m ∈ sgMem c9Scene g,
        m ∈ sgMem s' "SGn")) := by
  refine ⟨by decide, by decide, ?_⟩
  exact C9_reassigns_all_consumers_keeps_old_shader c9Scene "new" "old" []
    ["SG1", "SG2"] ["SGn"] "SGn" (by decide) (by decide) (by decide)
    (by decide) (by decide) (by decide)

/-- A converter call preserves every existing cache binding. -/
def CachePres (f : Conv) : Prop :=
  ∀ n sc k v, alookup sc.2 k = some v → alookup (f n sc).2.2 k = some v

theorem alookup_cons_preserve {c : Cache} {k n t : String} {v : String}
    (h1 : alookup c k = some v) (h2 : alookup c n = none) :
    alookup ((n, t) :: c) k = some v := by
  show (if n = k then some t else alookup c k) = some v
  rw [if_neg, h1]
  intro he
  rw [he, h1] at h2
  exact Option.noConfusion h2

theorem wireUp_cache (conv : Conv) (nN nI : String) (up : Plug)
    (sc : Scene × Cache) :
    (wireUp conv nN nI up sc).2.2 = (conv up.node sc).2.2 := by
  unfold wireUp
  rcases hc : conv up.node sc with ⟨res, sc'⟩
  cases res with
  | error e => rfl
  | ok convUp =>
    dsimp only
    cases isConnectedE sc'.1 ⟨convUp, up.attr⟩ ⟨nN, nI⟩ with
    | error e => rfl
    | ok b => cases b <;> rfl

theorem wireUpsList_pres (conv : Conv) (hconv : CachePres conv)
    (nN nI : String) : ∀ (ups : List Plug) (sc : Scene × Cache) (k v : String),
    alookup sc.2 k = some v →
    alookup ((wireUpsList conv nN nI ups sc).2).2 k = some v := by
  intro ups
  induction ups with
  | nil => intro sc k v hk; exact hk
  | cons up rest ih =>
    intro sc k v hk
    have h1 : alookup (wireUp conv nN nI up sc).2.2 k = some v := by
      rw [wireUp_cache]
      exact hconv up.node sc k v hk
    unfold wireUpsList
    rcases hr : wireUp conv nN nI up sc with ⟨res, sc'⟩
    rw [hr] at h1
    cases res with
    | error e => exact h1
    | ok u => exact ih sc' k v h1

theorem wireInputsList_pres (conv : Conv) (hconv : CachePres conv)
    (src nN : String) : ∀ (pairs : List (String × String))
    (sc : Scene × Cache) (k v : String),
    alookup sc.2 k = some v →
    alookup ((wireInputsList conv src nN pairs sc).2).2 k = some v := by
  intro pairs
  induction pairs with
  | nil => intro sc k v hk; exact hk
  | cons pair rest ih =>
    intro sc k v hk
    have h1 : alookup (wireInput conv src nN pair sc).2.2 k = some v := by
      unfold wireInput
      cases attrExistsE sc.1 src pair.1 with
      | error e => exact hk
      | ok b =>
        cases b
        · exact hk
        · dsimp only
          cases listIncomingE sc.1 ⟨src, pair.1⟩ with
          | error e => exact hk
          | ok ups => exact wireUpsList_pres conv hconv nN pair.2 ups sc k v hk
    unfold wireInputsList
    rcases hr : wireInput conv src nN pair sc with ⟨res, sc'⟩
    rw [hr] at h1
    cases res with
    | error e => exact h1
    | ok u => exact ih sc' k v h1

theorem convertFuel_pres (renderer : String) (fuel : Nat) :
    CachePres (convertFuel renderer fuel) := by
  induction fuel with
  | zero => intro n sc k v hk; exact hk
  | succ fuel ih =>
    intro n sc k v hk
    unfold convertFuel convertStep
    cases hcache : alookup sc.2 n with
    | some r => exact hk
    | none =>
      dsimp only
      cases nodeTypeE sc.1 n with
      | error e => exact hk
      | ok ty =>
        dsimp only
        by_cases hpass : PASSTHROUGH_NODES.contains ty = true
        · rw [if_pos hpass]
          exact alookup_cons_preserve hk hcache
        · rw [if_neg hpass]
          cases ruleFor ty renderer with
          | none => exact alookup_cons_preserve hk hcache
          | some rule =>
            dsimp only
            by_cases hav : rule.ctype ∈ sc.1.avail
            · rw [if_pos hav]
              have h1 : alookup ((n, (createNodeS sc.1 rule.ctype (n ++ "_NF_conv")).1) :: sc.2) k = some v :=
                alookup_cons_preserve hk hcache
              have h2 := wireInputsList_pres (convertFuel renderer fuel) ih n
                (createNodeS sc.1 rule.ctype (n ++ "_NF_conv")).1 rule.inputs
                (postSetLoop (createNodeS sc.1 rule.ctype (n ++ "_NF_conv")).1
                  rule.post_set (createNodeS sc.1 rule.ctype (n ++ "_NF_conv")).2,
                 (n, (createNodeS sc.1 rule.ctype (n ++ "_NF_conv")).1) :: sc.2) k v h1
              rcases hr : wireInputsList (convertFuel renderer fuel) n
                (createNodeS sc.1 rule.ctype (n ++ "_NF_conv")).1 rule.inputs
                (postSetLoop (createNodeS sc.1 rule.ctype (n ++ "_NF_conv")).1
                  rule.post_set (createNodeS sc.1 rule.ctype (n ++ "_NF_conv")).2,
                 (n, (createNodeS sc.1 rule.ctype (n ++ "_NF_conv")).1) :: sc.2) with ⟨res, sc'⟩
              rw [hr] at h2
              cases res with
              | error e => exact h2
              | ok u => exact h2
            · rw [if_neg hav]
              exact alookup_cons_preserve hk hcache

theorem convertFuel_cache_hit (renderer src r : String) (m : Nat)
    (sc : Scene × Cache) (hc : alookup sc.2 src = some r) :
    convertFuel renderer (m + 1) src sc = (.ok r, sc) := by
  unfold convertFuel convertStep
  rw [hc]

theorem convertFuel_caches_self (renderer : String) (fuel : Nat)
    (src : String) (sc sc' : Scene × Cache) (r : String)
    (h : convertFuel renderer fuel src sc = (.ok r, sc')) :
    alookup sc'.2 src = some r := by
  cases fuel with
  | zero => exact Except.noConfusion (congrArg Prod.fst h)
  | succ fuel =>
    unfold convertFuel convertStep at h
    cases hcache : alookup sc.2 src with
    | some r' =>
      rw [hcache] at h
      dsimp only at h
      rw [Prod.mk.injEq] at h
      obtain ⟨h1, h2⟩ := h
      rw [← h2, hcache]
      exact congrArg some (Except.ok.inj h1)
    | none =>
      rw [hcache] at h
      dsimp only at h
      cases hty : nodeTypeE sc.1 src with
      | error e =>
        rw [hty] at h
        exact Except.noConfusion (congrArg Prod.fst h)
      | ok ty =>
        rw [hty] at h
        dsimp only at h
        by_cases hpass : PASSTHROUGH_NODES.contains ty = true
        · rw [if_pos hpass] at h
          rw [Prod.mk.injEq] at h
          obtain ⟨h1, h2⟩ := h
          rw [← h2]
          show (if src = src then some src else alookup sc.2 src) = some r
          rw [if_pos rfl]
          exact congrArg some (Except.ok.inj h1)
        · rw [if_neg hpass] at h
          cases hrule : ruleFor ty renderer with
          | none =>
            rw [hrule] at h
            dsimp only at h
            rw [Prod.mk.injEq] at h
            obtain ⟨h1, h2⟩ := h
            rw [← h2]
            show (if src = src then some src else alookup sc.2 src) = some r
            rw [if_pos rfl]
            exact congrArg some (Except.ok.inj h1)
          | some rule =>
            rw [hrule] at h
            dsimp only at h
            by_cases hav : rule.ctype ∈ sc.1.avail
            · rw [if_pos hav] at h
              have hstart : alookup ((src, (createNodeS sc.1 rule.ctype (src ++ "_NF_conv")).1) :: sc.2) src =
                  some (createNodeS sc.1 rule.ctype (src ++ "_NF_conv")).1 := by
                show (if src = src then _ else _) = _
                rw [if_pos rfl]
              have hpres := wireInputsList_pres (convertFuel renderer fuel)
                (convertFuel_pres renderer fuel) src
                (createNodeS sc.1 rule.ctype (src ++ "_NF_conv")).1 rule.inputs
                (postSetLoop (createNodeS sc.1 rule.ctype (src ++ "_NF_conv")).1
                  rule.post_set (createNodeS sc.1 rule.ctype (src ++ "_NF_conv")).2,
                 (src, (createNodeS sc.1 rule.ctype (src ++ "_NF_conv")).1) :: sc.2)
                src (createNodeS sc.1 rule.ctype (src ++ "_NF_conv")).1 hstart
              rcases hr : wireInputsList (convertFuel renderer fuel) src
                (createNodeS sc.1 rule.ctype (src ++ "_NF_conv")).1 rule.inputs
                (postSetLoop (createNodeS sc.1 rule.ctype (src ++ "_NF_conv")).1
                  rule.post_set (createNodeS sc.1 rule.ctype (src ++ "_NF_conv")).2,
                 (src, (createNodeS sc.1 rule.ctype (src ++ "_NF_conv")).1) :: sc.2) with ⟨res, sc''⟩
              rw [hr] at h hpres
              cases res with
              | error e => exact Except.noConfusion (congrArg Prod.fst h)
              | ok u =>
                dsimp only at h
                rw [Prod.mk.injEq] at h
                obtain ⟨h1, h2⟩ := h
                rw [← h2]
                rw [← Except.ok.inj h1]
                exact hpres
            · rw [if_neg hav] at h
              rw [Prod.mk.injEq] at h
              obtain ⟨h1, h2⟩ := h
              rw [← h2]
              show (if src = src then some src else alookup sc.2 src) = some r
              rw [if_pos rfl]
              exact congrArg some (Except.ok.inj h1)

/-- C1: within one execution run (one conversion cache), every
original node is converted at most once.  Once a first conversion of
src has returned node r with state sc', any later conversion request
for src in that run — immediately, or after the run has converted any
number of other nodes (for example the other branch of a diamond whose
chains converge on src) — returns the same single converted node r and
leaves the state untouched: fan-in is preserved, no second copy is
created. -/
theorem C1_node_converted_at_most_once_per_run
    (renderer src : String) (fuel1 fuel2 : Nat) (sc sc' : Scene × Cache)
    (r : String)
    (h : convert_node_for_renderer fuel1 src renderer sc = (.ok r, sc'))
    (hf2 : 0 < fuel2) :
    convert_node_for_renderer fuel2 src renderer sc' = (.ok r, sc') ∧
    ∀ (other : String) (fuel3 fuel4 : Nat), 0 < fuel4 →
      convert_node_for_renderer fuel4 src renderer
        (convert_node_for_renderer fuel3 other renderer sc').2 =
      (.ok r, (convert_node_for_renderer fuel3 other renderer sc').2) := by
  have hc : alookup sc'.2 src = some r :=
    convertFuel_caches_self renderer fuel1 src sc sc' r h
  constructor
  · obtain ⟨m, rfl⟩ := Nat.exists_eq_add_of_lt hf2
    show convertFuel renderer (0 + m + 1) src sc' = (.ok r, sc')
    exact convertFuel_cache_hit renderer src r (0 + m) sc' hc
  · intro other fuel3 fuel4 hf4
    have hc3 : alookup ((convertFuel renderer fuel3 other sc').2).2 src = some r :=
      convertFuel_pres renderer fuel3 other sc' src r hc
    obtain ⟨m, rfl⟩ := Nat.exists_eq_add_of_lt hf4
    exact convertFuel_cache_hit renderer src r (0 + m) _ hc3

/-- Scene for the C1 witness: a diamond — two shader inputs fed by two
colour-correct nodes that both read the single shared utility U. -/
def c1Scene : Scene :=
  ⟨["S", "C1n", "C2n", "U", "T"],
   [("S", "aiStandardSurface"), ("C1n", "aiColorCorrect"),
    ("C2n", "aiColorCorrect"), ("U", "aiColorCorrect"),
    ("T", "RedshiftStandardMaterial")],
   [("aiStandardSurface", ["baseColor", "emissionColor"]),
    ("RedshiftStandardMaterial", ["base_color", "emission_color"]),
    ("aiColorCorrect", ["input", "outColor"]),
    ("rsColorCorrect", ["input", "outColor"])],
   [(⟨"C1n", "outColor"⟩, ⟨"S", "baseColor"⟩),
    (⟨"C2n", "outColor"⟩, ⟨"S", "emissionColor"⟩),
    (⟨"U", "outColor"⟩, ⟨"C1n", "input"⟩),
    (⟨"U", "outColor"⟩, ⟨"C2n", "input"⟩)],
   [], ["rsColorCorrect"], []⟩

/-- Witness for C1 on the diamond scene: U is converted once while
converting the first branch; re-requesting U directly, or after the
second branch C2n has been converted through it, returns the same
U_NF_conv with no state change. -/
theorem C1_witness :
    convert_node_for_renderer 6 "U" "Redshift" (c1Scene, []) =
      (.ok "U_NF_conv",
        ((convert_node_for_renderer 6 "U" "Redshift" (c1Scene, [])).2)) ∧
    0 < 6 ∧
    convert_node_for_renderer 6 "U" "Redshift"
      (convert_node_for_renderer 6 "U" "Redshift" (c1Scene, [])).2 =
      (.ok "U_NF_conv", (convert_node_for_renderer 6 "U" "Redshift" (c1Scene, [])).2) := by
  refine ⟨by decide, by decide, ?_⟩
  exact (C1_node_converted_at_most_once_per_run "Redshift" "U" 6 6
    (c1Scene, []) (convert_node_for_renderer 6 "U" "Redshift" (c1Scene, [])).2
    "U_NF_conv" (by decide) (by decide)).1

/-- Scene for the C7 counterexample: shader S with specularRoughness
fed by file node F, and eccentricity as a literal; both map to
specularRoughness on a standardSurface target T. -/
def c7Scene : Scene :=
  ⟨["S", "F", "T"],
   [("S", "aiStandardSurface"), ("F", "file"), ("T", "standardSurface")],
   [("aiStandardSurface", ["specularRoughness", "eccentricity"]),
    ("standardSurface", ["specularRoughness"]),
    ("file", ["fileTextureName", "outColor", "outAlpha"])],
   [(⟨"F", "outAlpha"⟩, ⟨"S", "specularRoughness"⟩)],
   [(⟨"F", "fileTextureName"⟩, .str "tex.png")],
   [], []⟩

def c7Tex : Entry :=
  texEntry "S" "specularRoughness" ⟨"F", "outAlpha"⟩ (some "F") "tex.png"
    "specularRoughness" "outAlpha" "standardSurface"

def c7Val : Entry :=
  valEntry "S" "eccentricity" "specularRoughness" "outAlpha"
    "standardSurface" (.num 7)

/-- Counterexample to C7: a plan whose two entries target
specularRoughness — a texture entry first, then a value entry.  The
validator does report exactly one collision warning naming both, but
after execution the destination carries the FIRST entry's connection:
the later value set fails (Maya refuses to set a connected
destination) and is logged FAIL, so the destination does not carry the
value of the last entry in plan order. -/
theorem C7_later_value_entry_does_not_win_counterexample :
    validate_transfer [c7Tex, c7Val] (some "T") "standardSurface" c7Scene =
      .ok [⟨"warn",
        conflictMsg "specularRoughness" "eccentricity" "specularRoughness",
        c7Val⟩] ∧
    (do_transfer [c7Tex, c7Val] (some "T") "standardSurface" none
      c7Scene).2.conns.filter (fun c => c.2 = ⟨"T", "specularRoughness"⟩) =
      [(⟨"F", "outAlpha"⟩, ⟨"T", "specularRoughness"⟩)] ∧
    alookup (do_transfer [c7Tex, c7Val] (some "T") "standardSurface" none
      c7Scene).2.vals ⟨"T", "specularRoughness"⟩ = none ∧
    (do_transfer [c7Tex, c7Val] (some "T") "standardSurface" none
      c7Scene).1 =
      .ok ["[OK-T] " ++ padTo "F.outAlpha" 50 ++ "  →  T.specularRoughness",
        "[FAIL] value set T.specularRoughness: setAttr: destination attribute specularRoughness is connected"] := by
  refine ⟨by decide, by decide, by decide, by decide⟩

theorem plugValid_set_conns (s : Scene) (c : List (Plug × Plug)) (p : Plug) :
    plugValid { s with conns := c } p = plugValid s p := rfl

theorem objExists_set_conns (s : Scene) (c : List (Plug × Plug)) (n : String) :
    objExists { s with conns := c } n = objExists s n := rfl

theorem incoming_after_connect (l : List (Plug × Plug)) (p dst : Plug) :
    ((l.filter (fun c => ¬ (c.2 = dst))) ++ [(p, dst)]).filter
      (fun c => c.2 = dst) = [(p, dst)] := by
  rw [List.filter_append]
  have h1 : (l.filter (fun c => ¬ (c.2 = dst))).filter
      (fun c => c.2 = dst) = [] := by
    rw [List.filter_filter]
    apply List.filter_eq_nil_iff.mpr
    intro a ha
    simp
  rw [h1]
  simp

theorem not_mem_of_incoming_nil (l : List (Plug × Plug)) (p dst : Plug)
    (h : l.filter (fun c => c.2 = dst) = []) : ¬ ((p, dst) ∈ l) := by
  intro hm
  have : (p, dst) ∈ l.filter (fun c => c.2 = dst) :=
    List.mem_filter.mpr ⟨hm, by simp⟩
  rw [h] at this
  exact absurd this (List.not_mem_nil _)

theorem attrExistsE_ok_true (s : Scene) (n a : String)
    (hex : objExists s n = true) (ha : (attrsOfNode s n).contains a = true) :
    attrExistsE s n a = .ok true := by
  unfold attrExistsE
  rw [if_pos hex, ha]

theorem nodeTypeE_ok (s : Scene) (n ty : String)
    (hex : objExists s n = true) (hty : alookup s.ntypes n = some ty) :
    nodeTypeE s n = .ok ty := by
  unfold nodeTypeE
  rw [if_pos hex, hty]
  rfl

theorem validateEntry_clean (s : Scene) (X tt renderer : String)
    (slotSeen : List (String × Entry)) (e : Entry) (n : String)
    (hfn : e.file_node = none)
    (hsn : e.source_node = some n)
    (hnex : objExists s n = true)
    (hnty : alookup s.ntypes n = some "file")
    (htt : tt ≠ "MASH")
    (hXne : X ≠ "")
    (hT1 : strStartsWith e.tgt_attr "_displacement_" = false)
    (hT2 : strStartsWith e.tgt_attr "MASH_" = false)
    (hXex : objExists s X = true)
    (hbase : (attrsOfNode s X).contains (baseOf e.tgt_attr) = true) :
    validateEntry s (some X) tt renderer slotSeen e =
      .ok (match alookup slotSeen e.tgt_attr with
        | some prev =>
          [⟨"warn", conflictMsg prev.shader_attr e.shader_attr e.tgt_attr, e⟩]
        | none => []) := by
  unfold validateEntry
  dsimp only
  rw [hfn, hsn]
  have hcond : (decide (tt ≠ "MASH") && truthyTarget (some X) &&
      !(strStartsWith e.tgt_attr "_displacement_") &&
      !(strStartsWith e.tgt_attr "MASH_")) = true := by
    rw [hT1, hT2]
    simp [truthyTarget, htt, hXne]
  rw [hcond]
  dsimp only
  rw [attrExistsE_ok_true s X (baseOf e.tgt_attr) hXex hbase]
  dsimp only
  rw [nodeTypeE_ok s n "file" hnex hnty]
  dsimp only
  cases alookup slotSeen e.tgt_attr <;>
    simp [show alookup NODE_CONVERSION_TABLE "file" = none from rfl]

theorem connectAttrE_ok (s : Scene) (src dst : Plug)
    (h : (plugValid s src && plugValid s dst) = true) :
    connectAttrE s src dst =
      (.ok (), { s with conns :=
        (s.conns.filter (fun c => ¬ (c.2 = dst))) ++ [(src, dst)] }) := by
  unfold connectAttrE
  rw [if_pos h]

theorem isConnectedE_ok (s : Scene) (src dst : Plug)
    (h : (plugValid s src && plugValid s dst) = true) :
    isConnectedE s src dst = .ok (s.conns.contains (src, dst)) := by
  unfold isConnectedE
  rw [if_pos h]

theorem execTexture_file (renderer : String) (st : DTSt) (e : Entry)
    (n : String) (dst : Plug)
    (hsn : e.source_node = some n)
    (hnex : objExists st.scene n = true)
    (hnty : alookup st.scene.ntypes n = some "file")
    (hpv : plugValid st.scene ⟨n, e.preferred_plug⟩ = true)
    (hpd : plugValid st.scene dst = true) :
    execTexture renderer st e dst =
      (.ok (),
        if st.scene.conns.contains ((⟨n, e.preferred_plug⟩ : Plug), dst) = true
        then addLog st ("[SKIP] Already connected: " ++
          plugStr ⟨n, e.preferred_plug⟩ ++ " → " ++ plugStr dst)
        else addLog { st with scene :=
            { st.scene with conns := (st.scene.conns.filter
              (fun c => ¬ (c.2 = dst))) ++ [(⟨n, e.preferred_plug⟩, dst)] } }
          ("[OK-T] " ++ padTo (plugStr ⟨n, e.preferred_plug⟩) 50 ++
            "  →  " ++ plugStr dst)) := by
  unfold execTexture
  rw [hsn]
  try dsimp only
  rw [nodeTypeE_ok st.scene n "file" hnex hnty]
  try dsimp only
  try rw [if_pos rfl]
  try dsimp only
  have hfpv : objExists st.scene n = true := hnex
  rw [if_neg (by rw [hfpv]; exact fun hc => hc rfl)]
  rw [isConnectedE_ok st.scene ⟨n, e.preferred_plug⟩ dst (by rw [hpv, hpd]; rfl)]
  try dsimp only
  by_cases hmem : st.scene.conns.contains ((⟨n, e.preferred_plug⟩ : Plug), dst) = true
  · rw [hmem]
    rfl
  · rw [Bool.not_eq_true] at hmem
    rw [hmem]
    try dsimp only
    rw [connectAttrE_ok st.scene ⟨n, e.preferred_plug⟩ dst (by rw [hpv, hpd]; rfl)]
    rfl

theorem do_transfer_entry_plain (X tt : String) (mash : Option String)
    (renderer : String) (st : DTSt) (e : Entry)
    (htt : tt ≠ "MASH") (hTd : e.tgt_attr ≠ "_displacement_")
    (hXex : objExists st.scene X = true) :
    do_transfer_entry (some X) tt mash renderer st e =
      execModes renderer st e ⟨X, e.tgt_attr⟩ := by
  unfold do_transfer_entry
  rw [if_neg htt, if_neg hTd]
  dsimp only
  rw [if_neg (by rw [hXex]; exact fun hc => hc rfl)]

theorem validateRows_nil (s : Scene) (tn : Option String) (tt renderer : String)
    (slotSeen : List (String × Entry)) :
    validateRows s tn tt renderer [] slotSeen = .ok [] := rfl

theorem validateRows_cons (s : Scene) (tn : Option String)
    (tt renderer : String) (e : Entry) (rest : List Entry)
    (slotSeen : List (String × Entry)) (ws : List Warning)
    (h : validateEntry s tn tt renderer slotSeen e = .ok ws) :
    validateRows s tn tt renderer (e :: rest) slotSeen =
      match validateRows s tn tt renderer rest ((e.tgt_attr, e) :: slotSeen) with
      | .error err => .error err
      | .ok ws' => .ok (ws ++ ws') := by
  conv_lhs => unfold validateRows
  rw [h]

theorem do_transfer_loop_cons (tn : Option String) (tt : String)
    (mash : Option String) (renderer : String) (e : Entry)
    (rest : List Entry) (st st' : DTSt)
    (h : do_transfer_entry tn tt mash renderer st e = (.ok (), st')) :
    do_transfer_loop tn tt mash renderer (e :: rest) st =
      do_transfer_loop tn tt mash renderer rest st' := by
  conv_lhs => unfold do_transfer_loop
  rw [h]

def c7bScene : Scene :=
  ⟨["S", "F1", "F2", "T"],
   [("S", "aiStandardSurface"), ("F1", "file"), ("F2", "file"),
    ("T", "standardSurface")],
   [("aiStandardSurface", ["specularRoughness", "eccentricity"]),
    ("standardSurface", ["specularRoughness"]),
    ("file", ["fileTextureName", "outColor", "outAlpha"])],
   [], [], [], []⟩

def c7bTex1 : Entry :=
  texEntry "S" "specularRoughness" ⟨"F1", "outAlpha"⟩ none ""
    "specularRoughness" "outAlpha" "standardSurface"

def c7bTex2 : Entry :=
  texEntry "S" "eccentricity" ⟨"F2", "outAlpha"⟩ none ""
    "specularRoughness" "outAlpha" "standardSurface"

/-- Well-formedness of a live scene: every connection joins existing
nodes.  Cycles are allowed. -/
def WFConns (s : Scene) : Prop :=
  ∀ c ∈ s.conns, c.1.node ∈ s.nodes ∧ c.2.node ∈ s.nodes

/-- Number of nodes of the original node set not yet in the cache:
the converter's recursion measure. -/
def uncachedCount (S0 : List String) (c : Cache) : Nat :=
  (S0.filter (fun n => (alookup c n).isNone)).length

/-- Invariant threaded through a conversion: the original nodes S0
still exist, connections into S0 nodes are original (in C0), and
original connections start inside S0. -/
def ConvInv (S0 : List String) (C0 : List (Plug × Plug)) (s : Scene) : Prop :=
  (∀ n ∈ S0, n ∈ s.nodes) ∧
  (∀ c ∈ s.conns, c.2.node ∈ S0 → c ∈ C0) ∧
  (∀ c ∈ C0, c.1.node ∈ S0)

theorem uncachedCount_mono (S0 : List String) (c c' : Cache)
    (h : ∀ k v, alookup c k = some v → alookup c' k = some v) :
    uncachedCount S0 c' ≤ uncachedCount S0 c := by
  unfold uncachedCount
  induction S0 with
  | nil => exact Nat.le_refl 0
  | cons n S0 ih =>
    by_cases hn : (alookup c' n).isNone = true
    · have hcn : (alookup c n).isNone = true := by
        cases hc : alookup c n with
        | none => rfl
        | some v =>
          rw [h n v hc] at hn
          exact absurd hn (by simp)
      simp only [List.filter_cons, hn, hcn]
      exact Nat.succ_le_succ ih
    · simp only [List.filter_cons, hn]
      by_cases hcn : (alookup c n).isNone = true
      · simp only [hcn]
        exact Nat.le_succ_of_le ih
      · simp only [hcn]
        exact ih

theorem uncachedCount_insert_lt (S0 : List String) (c : Cache)
    (src t : String) (hsrc : src ∈ S0) (hnone : alookup c src = none) :
    uncachedCount S0 ((src, t) :: c) < uncachedCount S0 c := by
  unfold uncachedCount
  induction S0 with
  | nil => exact absurd hsrc (List.not_mem_nil src)
  | cons n S0 ih =>
    by_cases hn : n = src
    · subst hn
      have h1 : (alookup ((n, t) :: c) n).isNone = false := by
        show (if n = n then some t else alookup c n).isNone = false
        rw [if_pos rfl]
        rfl
      have h2 : (alookup c n).isNone = true := by rw [hnone]; rfl
      simp [List.filter_cons, h1, h2]
      have hmono : (S0.filter (fun x => (alookup ((n, t) :: c) x).isNone)).length ≤
          (S0.filter (fun x => (alookup c x).isNone)).length := by
        have := uncachedCount_mono S0 c ((n, t) :: c)
          (fun k v hk => alookup_cons_preserve hk hnone)
        unfold uncachedCount at this
        exact this
      omega
    · have heq : alookup ((src, t) :: c) n = alookup c n := by
        show (if src = n then some t else alookup c n) = alookup c n
        rw [if_neg (fun hc => hn hc.symm)]
      have hsrc' : src ∈ S0 := by
        rcases List.mem_cons.mp hsrc with h | h
        · exact absurd h.symm hn
        · exact h
      by_cases hcn : (alookup c n).isNone = true
      · simp only [List.filter_cons, heq, hcn, if_pos]
        exact Nat.succ_lt_succ (ih hsrc')
      · simp [List.filter_cons, heq, hcn]
        exact ih hsrc'

theorem uncachedCount_pos (S0 : List String) (c : Cache) (src : String)
    (hsrc : src ∈ S0) (hnone : alookup c src = none) :
    1 ≤ uncachedCount S0 c := by
  unfold uncachedCount
  have : src ∈ S0.filter (fun n => (alookup c n).isNone) :=
    List.mem_filter.mpr ⟨hsrc, by rw [hnone]; rfl⟩
  exact List.length_pos.mpr (fun hc => by rw [hc] at this; exact absurd this (List.not_mem_nil src))

theorem uscores_length (k : Nat) : (uscores k).length = k := by
  induction k with
  | zero => rfl
  | succ k ih =>
    show (uscores k ++ "_").length = k + 1
    rw [String.length_append, ih]
    rfl

theorem nameCandidates_nodup (hint : String) (n : Nat) :
    (nameCandidates hint n).Nodup := by
  unfold nameCandidates
  apply List.Nodup.map
  · intro a b hab
    have := congrArg String.length hab
    rw [String.length_append, String.length_append, uscores_length,
      uscores_length] at this
    omega
  · exact List.nodup_range _

theorem freshName_not_mem (s : Scene) (hint : String) :
    ¬ (freshName s hint ∈ s.nodes) := by
  unfold freshName
  rcases hne : (nameCandidates hint (s.nodes.length + 1)).filter
      (fun c => ¬ s.nodes.contains c) with _ | ⟨h, t⟩
  · exfalso
    have hall : ∀ c ∈ nameCandidates hint (s.nodes.length + 1),
        c ∈ s.nodes := by
      intro c hc
      by_contra hcn
      have : c ∈ (nameCandidates hint (s.nodes.length + 1)).filter
          (fun c => ¬ s.nodes.contains c) :=
        List.mem_filter.mpr ⟨hc, by simpa using hcn⟩
      rw [hne] at this
      exact absurd this (List.not_mem_nil c)
    have hsub : nameCandidates hint (s.nodes.length + 1) ⊆ s.nodes := hall
    have hlen : (nameCandidates hint (s.nodes.length + 1)).length ≤
        s.nodes.length :=
      (List.subperm_of_subset (nameCandidates_nodup hint _) hsub).length_le
    have : (nameCandidates hint (s.nodes.length + 1)).length =
        s.nodes.length + 1 := by
      unfold nameCandidates
      rw [List.length_map, List.length_range]
    omega
  · have hh : h ∈ (nameCandidates hint (s.nodes.length + 1)).filter
        (fun c => ¬ s.nodes.contains c) := by
      rw [hne]
      exact List.mem_cons_self h t
    have := (List.mem_filter.mp hh).2
    simpa using this

theorem setAttrE_frame (s : Scene) (p : Plug) (v : MVal) :
    (setAttrE s p v).2.nodes = s.nodes ∧ (setAttrE s p v).2.conns = s.conns := by
  unfold setAttrE
  split
  · split
    · exact ⟨rfl, rfl⟩
    · exact ⟨rfl, rfl⟩
  · exact ⟨rfl, rfl⟩

theorem postSetLoop_frame (nN : String) (ps : List (String × MVal)) :
    ∀ s : Scene, (postSetLoop nN ps s).nodes = s.nodes ∧
      (postSetLoop nN ps s).conns = s.conns := by
  induction ps with
  | nil => intro s; exact ⟨rfl, rfl⟩
  | cons av rest ih =>
    intro s
    obtain ⟨a, v⟩ := av
    have h1 := setAttrE_frame s ⟨nN, a⟩ v
    have h2 := ih (setAttrE s ⟨nN, a⟩ v).2
    exact ⟨h2.1.trans h1.1, h2.2.trans h1.2⟩

theorem ConvInv_frame (S0 : List String) (C0 : List (Plug × Plug))
    (s s' : Scene) (hn : s'.nodes = s.nodes) (hc : s'.conns = s.conns)
    (h : ConvInv S0 C0 s) : ConvInv S0 C0 s' := by
  refine ⟨fun n hn0 => ?_, fun c hcc => ?_, h.2.2⟩
  · rw [hn]
    exact h.1 n hn0
  · rw [hc] at hcc
    exact h.2.1 c hcc

/-- The behaviour required of the recursive call for the wiring
lemmas: success, invariant preservation and cache-binding
preservation, for every state whose measure is at most m. -/
def ConvGood (S0 : List String) (C0 : List (Plug × Plug)) (m : Nat)
    (conv : Conv) : Prop :=
  ∀ (s : Scene) (cache : Cache) (src : String),
    ConvInv S0 C0 s → src ∈ S0 → uncachedCount S0 cache ≤ m →
    (∃ r, (conv src (s, cache)).1 = .ok r) ∧
    ConvInv S0 C0 (conv src (s, cache)).2.1 ∧
    (∀ k v, alookup cache k = some v →
      alookup (conv src (s, cache)).2.2 k = some v)

theorem wireUp_good (S0 : List String) (C0 : List (Plug × Plug)) (m : Nat)
    (conv : Conv) (hconv : ConvGood S0 C0 m conv) (nN nI : String)
    (hnN : ¬ (nN ∈ S0)) (up : Plug) (hup : up.node ∈ S0)
    (s : Scene) (cache : Cache) (hinv : ConvInv S0 C0 s)
    (hm : uncachedCount S0 cache ≤ m) :
    (wireUp conv nN nI up (s, cache)).1 = .ok () ∧
    ConvInv S0 C0 (wireUp conv nN nI up (s, cache)).2.1 ∧
    (∀ k v, alookup cache k = some v →
      alookup (wireUp conv nN nI up (s, cache)).2.2 k = some v) := by
  obtain ⟨⟨r, hr⟩, hinv', hpres⟩ := hconv s cache up.node hinv hup hm
  rcases hc : conv up.node (s, cache) with ⟨res, sc'⟩
  rw [hc] at hr hinv' hpres
  cases res with
  | error e => exact absurd hr (by simp)
  | ok convUp =>
    rw [wireUp_ok conv nN nI up (s, cache) sc' convUp hc]
    rcases hic : isConnectedE sc'.1 ⟨convUp, up.attr⟩ ⟨nN, nI⟩ with e | b
    · exact ⟨rfl, hinv', hpres⟩
    · cases b
      · refine ⟨rfl, ?_, hpres⟩
        show ConvInv S0 C0 (connectAttrE sc'.1 ⟨convUp, up.attr⟩ ⟨nN, nI⟩).2
        unfold connectAttrE
        split
        · refine ⟨fun n hn0 => hinv'.1 n hn0, fun c hcc hc2 => ?_, hinv'.2.2⟩
          rcases List.mem_append.mp hcc with hl | hrr
          · exact hinv'.2.1 c (List.mem_of_mem_filter hl) hc2
          · rw [List.mem_singleton.mp hrr] at hc2
            exact absurd hc2 hnN
        · exact hinv'
      · exact ⟨rfl, hinv', hpres⟩

theorem wireUpsList_good (S0 : List String) (C0 : List (Plug × Plug))
    (m : Nat) (conv : Conv) (hconv : ConvGood S0 C0 m conv) (nN nI : String)
    (hnN : ¬ (nN ∈ S0)) :
    ∀ (ups : List Plug), (∀ up ∈ ups, up.node ∈ S0) →
    ∀ (s : Scene) (cache : Cache), ConvInv S0 C0 s →
    uncachedCount S0 cache ≤ m →
    (wireUpsList conv nN nI ups (s, cache)).1 = .ok () ∧
    ConvInv S0 C0 (wireUpsList conv nN nI ups (s, cache)).2.1 ∧
    (∀ k v, alookup cache k = some v →
      alookup ((wireUpsList conv nN nI ups (s, cache)).2).2 k = some v) := by
  intro ups
  induction ups with
  | nil =>
    intro _ s cache hinv hm
    exact ⟨rfl, hinv, fun k v hk => hk⟩
  | cons up rest ih =>
    intro hups s cache hinv hm
    obtain ⟨hok, hinv1, hpres1⟩ := wireUp_good S0 C0 m conv hconv nN nI hnN
      up (hups up (List.mem_cons_self up rest)) s cache hinv hm
    rcases hw : wireUp conv nN nI up (s, cache) with ⟨res, sc'⟩
    rw [hw] at hok hinv1 hpres1
    cases res with
    | error e => exact absurd hok (by simp)
    | ok u =>
      have hm1 : uncachedCount S0 sc'.2 ≤ m :=
        Nat.le_trans (uncachedCount_mono S0 cache sc'.2
          (fun k v hk => hpres1 k v hk)) hm
    -- reassemble the pair for the recursive call
      have hrec := ih (fun u hu => hups u (List.mem_cons_of_mem up hu))
        sc'.1 sc'.2 hinv1 hm1
      unfold wireUpsList
      rw [hw]
      dsimp only
      constructor
      · exact hrec.1
      · refine ⟨hrec.2.1, fun k v hk => hrec.2.2 k v (hpres1 k v hk)⟩

theorem contains_true_of_mem {l : List String} {a : String} (h : a ∈ l) :
    l.contains a = true := by
  simpa using h

theorem wireInput_good (S0 : List String) (C0 : List (Plug × Plug))
    (m : Nat) (conv : Conv) (hconv : ConvGood S0 C0 m conv)
    (src nN : String) (hsrc : src ∈ S0) (hnN : ¬ (nN ∈ S0))
    (pair : String × String) (s : Scene) (cache : Cache)
    (hinv : ConvInv S0 C0 s) (hm : uncachedCount S0 cache ≤ m) :
    (wireInput conv src nN pair (s, cache)).1 = .ok () ∧
    ConvInv S0 C0 (wireInput conv src nN pair (s, cache)).2.1 ∧
    (∀ k v, alookup cache k = some v →
      alookup ((wireInput conv src nN pair (s, cache)).2).2 k = some v) := by
  have hex : objExists s src = true := contains_true_of_mem (hinv.1 src hsrc)
  have hae : attrExistsE s src pair.1 = .ok ((attrsOfNode s src).contains pair.1) := by
    unfold attrExistsE
    rw [if_pos hex]
  have hli : listIncomingE s ⟨src, pair.1⟩ =
      .ok ((s.conns.filter (fun c => c.2 = ⟨src, pair.1⟩)).map (fun c => c.1)) := by
    unfold listIncomingE
    rw [if_pos hex]
  unfold wireInput
  rw [hae]
  cases hb : (attrsOfNode s src).contains pair.1 with
  | false => exact ⟨rfl, hinv, fun k v hk => hk⟩
  | true =>
    dsimp only
    rw [hli]
    dsimp only
    apply wireUpsList_good S0 C0 m conv hconv nN pair.2 hnN
    · intro up hup
      obtain ⟨c, hc, hceq⟩ := List.mem_map.mp hup
      have hc2 : c.2 = ⟨src, pair.1⟩ := by
        have := (List.mem_filter.mp hc).2
        simpa using this
      have hcin : c ∈ C0 := hinv.2.1 c (List.mem_of_mem_filter hc) (by rw [hc2]; exact hsrc)
      rw [← hceq]
      exact hinv.2.2 c hcin
    · exact hinv
    · exact hm

theorem wireInputsList_good (S0 : List String) (C0 : List (Plug × Plug))
    (m : Nat) (conv : Conv) (hconv : ConvGood S0 C0 m conv)
    (src nN : String) (hsrc : src ∈ S0) (hnN : ¬ (nN ∈ S0)) :
    ∀ (pairs : List (String × String)) (s : Scene) (cache : Cache),
    ConvInv S0 C0 s → uncachedCount S0 cache ≤ m →
    (wireInputsList conv src nN pairs (s, cache)).1 = .ok () ∧
    ConvInv S0 C0 (wireInputsList conv src nN pairs (s, cache)).2.1 ∧
    (∀ k v, alookup cache k = some v →
      alookup ((wireInputsList conv src nN pairs (s, cache)).2).2 k = some v) := by
  intro pairs
  induction pairs with
  | nil =>
    intro s cache hinv hm
    exact ⟨rfl, hinv, fun k v hk => hk⟩
  | cons pair rest ih =>
    intro s cache hinv hm
    obtain ⟨hok, hinv1, hpres1⟩ := wireInput_good S0 C0 m conv hconv src nN
      hsrc hnN pair s cache hinv hm
    rcases hw : wireInput conv src nN pair (s, cache) with ⟨res, sc'⟩
    rw [hw] at hok hinv1 hpres1
    cases res with
    | error e => exact absurd hok (by simp)
    | ok u =>
      have hm1 : uncachedCount S0 sc'.2 ≤ m :=
        Nat.le_trans (uncachedCount_mono S0 cache sc'.2
          (fun k v hk => hpres1 k v hk)) hm
      have hrec := ih sc'.1 sc'.2 hinv1 hm1
      unfold wireInputsList
      rw [hw]
      dsimp only
      exact ⟨hrec.1, hrec.2.1, fun k v hk => hrec.2.2 k v (hpres1 k v hk)⟩

theorem convertFuel_good (renderer : String) (S0 : List String)
    (C0 : List (Plug × Plug)) :
    ∀ (m fuel : Nat), m < fuel → ConvGood S0 C0 m (convertFuel renderer fuel) := by
  intro m
  induction m using Nat.strong_induction_on with
  | _ m IH =>
    intro fuel hmf s cache src hinv hsrc hm
    obtain ⟨f, rfl⟩ : ∃ f, fuel = f + 1 := ⟨fuel - 1, by omega⟩
    unfold convertFuel convertStep
    dsimp only
    cases hcache : alookup cache src with
    | some r => exact ⟨⟨r, rfl⟩, hinv, fun k v hk => hk⟩
    | none =>
      have hex : objExists s src = true := contains_true_of_mem (hinv.1 src hsrc)
      have hty : nodeTypeE s src = .ok ((alookup s.ntypes src).getD "unknown") := by
        unfold nodeTypeE
        rw [if_pos hex]
      rw [hty]
      dsimp only
      by_cases hpass : PASSTHROUGH_NODES.contains
          ((alookup s.ntypes src).getD "unknown") = true
      · rw [if_pos hpass]
        exact ⟨⟨src, rfl⟩, hinv, fun k v hk => alookup_cons_preserve hk hcache⟩
      · rw [if_neg hpass]
        cases hrule : ruleFor ((alookup s.ntypes src).getD "unknown") renderer with
        | none =>
          exact ⟨⟨src, rfl⟩, hinv, fun k v hk => alookup_cons_preserve hk hcache⟩
        | some rule =>
          dsimp only
          by_cases hav : rule.ctype ∈ s.avail
          · rw [if_pos hav]
            try dsimp only
            have hfresh : ¬ ((createNodeS s rule.ctype (src ++ "_NF_conv")).1 ∈ s.nodes) :=
              freshName_not_mem s (src ++ "_NF_conv")
            have hnN : ¬ ((createNodeS s rule.ctype (src ++ "_NF_conv")).1 ∈ S0) :=
              fun h => hfresh (hinv.1 _ h)
            have hinv1 : ConvInv S0 C0 (createNodeS s rule.ctype (src ++ "_NF_conv")).2 := by
              refine ⟨fun n hn0 => List.mem_append_left _ (hinv.1 n hn0),
                fun c hcc hc2 => hinv.2.1 c hcc hc2, hinv.2.2⟩
            have hframe := postSetLoop_frame (createNodeS s rule.ctype (src ++ "_NF_conv")).1
              rule.post_set (createNodeS s rule.ctype (src ++ "_NF_conv")).2
            have hinv2 : ConvInv S0 C0 (postSetLoop
                (createNodeS s rule.ctype (src ++ "_NF_conv")).1 rule.post_set
                (createNodeS s rule.ctype (src ++ "_NF_conv")).2) :=
              ConvInv_frame S0 C0 _ _ hframe.1 hframe.2 hinv1
            have hpos : 1 ≤ uncachedCount S0 cache :=
              uncachedCount_pos S0 cache src hsrc hcache
            have hlt : uncachedCount S0
                ((src, (createNodeS s rule.ctype (src ++ "_NF_conv")).1) :: cache) <
                uncachedCount S0 cache :=
              uncachedCount_insert_lt S0 cache src _ hsrc hcache
            have hconv' : ConvGood S0 C0 (m - 1) (convertFuel renderer f) :=
              IH (m - 1) (by omega) f (by omega)
            obtain ⟨hok, hinvw, hpresw⟩ := wireInputsList_good S0 C0 (m - 1)
              (convertFuel renderer f) hconv' src
              (createNodeS s rule.ctype (src ++ "_NF_conv")).1 hsrc hnN
              rule.inputs
              (postSetLoop (createNodeS s rule.ctype (src ++ "_NF_conv")).1
                rule.post_set (createNodeS s rule.ctype (src ++ "_NF_conv")).2)
              ((src, (createNodeS s rule.ctype (src ++ "_NF_conv")).1) :: cache)
              hinv2 (by omega)
            rcases hw : wireInputsList (convertFuel renderer f) src
              (createNodeS s rule.ctype (src ++ "_NF_conv")).1 rule.inputs
              (postSetLoop (createNodeS s rule.ctype (src ++ "_NF_conv")).1
                rule.post_set (createNodeS s rule.ctype (src ++ "_NF_conv")).2,
               (src, (createNodeS s rule.ctype (src ++ "_NF_conv")).1) :: cache)
              with ⟨res, sc'⟩
            rw [hw] at hok hinvw hpresw
            cases res with
            | error e => exact absurd hok (by simp)
            | ok u =>
              exact ⟨⟨(createNodeS s rule.ctype (src ++ "_NF_conv")).1, rfl⟩,
                hinvw, fun k v hk =>
                  hpresw k v (alookup_cons_preserve hk hcache)⟩
          · rw [if_neg hav]
            exact ⟨⟨src, rfl⟩, hinv, fun k v hk => alookup_cons_preserve hk hcache⟩

/-- C5: convert_node_for_renderer terminates on every finite
well-formed live graph, including graphs containing a cycle: with
recursion budget nodeCount + 1 the call returns a converted node
(never the recursion-limit failure), because every node is entered
into the conversion cache before its upstream inputs are processed,
so re-entrant recursion is stopped by the cache lookup at entry. -/
theorem C5_convert_terminates_on_finite_graphs (renderer src : String)
    (s : Scene) (c : Cache) (fuel : Nat)
    (hwf : WFConns s) (hsrc : src ∈ s.nodes)
    (hfuel : s.nodes.length + 1 ≤ fuel) :
    ∃ r, (convert_node_for_renderer fuel src renderer (s, c)).1 = .ok r := by
  have hinv : ConvInv s.nodes s.conns s :=
    ⟨fun n h => h, fun c hc _ => hc, fun c hc => (hwf c hc).1⟩
  have hcount : uncachedCount s.nodes c ≤ s.nodes.length :=
    List.length_filter_le _ _
  exact (convertFuel_good renderer s.nodes s.conns s.nodes.length fuel
    (by omega) s c src hinv hsrc hcount).1

/-- Scene for the C5 witness: a genuine two-node connection cycle of
convertible nodes. -/
def c5Scene : Scene :=
  ⟨["X", "Y"],
   [("X", "aiColorCorrect"), ("Y", "aiColorCorrect")],
   [("aiColorCorrect", ["input", "outColor"]),
    ("rsColorCorrect", ["input", "outColor"])],
   [(⟨"X", "outColor"⟩, ⟨"Y", "input"⟩), (⟨"Y", "outColor"⟩, ⟨"X", "input"⟩)],
   [], ["rsColorCorrect"], []⟩

/-- Witness for C5 on the cyclic scene: the conversion returns. -/
theorem C5_convert_terminates_witness :
    WFConns c5Scene ∧
    ∃ r, (convert_node_for_renderer 3 "X" "Redshift" (c5Scene, [])).1 = .ok r := by
  have hwf : WFConns c5Scene := by
    intro c hc
    fin_cases hc <;> exact ⟨by decide, by decide⟩
  exact ⟨hwf, C5_convert_terminates_on_finite_graphs "Redshift" "X" c5Scene []
    3 hwf (by decide) (by decide)⟩

/-- Nodes of the scene not yet visited: the upstream walk's measure. -/
def unvisitedCount (S0 : List String) (visited : List String) : Nat :=
  (S0.filter (fun n => !(visited.contains n))).length

theorem unvisitedCount_mono (S0 : List String) (v v' : List String)
    (h : ∀ x ∈ v, x ∈ v') :
    unvisitedCount S0 v' ≤ unvisitedCount S0 v := by
  unfold unvisitedCount
  induction S0 with
  | nil => exact Nat.le_refl 0
  | cons n S0 ih =>
    cases hn : v'.contains n with
    | false =>
      have hvn : v.contains n = false := by
        cases hv : v.contains n with
        | false => rfl
        | true =>
          have : n ∈ v' := h n (by simpa using hv)
          rw [contains_true_of_mem this] at hn
          exact Bool.noConfusion hn
      simp only [List.filter_cons, hn, hvn, Bool.not_false]
      exact Nat.succ_le_succ ih
    | true =>
      simp only [List.filter_cons, hn, Bool.not_true]
      cases hv : v.contains n with
      | false =>
        simp only [Bool.not_false]
        exact Nat.le_succ_of_le ih
      | true =>
        simp only [Bool.not_true]
        exact ih

theorem unvisitedCount_insert_lt (S0 : List String) (v : List String)
    (node : String) (hnode : node ∈ S0) (hnc : v.contains node = false) :
    unvisitedCount S0 (node :: v) < unvisitedCount S0 v := by
  unfold unvisitedCount
  induction S0 with
  | nil => exact absurd hnode (List.not_mem_nil node)
  | cons n S0 ih =>
    by_cases hn : n = node
    · subst hn
      have h1 : (n :: v).contains n = true :=
        contains_true_of_mem (List.mem_cons_self n v)
      have hmono : (S0.filter (fun x => !((n :: v).contains x))).length ≤
          (S0.filter (fun x => !(v.contains x))).length := by
        have := unvisitedCount_mono S0 v (n :: v)
          (fun x hx => List.mem_cons_of_mem n hx)
        unfold unvisitedCount at this
        exact this
      rw [List.filter_cons, List.filter_cons, h1, hnc, Bool.not_true,
        Bool.not_false]
      rw [if_neg Bool.false_ne_true, if_pos rfl, List.length_cons]
      exact Nat.lt_succ_of_le hmono
    · have hsrc' : node ∈ S0 := by
        rcases List.mem_cons.mp hnode with h | h
        · exact absurd h.symm hn
        · exact h
      have hcc : ((node :: v).contains n) = (v.contains n) := by
        cases hv : v.contains n with
        | true =>
          have : n ∈ node :: v := List.mem_cons_of_mem node (by simpa using hv)
          exact contains_true_of_mem this
        | false =>
          cases hnv : (node :: v).contains n with
          | false => rfl
          | true =>
            have : n ∈ node :: v := by simpa using hnv
            rcases List.mem_cons.mp this with h | h
            · exact absurd h hn
            · rw [contains_true_of_mem h] at hv
              exact Bool.noConfusion hv
      simp only [List.filter_cons, hcc]
      cases hv : v.contains n with
      | false =>
        simp only [Bool.not_false, List.length_cons]
        exact Nat.succ_lt_succ (ih hsrc')
      | true =>
        simp only [Bool.not_true]
        exact ih hsrc'

theorem unvisitedCount_le_length (S0 : List String) (v : List String) :
    unvisitedCount S0 v ≤ S0.length :=
  List.length_filter_le _ _

/-- Behaviour required of the recursive walk call by walkMany: success
returning only file nodes of the scene, visited-set growth only. -/
def WalkGood (s : Scene) (m : Nat)
    (walk : String → List String → Except String (List String) × List String) :
    Prop :=
  ∀ (node : String) (visited : List String),
    node ∈ s.nodes → unvisitedCount s.nodes visited ≤ m →
    (∃ res, (walk node visited).1 = .ok res ∧
      ∀ x ∈ res, x ∈ s.nodes ∧ alookup s.ntypes x = some "file") ∧
    (∀ x ∈ visited, x ∈ (walk node visited).2) ∧
    (∀ x ∈ (walk node visited).2, x ∈ visited ∨ x ∈ s.nodes)

theorem walkMany_good (s : Scene) (m : Nat)
    (walk : String → List String → Except String (List String) × List String)
    (hwalk : WalkGood s m walk) :
    ∀ (ups : List String), (∀ u ∈ ups, u ∈ s.nodes) →
    ∀ (visited : List String), unvisitedCount s.nodes visited ≤ m →
    (∃ res, (walkMany walk ups visited).1 = .ok res ∧
      ∀ x ∈ res, x ∈ s.nodes ∧ alookup s.ntypes x = some "file") ∧
    (∀ x ∈ visited, x ∈ (walkMany walk ups visited).2) ∧
    (∀ x ∈ (walkMany walk ups visited).2, x ∈ visited ∨ x ∈ s.nodes) := by
  intro ups
  induction ups with
  | nil =>
    intro _ visited hm
    exact ⟨⟨[], rfl, fun x hx => absurd hx (List.not_mem_nil x)⟩,
      fun x hx => hx, fun x hx => Or.inl hx⟩
  | cons up rest ih =>
    intro hups visited hm
    obtain ⟨⟨res1, hok1, hres1⟩, hgrow1, hbound1⟩ :=
      hwalk up visited (hups up (List.mem_cons_self up rest)) hm
    rcases hw : walk up visited with ⟨r1, v1⟩
    rw [hw] at hok1 hgrow1 hbound1
    cases r1 with
    | error e => exact absurd hok1 (by simp)
    | ok rs =>
      have hm1 : unvisitedCount s.nodes v1 ≤ m :=
        Nat.le_trans (unvisitedCount_mono s.nodes visited v1 hgrow1) hm
      obtain ⟨⟨res2, hok2, hres2⟩, hgrow2, hbound2⟩ :=
        ih (fun u hu => hups u (List.mem_cons_of_mem up hu)) v1 hm1
      rcases hw2 : walkMany walk rest v1 with ⟨r2, v2⟩
      rw [hw2] at hok2 hgrow2 hbound2
      cases r2 with
      | error e => exact absurd hok2 (by simp)
      | ok rs2 =>
        unfold walkMany
        rw [hw]
        dsimp only
        rw [hw2]
        dsimp only
        refine ⟨⟨rs ++ rs2, rfl, fun x hx => ?_⟩,
          fun x hx => hgrow2 x (hgrow1 x hx), fun x hx => ?_⟩
        · rcases List.mem_append.mp hx with h | h
          · have := hres1 x (by rw [Except.ok.inj hok1] at h; exact h)
            exact this
          · have := hres2 x (by rw [Except.ok.inj hok2] at h; exact h)
            exact this
        · rcases hbound2 x hx with h | h
          · rcases hbound1 x h with h' | h'
            · exact Or.inl h'
            · exact Or.inr h'
          · exact Or.inr h

theorem walkFuel_good (s : Scene) (hwf : WFConns s) :
    ∀ (m fuel : Nat), m < fuel → WalkGood s m (walkFuel s fuel) := by
  intro m
  induction m using Nat.strong_induction_on with
  | _ m IH =>
    intro fuel hmf node visited hnode hm
    obtain ⟨f, rfl⟩ : ∃ f, fuel = f + 1 := ⟨fuel - 1, by omega⟩
    unfold walkFuel
    cases hvc : visited.contains node with
    | true =>
      exact ⟨⟨[], rfl, fun x hx => absurd hx (List.not_mem_nil x)⟩,
        fun x hx => hx, fun x hx => Or.inl hx⟩
    | false =>
      dsimp only
      have hex : objExists s node = true := contains_true_of_mem hnode
      have hty : nodeTypeE s node = .ok ((alookup s.ntypes node).getD "unknown") := by
        unfold nodeTypeE
        rw [if_pos hex]
      rw [hty]
      dsimp only
      by_cases hfile : (alookup s.ntypes node).getD "unknown" = "file"
      · rw [if_pos hfile]
        refine ⟨⟨[node], rfl, fun x hx => ?_⟩,
          fun x hx => List.mem_cons_of_mem node hx,
          fun x hx => ?_⟩
        · rw [List.mem_singleton.mp hx]
          refine ⟨hnode, ?_⟩
          cases hl : alookup s.ntypes node with
          | none =>
            rw [hl] at hfile
            exact absurd hfile (by decide)
          | some t =>
            rw [hl] at hfile
            simp only [Option.getD] at hfile
            rw [hfile]
        · rcases List.mem_cons.mp hx with h | h
          · exact Or.inr (h ▸ hnode)
          · exact Or.inl h
      · rw [if_neg hfile]
        have hli : listIncomingNodesE s node =
            .ok ((s.conns.filter (fun c => c.2.node = node)).map
              (fun c => c.1.node)) := by
          unfold listIncomingNodesE
          rw [if_pos hex]
        rw [hli]
        dsimp only
        have hm1 : unvisitedCount s.nodes (node :: visited) ≤ m - 1 := by
          have hlt := unvisitedCount_insert_lt s.nodes visited node hnode hvc
          omega
        have hpos : 1 ≤ m := by
          have : node ∈ s.nodes.filter (fun n => !(visited.contains n)) :=
            List.mem_filter.mpr ⟨hnode, by rw [hvc]; rfl⟩
          have h1 : 1 ≤ unvisitedCount s.nodes visited := by
            unfold unvisitedCount
            exact List.length_pos.mpr (fun hc => by
              rw [hc] at this
              exact absurd this (List.not_mem_nil node))
          omega
        have hwgood : WalkGood s (m - 1) (walkFuel s f) :=
          IH (m - 1) (by omega) f (by omega)
        obtain ⟨⟨res, hok, hres⟩, hgrow, hbound⟩ :=
          walkMany_good s (m - 1) (walkFuel s f) hwgood
            ((s.conns.filter (fun c => c.2.node = node)).map (fun c => c.1.node))
            (fun u hu => by
              obtain ⟨c, hc, hceq⟩ := List.mem_map.mp hu
              rw [← hceq]
              exact (hwf c (List.mem_of_mem_filter hc)).1)
            (node :: visited) hm1
        refine ⟨⟨res, hok, hres⟩, fun x hx => hgrow x (List.mem_cons_of_mem node hx),
          fun x hx => ?_⟩
        rcases hbound x hx with h | h
        · rcases List.mem_cons.mp h with h' | h'
          · exact Or.inr (h' ▸ hnode)
          · exact Or.inl h'
        · exact Or.inr h

theorem walk_upstream_ok (s : Scene) (node : String) (hwf : WFConns s)
    (hnode : node ∈ s.nodes) :
    ∃ res, walk_upstream_for_file s node = .ok res ∧
      ∀ x ∈ res, x ∈ s.nodes ∧ alookup s.ntypes x = some "file" := by
  obtain ⟨⟨res, hok, hres⟩, _, _⟩ :=
    walkFuel_good s hwf s.nodes.length (s.nodes.length + 1) (by omega)
      node [] hnode (unvisitedCount_le_length s.nodes [])
  exact ⟨res, hok, hres⟩

theorem collectOne_spec (s : Scene) (shader ttype srcAttr : String)
    (tmap : List (String × (String × String)))
    (hwf : WFConns s) (hsh : objExists s shader = true)
    (hfiles : ∀ n ∈ s.nodes, alookup s.ntypes n = some "file" →
      ∃ p, getAttrE s ⟨n, "fileTextureName"⟩ = .ok (.str p)) :
    ∃ es, collectOne s shader ttype srcAttr tmap = .ok es ∧
      (∀ e ∈ es, e.shader_attr = srcAttr) ∧
      (∀ tgtAttr prefPlug, alookup tmap ttype = some (tgtAttr, prefPlug) →
        (attrsOfNode s shader).contains srcAttr = true →
        ((∃ e ∈ es, e.transfer_mode = "texture") ↔
          (s.conns.filter (fun c => c.2 = ⟨shader, srcAttr⟩)) ≠ []) ∧
        ((∃ e ∈ es, e.transfer_mode = "value") ↔
          ((s.conns.filter (fun c => c.2 = ⟨shader, srcAttr⟩)) = [] ∧
            srcAttr ∈ VALUE_MAP_KEYS ∧
            ∃ v, alookup s.vals ⟨shader, srcAttr⟩ = some v ∧
              skipValue srcAttr v = false))) := by
  unfold collectOne
  cases htm : alookup tmap ttype with
  | none =>
    refine ⟨[], rfl, fun e he => absurd he (List.not_mem_nil e), ?_⟩
    intro tgtAttr prefPlug htm' _
    exact Option.noConfusion htm'
  | some tp =>
    obtain ⟨tgtAttr0, prefPlug0⟩ := tp
    try dsimp only
    have hae : attrExistsE s shader srcAttr =
        .ok ((attrsOfNode s shader).contains srcAttr) := by
      unfold attrExistsE
      rw [if_pos hsh]
    rw [hae]
    cases hcont : (attrsOfNode s shader).contains srcAttr with
    | false =>
      refine ⟨[], rfl, fun e he => absurd he (List.not_mem_nil e), ?_⟩
      intro tgtAttr prefPlug _ hcont'
      exact Bool.noConfusion hcont'
    | true =>
      try dsimp only
      have hgesp : get_exact_source_plug s shader srcAttr =
          .ok (((s.conns.filter (fun c => c.2 = ⟨shader, srcAttr⟩)).map
            (fun c => c.1)).head?) := by
        unfold get_exact_source_plug listIncomingE
        rw [if_pos hsh]
      rw [hgesp]
      try dsimp only
      cases hil : s.conns.filter (fun c => c.2 = (⟨shader, srcAttr⟩ : Plug)) with
      | nil =>
        dsimp only [List.map, List.head?]
        by_cases hvk : VALUE_MAP_KEYS.contains srcAttr = true
        · rw [if_pos hvk]
          have hpvs : plugValid s ⟨shader, srcAttr⟩ = true := by
            unfold plugValid
            rw [hsh, hcont]
            rfl
          cases hval : alookup s.vals (⟨shader, srcAttr⟩ : Plug) with
          | none =>
            have hge : getAttrE s ⟨shader, srcAttr⟩ =
                .error ("getAttr: no value stored on " ++ shader) := by
              unfold getAttrE
              rw [if_pos hpvs, hval]
            rw [hge]
            refine ⟨[], rfl, fun e he => absurd he (List.not_mem_nil e), ?_⟩
            intro tgtAttr prefPlug _ _
            constructor
            · constructor
              · rintro ⟨e, he, _⟩
                exact absurd he (List.not_mem_nil e)
              · intro hne
                exact absurd rfl hne
            · constructor
              · rintro ⟨e, he, _⟩
                exact absurd he (List.not_mem_nil e)
              · rintro ⟨_, _, v, hv, _⟩
                exact Option.noConfusion hv
          | some v =>
            have hge : getAttrE s ⟨shader, srcAttr⟩ = .ok v := by
              unfold getAttrE
              rw [if_pos hpvs, hval]
            rw [hge]
            try dsimp only
            cases hskip : skipValue srcAttr v with
            | true =>
              rw [if_pos rfl]
              refine ⟨[], rfl, fun e he => absurd he (List.not_mem_nil e), ?_⟩
              intro tgtAttr prefPlug _ _
              constructor
              · constructor
                · rintro ⟨e, he, _⟩
                  exact absurd he (List.not_mem_nil e)
                · intro hne
                  exact absurd rfl hne
              · constructor
                · rintro ⟨e, he, _⟩
                  exact absurd he (List.not_mem_nil e)
                · rintro ⟨_, _, v', hv', hsk'⟩
                  rw [← Option.some.inj hv'] at hsk'
                  rw [hskip] at hsk'
                  exact Bool.noConfusion hsk'
            | false =>
              rw [if_neg Bool.false_ne_true]
              refine ⟨[valEntry shader srcAttr tgtAttr0 prefPlug0 ttype v],
                rfl, fun e he => by rw [List.mem_singleton.mp he]; rfl, ?_⟩
              intro tgtAttr prefPlug _ _
              constructor
              · constructor
                · rintro ⟨e, he, hmode⟩
                  rw [List.mem_singleton.mp he] at hmode
                  have hv0 : (valEntry shader srcAttr tgtAttr0 prefPlug0 ttype
                      v).transfer_mode = "value" := rfl
                  rw [hv0] at hmode
                  exact absurd hmode (by decide)
                · intro hne
                  exact absurd rfl hne
              · constructor
                · intro _
                  exact ⟨rfl, by simpa using hvk, v, rfl, hskip⟩
                · intro _
                  exact ⟨valEntry shader srcAttr tgtAttr0 prefPlug0 ttype v,
                    List.mem_singleton.mpr rfl, rfl⟩
        · rw [if_neg hvk]
          refine ⟨[], rfl, fun e he => absurd he (List.not_mem_nil e), ?_⟩
          intro tgtAttr prefPlug _ _
          constructor
          · constructor
            · rintro ⟨e, he, _⟩
              exact absurd he (List.not_mem_nil e)
            · intro hne
              exact absurd rfl hne
          · constructor
            · rintro ⟨e, he, _⟩
              exact absurd he (List.not_mem_nil e)
            · rintro ⟨_, hmem, _⟩
              exact absurd (contains_true_of_mem hmem) hvk
      | cons c crest =>
        rw [List.map_cons, List.head?_cons]
        try dsimp only
        have hcnode : c.1.node ∈ s.nodes := by
          have hcmem : c ∈ s.conns := by
            have : c ∈ s.conns.filter (fun c => c.2 = (⟨shader, srcAttr⟩ : Plug)) := by
              rw [hil]
              exact List.mem_cons_self c crest
            exact List.mem_of_mem_filter this
          exact (hwf c hcmem).1
        obtain ⟨res, hwalk, hres⟩ := walk_upstream_ok s c.1.node hwf hcnode
        rw [hwalk]
        try dsimp only
        have hfp : ∃ p, filePathOf s res.head? = .ok p := by
          cases hh : res.head? with
          | none => exact ⟨"", rfl⟩
          | some f =>
            have hfmem : f ∈ res := by
              cases res with
              | nil => exact Option.noConfusion hh
              | cons a t =>
                rw [show f = a from (Option.some.inj hh).symm]
                exact List.mem_cons_self a t
            obtain ⟨hf1, hf2⟩ := hres f hfmem
            obtain ⟨p, hp⟩ := hfiles f hf1 hf2
            refine ⟨p, ?_⟩
            unfold filePathOf
            dsimp only
            rw [hp]
        obtain ⟨p, hp⟩ := hfp
        rw [hp]
        refine ⟨[texEntry shader srcAttr c.1 res.head? p tgtAttr0 prefPlug0 ttype],
          rfl, fun e he => by rw [List.mem_singleton.mp he]; rfl, ?_⟩
        intro tgtAttr prefPlug _ _
        constructor
        · constructor
          · intro _
            exact fun hc => List.noConfusion hc
          · intro _
            exact ⟨texEntry shader srcAttr c.1 res.head? p tgtAttr0 prefPlug0 ttype,
              List.mem_singleton.mpr rfl, rfl⟩
        · constructor
          · rintro ⟨e, he, hmode⟩
            rw [List.mem_singleton.mp he] at hmode
            have ht0 : (texEntry shader srcAttr c.1 res.head? p tgtAttr0 prefPlug0
                ttype).transfer_mode = "texture" := rfl
            rw [ht0] at hmode
            exact absurd hmode (by decide)
          · rintro ⟨hnil, _, _⟩
            exact List.noConfusion hnil

theorem collectRows_cons (s : Scene) (shader ttype a : String)
    (tm : List (String × (String × String)))
    (rest : List (String × List (String × (String × String))))
    (es1 es2 : List Entry)
    (h1 : collectOne s shader ttype a tm = .ok es1)
    (h2 : collectRows s shader ttype rest = .ok es2) :
    collectRows s shader ttype ((a, tm) :: rest) = .ok (es1 ++ es2) := by
  unfold collectRows
  rw [h1, h2]

theorem collectRows_spec (s : Scene) (shader ttype : String)
    (rows : List (String × List (String × (String × String))))
    (hnd : (rows.map Prod.fst).Nodup)
    (hwf : WFConns s) (hsh : objExists s shader = true)
    (hfiles : ∀ n ∈ s.nodes, alookup s.ntypes n = some "file" →
      ∃ p, getAttrE s ⟨n, "fileTextureName"⟩ = .ok (.str p)) :
    ∃ es, collectRows s shader ttype rows = .ok es ∧
      (∀ e ∈ es, ∃ r ∈ rows, e.shader_attr = r.1) ∧
      (∀ srcAttr tmap, (srcAttr, tmap) ∈ rows →
        ∀ tgtAttr prefPlug, alookup tmap ttype = some (tgtAttr, prefPlug) →
        (attrsOfNode s shader).contains srcAttr = true →
        ((∃ e ∈ es, e.shader_attr = srcAttr ∧ e.transfer_mode = "texture") ↔
          (s.conns.filter (fun c => c.2 = ⟨shader, srcAttr⟩)) ≠ []) ∧
        ((∃ e ∈ es, e.shader_attr = srcAttr ∧ e.transfer_mode = "value") ↔
          ((s.conns.filter (fun c => c.2 = ⟨shader, srcAttr⟩)) = [] ∧
            srcAttr ∈ VALUE_MAP_KEYS ∧
            ∃ v, alookup s.vals ⟨shader, srcAttr⟩ = some v ∧
              skipValue srcAttr v = false))) := by
  induction rows with
  | nil =>
    exact ⟨[], rfl, fun e he => absurd he (List.not_mem_nil e),
      fun srcAttr tmap hmem => absurd hmem (List.not_mem_nil _)⟩
  | cons r rest ih =>
    obtain ⟨a, tm⟩ := r
    have hanot : a ∉ rest.map Prod.fst := (List.nodup_cons.mp hnd).1
    have hnd' : (rest.map Prod.fst).Nodup := (List.nodup_cons.mp hnd).2
    obtain ⟨es1, h1, hall1, hspec1⟩ :=
      collectOne_spec s shader ttype a tm hwf hsh hfiles
    obtain ⟨es2, h2, hall2, hspec2⟩ := ih hnd'
    refine ⟨es1 ++ es2, collectRows_cons s shader ttype a tm rest es1 es2 h1 h2,
      ?_, ?_⟩
    · intro e he
      rcases List.mem_append.mp he with h | h
      · exact ⟨(a, tm), List.mem_cons_self _ _, hall1 e h⟩
      · obtain ⟨r, hr, he'⟩ := hall2 e h
        exact ⟨r, List.mem_cons_of_mem _ hr, he'⟩
    · intro srcAttr tmap hmem tgtAttr prefPlug hmap hcont
      rcases List.mem_cons.mp hmem with heq | hmem'
      · rw [Prod.mk.injEq] at heq
        obtain ⟨ha, htm⟩ := heq
        subst ha
        subst htm
        have hnot2 : ∀ e ∈ es2, e.shader_attr ≠ srcAttr := by
          intro e he2 hctr
          obtain ⟨r, hr, he'⟩ := hall2 e he2
          apply hanot
          exact List.mem_map.mpr ⟨r, hr, by rw [← he', hctr]⟩
        obtain ⟨hiffT, hiffV⟩ := hspec1 tgtAttr prefPlug hmap hcont
        constructor
        · constructor
          · rintro ⟨e, he, hattr, hmode⟩
            rcases List.mem_append.mp he with h | h
            · exact hiffT.mp ⟨e, h, hmode⟩
            · exact absurd hattr (hnot2 e h)
          · intro hlive
            obtain ⟨e, he, hmode⟩ := hiffT.mpr hlive
            exact ⟨e, List.mem_append_left _ he, hall1 e he, hmode⟩
        · constructor
          · rintro ⟨e, he, hattr, hmode⟩
            rcases List.mem_append.mp he with h | h
            · exact hiffV.mp ⟨e, h, hmode⟩
            · exact absurd hattr (hnot2 e h)
          · intro hval
            obtain ⟨e, he, hmode⟩ := hiffV.mpr hval
            exact ⟨e, List.mem_append_left _ he, hall1 e he, hmode⟩
      · have hane : a ≠ srcAttr := by
          intro hctr
          apply hanot
          exact List.mem_map.mpr ⟨(srcAttr, tmap), hmem', hctr.symm⟩
        obtain ⟨hiffT, hiffV⟩ :=
          hspec2 srcAttr tmap hmem' tgtAttr prefPlug hmap hcont
        constructor
        · constructor
          · rintro ⟨e, he, hattr, hmode⟩
            rcases List.mem_append.mp he with h | h
            · exact absurd (hall1 e h ▸ hattr) hane
            · exact hiffT.mp ⟨e, h, hattr, hmode⟩
          · intro hlive
            obtain ⟨e, he, hattr, hmode⟩ := hiffT.mpr hlive
            exact ⟨e, List.mem_append_right _ he, hattr, hmode⟩
        · constructor
          · rintro ⟨e, he, hattr, hmode⟩
            rcases List.mem_append.mp he with h | h
            · exact absurd (hall1 e h ▸ hattr) hane
            · exact hiffV.mp ⟨e, h, hattr, hmode⟩
          · intro hval
            obtain ⟨e, he, hattr, hmode⟩ := hiffV.mpr hval
            exact ⟨e, List.mem_append_right _ he, hattr, hmode⟩

/-- The subsurfaceColor row of MASTER_MAP (lines 325-330). -/
def subsurfaceColorRow : List (String × (String × String)) := [
  ("RedshiftStandardMaterial", ("subsurface_color", "outColor")),
  ("RedshiftSkin", ("shallow_color", "outColor")),
  ("aiStandardSurface", ("subsurfaceColor", "outColor")),
  ("standardSurface", ("subsurfaceColor", "outColor"))]

/-- The coat row of MASTER_MAP (its last row). -/
def coatRow : List (String × (String × String)) := [
  ("RedshiftStandardMaterial", ("coat_weight", "outAlpha")),
  ("aiStandardSurface", ("coat", "outAlpha")),
  ("standardSurface", ("coat", "outAlpha"))]

/-- An aiStandardSurface shader whose only exposed attribute is
subsurfaceColor, with a stored non-black literal and no incoming
connection. -/
def c6Scene : Scene :=
  { nodes := ["SHD"]
    ntypes := [("SHD", "aiStandardSurface")]
    kindAttrs := [("aiStandardSurface", ["subsurfaceColor"])]
    conns := []
    vals := [(⟨"SHD", "subsurfaceColor"⟩, .triple 1 1 1)]
    avail := []
    sgMembers := [] }

/-- C6: the slot subsurfaceColor is mapped for standardSurface, present
on the shader, carries no live connection, and stores a non-black
literal that no skip rule catches — the claim demands a value-mode
entry, yet collect_data returns an empty plan, because value entries
additionally require membership in VALUE_MAP and subsurfaceColor is not
a VALUE_MAP key. -/
theorem C6_value_slot_silently_dropped_counterexample :
    ("subsurfaceColor", subsurfaceColorRow) ∈ MASTER_MAP ∧
    alookup subsurfaceColorRow "standardSurface" =
      some ("subsurfaceColor", "outColor") ∧
    (attrsOfNode c6Scene "SHD").contains "subsurfaceColor" = true ∧
    c6Scene.conns.filter
      (fun c => c.2 = ⟨"SHD", "subsurfaceColor"⟩) = [] ∧
    alookup c6Scene.vals ⟨"SHD", "subsurfaceColor"⟩ =
      some (.triple 1 1 1) ∧
    skipValue "subsurfaceColor" (.triple 1 1 1) = false ∧
    ("subsurfaceColor" ∈ VALUE_MAP_KEYS → False) ∧
    collect_data "SHD" "standardSurface" c6Scene = .ok [] := by
  decide

/-- C6 (amended): for a slot mapped for the target material kind and
present on the source shader, the planner emits a texture-mode entry
for that slot iff the attribute receives a live connection; it emits a
value-mode entry for the slot iff the attribute is unconnected, the
slot is a VALUE_MAP key, and the stored literal survives the default
filter (black triples are skipped outside baseColor/color/specularColor
and a 0 scalar is skipped for emission/subsurface/coat). -/
theorem C6_mapped_slot_entry_mode_characterization
    (s : Scene) (shader ttype srcAttr tgtAttr prefPlug : String)
    (tmap : List (String × (String × String)))
    (hwf : WFConns s) (hsh : objExists s shader = true)
    (hfiles : ∀ n ∈ s.nodes, alookup s.ntypes n = some "file" →
      ∃ p, getAttrE s ⟨n, "fileTextureName"⟩ = .ok (.str p))
    (hrow : (srcAttr, tmap) ∈ MASTER_MAP)
    (hmap : alookup tmap ttype = some (tgtAttr, prefPlug))
    (hcont : (attrsOfNode s shader).contains srcAttr = true) :
    ∃ es, collect_data shader ttype s = .ok es ∧
      ((∃ e ∈ es, e.shader_attr = srcAttr ∧ e.transfer_mode = "texture") ↔
        (s.conns.filter (fun c => c.2 = ⟨shader, srcAttr⟩)) ≠ []) ∧
      ((∃ e ∈ es, e.shader_attr = srcAttr ∧ e.transfer_mode = "value") ↔
        ((s.conns.filter (fun c => c.2 = ⟨shader, srcAttr⟩)) = [] ∧
          srcAttr ∈ VALUE_MAP_KEYS ∧
          ∃ v, alookup s.vals ⟨shader, srcAttr⟩ = some v ∧
            skipValue srcAttr v = false)) := by
  obtain ⟨es, hok, _, hspec⟩ :=
    collectRows_spec s shader ttype MASTER_MAP (by decide) hwf hsh hfiles
  obtain ⟨hT, hV⟩ := hspec srcAttr tmap hrow tgtAttr prefPlug hmap hcont
  exact ⟨es, hok, hT, hV⟩

/-- An aiStandardSurface shader exposing coat with a stored non-zero
weight and no incoming connection. -/
def c6wScene : Scene :=
  { nodes := ["SHD"]
    ntypes := [("SHD", "aiStandardSurface")]
    kindAttrs := [("aiStandardSurface", ["coat"])]
    conns := []
    vals := [(⟨"SHD", "coat"⟩, .num 3)]
    avail := []
    sgMembers := [] }

theorem C6_mapped_slot_entry_mode_witness :
    ∃ es, collect_data "SHD" "standardSurface" c6wScene = .ok es ∧
      ((∃ e ∈ es, e.shader_attr = "coat" ∧ e.transfer_mode = "texture") ↔
        (c6wScene.conns.filter
          (fun c => c.2 = ⟨"SHD", "coat"⟩)) ≠ []) ∧
      ((∃ e ∈ es, e.shader_attr = "coat" ∧ e.transfer_mode = "value") ↔
        ((c6wScene.conns.filter
            (fun c => c.2 = ⟨"SHD", "coat"⟩)) = [] ∧
          "coat" ∈ VALUE_MAP_KEYS ∧
          ∃ v, alookup c6wScene.vals ⟨"SHD", "coat"⟩ = some v ∧
            skipValue "coat" v = false)) :=
  C6_mapped_slot_entry_mode_characterization c6wScene "SHD"
    "standardSurface" "coat" "coat" "outAlpha" coatRow
    (fun c hc => absurd hc (List.not_mem_nil c))
    (by decide)
    (fun n hn hf => by
      rcases List.mem_cons.mp hn with h | h
      · subst h
        exact absurd hf (by decide)
      · exact absurd h (List.not_mem_nil n))
    (by decide) (by decide) (by decide)

/-! ## Claim C4: running the same plan twice -/

/-- The executor steps considered for idempotence create no node and
touch no schema: name list, type table and attribute schemas agree. -/
def FrameEq (s s' : Scene) : Prop :=
  s'.nodes = s.nodes ∧ s'.ntypes = s.ntypes ∧ s'.kindAttrs = s.kindAttrs

theorem frameEq_refl (s : Scene) : FrameEq s s := ⟨rfl, rfl, rfl⟩

theorem frameEq_trans {s s' s'' : Scene} (h : FrameEq s s')
    (h' : FrameEq s' s'') : FrameEq s s'' :=
  ⟨h'.1.trans h.1, h'.2.1.trans h.2.1, h'.2.2.trans h.2.2⟩

theorem plugValid_frame {s s' : Scene} (h : FrameEq s s') (p : Plug) :
    plugValid s' p = plugValid s p := by
  unfold plugValid objExists attrsOfNode
  rw [h.1, h.2.1, h.2.2]

theorem contains_eq_false_of_not_mem {α : Type} [DecidableEq α]
    {l : List α} {a : α} (h : a ∉ l) : l.contains a = false := by
  simpa using h

theorem conns_contains_eq_false {l : List (Plug × Plug)}
    {a : Plug × Plug} (h : a ∉ l) : l.contains a = false := by
  simpa using h

theorem mem_of_filter_pair {l : List (Plug × Plug)} {d : Plug}
    {c : Plug × Plug} (hc : c ∈ l) (hd : c.2 = d) :
    c ∈ l.filter (fun c => c.2 = d) :=
  List.mem_filter.mpr ⟨hc, by simpa using hd⟩

theorem not_mem_of_filter_pair_nil {l : List (Plug × Plug)} {d : Plug}
    (h : l.filter (fun c => c.2 = d) = []) (sp : Plug) :
    (sp, d) ∉ l := by
  intro hmem
  have : (sp, d) ∈ l.filter (fun c => c.2 = d) :=
    mem_of_filter_pair hmem rfl
  rw [h] at this
  exact absurd this (List.not_mem_nil _)

theorem filter_keep_of_filter_nil {l : List (Plug × Plug)} {d : Plug}
    (h : l.filter (fun c => c.2 = d) = []) :
    l.filter (fun c => ¬ (c.2 = d)) = l := by
  induction l with
  | nil => rfl
  | cons a t ih =>
    rw [List.filter_cons] at h ⊢
    by_cases hd : a.2 = d
    · rw [if_pos (by simpa using hd)] at h
      exact absurd h (List.cons_ne_nil a _)
    · rw [if_neg (by simpa using hd)] at h
      rw [if_pos (by simpa using hd), ih h]

theorem any_false_of_filter_pair_nil {l : List (Plug × Plug)} {d : Plug}
    (h : l.filter (fun c => c.2 = d) = []) :
    l.any (fun c => c.2 = d) = false := by
  induction l with
  | nil => rfl
  | cons a t ih =>
    rw [List.filter_cons] at h
    by_cases hd : a.2 = d
    · rw [if_pos (by simpa using hd)] at h
      exact absurd h (List.cons_ne_nil a _)
    · rw [if_neg (by simpa using hd)] at h
      rw [List.any_cons, ih h]
      simpa using hd

theorem setVal_all_eq (vals : List (Plug × MVal)) (p : Plug) (v : MVal) :
    ∀ q ∈ setVal vals p v, q.1 = p → q = (p, v) := by
  intro q hq hqp
  unfold setVal at hq
  by_cases hany : vals.any (fun q => q.1 = p) = true
  · rw [if_pos hany] at hq
    obtain ⟨r, hr, hfr⟩ := List.mem_map.mp hq
    by_cases hrp : r.1 = p
    · rw [if_pos (by simpa using hrp)] at hfr
      exact hfr.symm
    · rw [if_neg (by simpa using hrp)] at hfr
      rw [← hfr] at hqp
      exact absurd hqp hrp
  · rw [if_neg hany] at hq
    rcases List.mem_append.mp hq with h | h
    · exact absurd (List.any_eq_true.mpr ⟨q, h, by simpa using hqp⟩) hany
    · exact List.mem_singleton.mp h

theorem setVal_any (vals : List (Plug × MVal)) (p : Plug) (v : MVal) :
    (setVal vals p v).any (fun q => q.1 = p) = true := by
  unfold setVal
  by_cases hany : vals.any (fun q => q.1 = p) = true
  · rw [if_pos hany]
    obtain ⟨r, hr, hrp⟩ := List.any_eq_true.mp hany
    refine List.any_eq_true.mpr ⟨(p, v), List.mem_map.mpr ⟨r, hr, ?_⟩, by simp⟩
    rw [if_pos (of_decide_eq_true hrp)]
  · rw [if_neg hany]
    exact List.any_eq_true.mpr ⟨(p, v),
      List.mem_append_right _ (List.mem_singleton.mpr rfl), by simp⟩

theorem setVal_self (vals : List (Plug × MVal)) (p : Plug) (v : MVal)
    (hall : ∀ q ∈ vals, q.1 = p → q = (p, v))
    (hany : vals.any (fun q => q.1 = p) = true) :
    setVal vals p v = vals := by
  unfold setVal
  rw [if_pos hany]
  have : ∀ q ∈ vals, (if q.1 = p then (p, v) else q) = q := by
    intro q hq
    by_cases hqp2 : q.1 = p
    · rw [if_pos hqp2, hall q hq hqp2]
    · rw [if_neg hqp2]
  calc vals.map (fun q => if q.1 = p then (p, v) else q)
      = vals.map id := List.map_congr_left this
    _ = vals := List.map_id vals

theorem setVal_filter_other (vals : List (Plug × MVal)) (p : Plug)
    (v : MVal) (q : Plug) (hqp : q ≠ p) :
    (setVal vals p v).filter (fun r => r.1 = q) =
      vals.filter (fun r => r.1 = q) := by
  have hmap : ∀ l : List (Plug × MVal),
      (l.map (fun r => if r.1 = p then (p, v) else r)).filter
        (fun r => r.1 = q) = l.filter (fun r => r.1 = q) := by
    intro l
    induction l with
    | nil => rfl
    | cons a t ih =>
      rw [List.map_cons, List.filter_cons, List.filter_cons]
      by_cases haq : a.1 = q
      · have hap : ¬ (a.1 = p) := by rw [haq]; exact hqp
        rw [if_neg hap]
        rw [if_pos (by simpa using haq), if_pos (by simpa using haq), ih]
      · by_cases hap : a.1 = p
        · rw [if_pos hap]
          have : ¬ (((p, v) : Plug × MVal).1 = q) := fun hc => hqp hc.symm
          rw [if_neg (by simpa using this), if_neg (by simpa using haq), ih]
        · rw [if_neg hap, if_neg (by simpa using haq),
            if_neg (by simpa using haq), ih]
  unfold setVal
  by_cases hany : vals.any (fun r => r.1 = p) = true
  · rw [if_pos hany]
    exact hmap vals
  · rw [if_neg hany, List.filter_append]
    have : ¬ (((p, v) : Plug × MVal).1 = q) := fun hc => hqp hc.symm
    rw [show ([(p, v)] : List (Plug × MVal)).filter (fun r => r.1 = q) = []
      from by rw [List.filter_cons, if_neg (by simpa using this)]; rfl]
    rw [List.append_nil]

theorem all_bindings_of_filter_eq {vals vals' : List (Plug × MVal)}
    {d : Plug} {v : MVal}
    (hfe : vals'.filter (fun r => r.1 = d) = vals.filter (fun r => r.1 = d))
    (hall : ∀ q ∈ vals, q.1 = d → q = (d, v)) :
    ∀ q ∈ vals', q.1 = d → q = (d, v) := by
  intro q hq hqd
  have hmem : q ∈ vals'.filter (fun r => r.1 = d) :=
    List.mem_filter.mpr ⟨hq, by simpa using hqd⟩
  rw [hfe] at hmem
  exact hall q (List.mem_filter.mp hmem).1 hqd

theorem any_binding_of_filter_eq {vals vals' : List (Plug × MVal)}
    {d : Plug}
    (hfe : vals'.filter (fun r => r.1 = d) = vals.filter (fun r => r.1 = d))
    (hany : vals.any (fun r => r.1 = d) = true) :
    vals'.any (fun r => r.1 = d) = true := by
  obtain ⟨r, hr, hrd⟩ := List.any_eq_true.mp hany
  have hmem : r ∈ vals.filter (fun r => r.1 = d) :=
    List.mem_filter.mpr ⟨hr, hrd⟩
  rw [← hfe] at hmem
  exact List.any_eq_true.mpr ⟨r, (List.mem_filter.mp hmem).1, hrd⟩

theorem filter_pair_append_other {l : List (Plug × Plug)}
    {pr : Plug × Plug} {d : Plug} (h : ¬ (pr.2 = d)) :
    (l ++ [pr]).filter (fun c => c.2 = d) = l.filter (fun c => c.2 = d) := by
  rw [List.filter_append, List.filter_cons, if_neg (by simpa using h)]
  rw [List.filter_nil, List.append_nil]

theorem okCount_append (l1 l2 : List String) :
    okCount (l1 ++ l2) = okCount l1 + okCount l2 := by
  unfold okCount
  rw [List.filter_append, List.length_append]

theorem okv_line_counts (x : String) :
    strStartsWith ("[OK-V] " ++ x) "[OK" = true := by
  unfold strStartsWith
  rw [String.data_append]
  rfl

theorem skip_line_not_counted (x : String) :
    strStartsWith ("[SKIP] Already connected: " ++ x) "[OK" = false := by
  unfold strStartsWith
  rw [String.data_append]
  rfl

theorem plugValid_objExists {s : Scene} {p : Plug}
    (h : plugValid s p = true) : objExists s p.node = true := by
  unfold plugValid at h
  cases hb : objExists s p.node
  · rw [hb, Bool.false_and] at h
    exact Bool.noConfusion h
  · rfl

/-- Preconditions under which one plan entry re-executes cleanly: a
plain destination attribute of the target, initially unconnected, and
either a texture entry whose source is a live file node or a value
entry carrying a literal. -/
def EntryPre (s : Scene) (T : String) (e : Entry) : Prop :=
  e.tgt_attr ≠ "_displacement_" ∧
  plugValid s ⟨T, e.tgt_attr⟩ = true ∧
  s.conns.filter (fun c => c.2 = (⟨T, e.tgt_attr⟩ : Plug)) = [] ∧
  ((e.transfer_mode = "texture" ∧
     ∃ srcN, e.source_node = some srcN ∧
       alookup s.ntypes srcN = some "file" ∧
       plugValid s ⟨srcN, e.preferred_plug⟩ = true) ∨
   (e.transfer_mode = "value" ∧ ∃ v, e.raw_value = some v))

/-- What one successfully executed entry guarantees about the scene:
a texture entry owns the sole incoming connection of its destination;
a value entry leaves its destination unconnected with every stored
binding equal to the transferred literal. -/
def EntryPost (s : Scene) (T : String) (e : Entry) : Prop :=
  (∀ srcN, e.transfer_mode = "texture" → e.source_node = some srcN →
    s.conns.filter (fun c => c.2 = (⟨T, e.tgt_attr⟩ : Plug)) =
      [(⟨srcN, e.preferred_plug⟩, ⟨T, e.tgt_attr⟩)]) ∧
  (∀ v, e.transfer_mode = "value" → e.raw_value = some v →
    s.conns.filter (fun c => c.2 = (⟨T, e.tgt_attr⟩ : Plug)) = [] ∧
    (∀ q ∈ s.vals, q.1 = (⟨T, e.tgt_attr⟩ : Plug) →
      q = (⟨T, e.tgt_attr⟩, v)) ∧
    s.vals.any (fun q => q.1 = (⟨T, e.tgt_attr⟩ : Plug)) = true)

theorem run1_texture_step (T tt r : String) (st : DTSt) (e : Entry)
    (srcN : String)
    (htt : ¬ (tt = "MASH")) (hdisp : ¬ (e.tgt_attr = "_displacement_"))
    (hmode : e.transfer_mode = "texture")
    (hsn : e.source_node = some srcN)
    (hty : alookup st.scene.ntypes srcN = some "file")
    (hsv : plugValid st.scene ⟨srcN, e.preferred_plug⟩ = true)
    (hdv : plugValid st.scene ⟨T, e.tgt_attr⟩ = true)
    (hun : st.scene.conns.filter
      (fun c => c.2 = (⟨T, e.tgt_attr⟩ : Plug)) = []) :
    do_transfer_entry (some T) tt none r st e =
      (.ok (), addLog { st with scene := { st.scene with conns :=
        st.scene.conns ++
          [(⟨srcN, e.preferred_plug⟩, ⟨T, e.tgt_attr⟩)] } }
        ("[OK-T] " ++ padTo (plugStr ⟨srcN, e.preferred_plug⟩) 50 ++
          "  →  " ++ plugStr ⟨T, e.tgt_attr⟩)) := by
  have hsrcEx : objExists st.scene srcN = true := plugValid_objExists hsv
  have hTex : objExists st.scene T = true := plugValid_objExists hdv
  have hnt : nodeTypeE st.scene srcN = .ok "file" := by
    unfold nodeTypeE
    rw [if_pos hsrcEx, hty]
    rfl
  have hic : isConnectedE st.scene ⟨srcN, e.preferred_plug⟩
      ⟨T, e.tgt_attr⟩ = .ok false := by
    unfold isConnectedE
    rw [hsv, hdv]
    rw [if_pos (by decide : ((true && true) = true))]
    rw [conns_contains_eq_false
      (not_mem_of_filter_pair_nil hun ⟨srcN, e.preferred_plug⟩)]
  have hca : connectAttrE st.scene ⟨srcN, e.preferred_plug⟩
      ⟨T, e.tgt_attr⟩ =
      (.ok (), { st.scene with conns := st.scene.conns ++
        [(⟨srcN, e.preferred_plug⟩, ⟨T, e.tgt_attr⟩)] }) := by
    unfold connectAttrE
    rw [hsv, hdv]
    rw [if_pos (by decide : ((true && true) = true)),
      filter_keep_of_filter_nil hun]
  unfold do_transfer_entry
  rw [if_neg htt, if_neg hdisp]
  dsimp only
  rw [if_neg (fun hc => hc hTex)]
  unfold execModes
  rw [if_pos hmode]
  unfold execTexture
  rw [hsn]
  dsimp only
  rw [hnt]
  dsimp only
  rw [if_pos rfl]
  dsimp only
  rw [if_neg (fun hc => hc hsrcEx)]
  rw [hic]
  dsimp only
  rw [hca]

theorem run2_texture_step (T tt r : String) (st : DTSt) (e : Entry)
    (srcN : String)
    (htt : ¬ (tt = "MASH")) (hdisp : ¬ (e.tgt_attr = "_displacement_"))
    (hmode : e.transfer_mode = "texture")
    (hsn : e.source_node = some srcN)
    (hty : alookup st.scene.ntypes srcN = some "file")
    (hsv : plugValid st.scene ⟨srcN, e.preferred_plug⟩ = true)
    (hdv : plugValid st.scene ⟨T, e.tgt_attr⟩ = true)
    (hconn : (⟨srcN, e.preferred_plug⟩, (⟨T, e.tgt_attr⟩ : Plug)) ∈
      st.scene.conns) :
    do_transfer_entry (some T) tt none r st e =
      (.ok (), addLog st ("[SKIP] Already connected: " ++
        plugStr ⟨srcN, e.preferred_plug⟩ ++ " → " ++
        plugStr ⟨T, e.tgt_attr⟩)) := by
  have hsrcEx : objExists st.scene srcN = true := plugValid_objExists hsv
  have hTex : objExists st.scene T = true := plugValid_objExists hdv
  have hnt : nodeTypeE st.scene srcN = .ok "file" := by
    unfold nodeTypeE
    rw [if_pos hsrcEx, hty]
    rfl
  have hic : isConnectedE st.scene ⟨srcN, e.preferred_plug⟩
      ⟨T, e.tgt_attr⟩ = .ok true := by
    unfold isConnectedE
    rw [hsv, hdv]
    rw [if_pos (by decide : ((true && true) = true))]
    rw [show st.scene.conns.contains
      (⟨srcN, e.preferred_plug⟩, (⟨T, e.tgt_attr⟩ : Plug)) = true
      from by simpa using hconn]
  unfold do_transfer_entry
  rw [if_neg htt, if_neg hdisp]
  dsimp only
  rw [if_neg (fun hc => hc hTex)]
  unfold execModes
  rw [if_pos hmode]
  unfold execTexture
  rw [hsn]
  dsimp only
  rw [hnt]
  dsimp only
  rw [if_pos rfl]
  dsimp only
  rw [if_neg (fun hc => hc hsrcEx)]
  rw [hic]

theorem run1_value_step (T tt r : String) (st : DTSt) (e : Entry)
    (v : MVal)
    (htt : ¬ (tt = "MASH")) (hdisp : ¬ (e.tgt_attr = "_displacement_"))
    (hmode : e.transfer_mode = "value")
    (hmode' : ¬ (e.transfer_mode = "texture"))
    (hv : e.raw_value = some v)
    (hdv : plugValid st.scene ⟨T, e.tgt_attr⟩ = true)
    (hun : st.scene.conns.filter
      (fun c => c.2 = (⟨T, e.tgt_attr⟩ : Plug)) = []) :
    do_transfer_entry (some T) tt none r st e =
      (.ok (), addLog
        { st with scene :=
            { st.scene with
                vals := setVal st.scene.vals ⟨T, e.tgt_attr⟩ v } }
        ("[OK-V] " ++ e.shader ++ "." ++ padTo e.shader_attr 30 ++
          "  →  " ++ plugStr ⟨T, e.tgt_attr⟩ ++ "  =  " ++ mvalStr v)) := by
  have hTex : objExists st.scene T = true := plugValid_objExists hdv
  have hsa : setAttrE st.scene ⟨T, e.tgt_attr⟩ v =
      (.ok (),
        { st.scene with
            vals := setVal st.scene.vals ⟨T, e.tgt_attr⟩ v }) := by
    unfold setAttrE
    rw [if_pos hdv, any_false_of_filter_pair_nil hun]
    rw [if_neg Bool.false_ne_true]
  unfold do_transfer_entry
  rw [if_neg htt, if_neg hdisp]
  dsimp only
  rw [if_neg (fun hc => hc hTex)]
  unfold execModes
  rw [if_neg hmode', if_pos hmode]
  unfold execValue
  rw [hv]
  dsimp only
  rw [hsa]

theorem scene_with_vals_self (s : Scene) : { s with vals := s.vals } = s := by
  cases s
  rfl

theorem plug_ne_of_attr_ne {T a b : String} (h : ¬ (a = b)) :
    (⟨T, a⟩ : Plug) ≠ ⟨T, b⟩ :=
  fun hc => h (congrArg Plug.attr hc)

theorem run1_loop (T tt r : String) (htt : ¬ (tt = "MASH"))
    (l : List Entry) :
    ∀ st : DTSt,
    (∀ e ∈ l, EntryPre st.scene T e) →
    l.Pairwise (fun a b => ¬ (a.tgt_attr = b.tgt_attr)) →
    ∃ st', do_transfer_loop (some T) tt none r l st = (.ok (), st') ∧
      FrameEq st.scene st'.scene ∧
      (∀ e ∈ l, EntryPost st'.scene T e) ∧
      (∀ d : Plug, (∀ e ∈ l, (⟨T, e.tgt_attr⟩ : Plug) ≠ d) →
        st'.scene.conns.filter (fun c => c.2 = d) =
          st.scene.conns.filter (fun c => c.2 = d)) ∧
      (∀ p : Plug, (∀ e ∈ l, (⟨T, e.tgt_attr⟩ : Plug) ≠ p) →
        st'.scene.vals.filter (fun q => q.1 = p) =
          st.scene.vals.filter (fun q => q.1 = p)) := by
  induction l with
  | nil =>
    intro st _ _
    exact ⟨st, rfl, frameEq_refl st.scene,
      fun e he => absurd he (List.not_mem_nil e),
      fun d _ => rfl, fun p _ => rfl⟩
  | cons e rest ih =>
    intro st hpre hpair
    obtain ⟨hdisp, hdv, hun, hmodes⟩ := hpre e (List.mem_cons_self e rest)
    have hpairrel : ∀ e' ∈ rest, ¬ (e.tgt_attr = e'.tgt_attr) :=
      fun e' he' => List.rel_of_pairwise_cons hpair he'
    have hpair' : rest.Pairwise (fun a b => ¬ (a.tgt_attr = b.tgt_attr)) :=
      hpair.of_cons
    rcases hmodes with ⟨hmode, srcN, hsn, hty, hsv⟩ | ⟨hmode, v, hv⟩
    · -- texture entry with a file source
      have hstep := run1_texture_step T tt r st e srcN htt hdisp hmode
        hsn hty hsv hdv hun
      set s1 : Scene := { st.scene with conns := st.scene.conns ++
        [(⟨srcN, e.preferred_plug⟩, ⟨T, e.tgt_attr⟩)] } with hs1
      set st1 : DTSt := addLog { st with scene := s1 }
        ("[OK-T] " ++ padTo (plugStr ⟨srcN, e.preferred_plug⟩) 50 ++
          "  →  " ++ plugStr ⟨T, e.tgt_attr⟩) with hst1
      have hfr1 : FrameEq st.scene st1.scene := ⟨rfl, rfl, rfl⟩
      have hconns1 : st1.scene.conns = st.scene.conns ++
          [(⟨srcN, e.preferred_plug⟩, ⟨T, e.tgt_attr⟩)] := rfl
      have hvals1 : st1.scene.vals = st.scene.vals := rfl
      have hpre' : ∀ e' ∈ rest, EntryPre st1.scene T e' := by
        intro e' he'
        obtain ⟨hd', hv', hu', hm'⟩ := hpre e' (List.mem_cons_of_mem e he')
        have hne : ¬ (((⟨srcN, e.preferred_plug⟩ : Plug),
            (⟨T, e.tgt_attr⟩ : Plug)).2 = (⟨T, e'.tgt_attr⟩ : Plug)) :=
          plug_ne_of_attr_ne (hpairrel e' he')
        unfold EntryPre
        refine ⟨hd', by rw [plugValid_frame hfr1]; exact hv', ?_, ?_⟩
        · rw [hconns1, filter_pair_append_other hne]
          exact hu'
        · rcases hm' with ⟨hm, sN, hs, ht, hpv⟩ | hm
          · exact Or.inl ⟨hm, sN, hs, by rw [hfr1.2.1]; exact ht,
              by rw [plugValid_frame hfr1]; exact hpv⟩
          · exact Or.inr hm
      obtain ⟨st', hloop, hfr', hpost', huc', huv'⟩ := ih st1 hpre' hpair'
      refine ⟨st', by rw [do_transfer_loop_cons _ _ _ _ _ _ _ _ hstep]; exact hloop,
        frameEq_trans hfr1 hfr', ?_, ?_, ?_⟩
      · intro e'' he''
        rcases List.mem_cons.mp he'' with heq | hmem'
        · subst heq
          unfold EntryPost
          constructor
          · intro srcN' _ hsn'
            have hsrceq : srcN' = srcN :=
              (Option.some.inj (hsn.symm.trans hsn')).symm
            subst hsrceq
            have hself : st'.scene.conns.filter
                (fun c => c.2 = (⟨T, e''.tgt_attr⟩ : Plug)) =
                st1.scene.conns.filter
                  (fun c => c.2 = (⟨T, e''.tgt_attr⟩ : Plug)) := by
              refine huc' _ ?_
              intro e2 he2
              exact plug_ne_of_attr_ne
                (fun hc => hpairrel e2 he2 hc.symm)
            rw [hself, hconns1, List.filter_append, hun,
              List.nil_append, List.filter_cons,
              if_pos (by simp), List.filter_nil]
          · intro v' hmv _
            rw [hmode] at hmv
            exact absurd hmv (by decide)
        · exact hpost' e'' hmem'
      · intro d hd
        rw [huc' d (fun e2 he2 => hd e2 (List.mem_cons_of_mem e he2)),
          hconns1, filter_pair_append_other
            (hd e (List.mem_cons_self e rest))]
      · intro p hp
        rw [huv' p (fun e2 he2 => hp e2 (List.mem_cons_of_mem e he2)),
          hvals1]
    · -- value entry carrying a literal
      have hmode' : ¬ (e.transfer_mode = "texture") := by
        rw [hmode]
        decide
      have hstep := run1_value_step T tt r st e v htt hdisp hmode hmode'
        hv hdv hun
      set s1 : Scene :=
        { st.scene with
            vals := setVal st.scene.vals ⟨T, e.tgt_attr⟩ v } with hs1
      set st1 : DTSt := addLog { st with scene := s1 }
        ("[OK-V] " ++ e.shader ++ "." ++ padTo e.shader_attr 30 ++
          "  →  " ++ plugStr ⟨T, e.tgt_attr⟩ ++ "  =  " ++ mvalStr v)
        with hst1
      have hfr1 : FrameEq st.scene st1.scene := ⟨rfl, rfl, rfl⟩
      have hconns1 : st1.scene.conns = st.scene.conns := rfl
      have hvals1 : st1.scene.vals =
          setVal st.scene.vals ⟨T, e.tgt_attr⟩ v := rfl
      have hpre' : ∀ e' ∈ rest, EntryPre st1.scene T e' := by
        intro e' he'
        obtain ⟨hd', hv', hu', hm'⟩ := hpre e' (List.mem_cons_of_mem e he')
        unfold EntryPre
        refine ⟨hd', by rw [plugValid_frame hfr1]; exact hv', ?_, ?_⟩
        · rw [hconns1]
          exact hu'
        · rcases hm' with ⟨hm, sN, hs, ht, hpv⟩ | hm
          · exact Or.inl ⟨hm, sN, hs, by rw [hfr1.2.1]; exact ht,
              by rw [plugValid_frame hfr1]; exact hpv⟩
          · exact Or.inr hm
      obtain ⟨st', hloop, hfr', hpost', huc', huv'⟩ := ih st1 hpre' hpair'
      refine ⟨st', by rw [do_transfer_loop_cons _ _ _ _ _ _ _ _ hstep]; exact hloop,
        frameEq_trans hfr1 hfr', ?_, ?_, ?_⟩
      · intro e'' he''
        rcases List.mem_cons.mp he'' with heq | hmem'
        · subst heq
          unfold EntryPost
          constructor
          · intro srcN' hmt _
            rw [hmode] at hmt
            exact absurd hmt (by decide)
          · intro v' _ hv'
            have hveq : v' = v := (Option.some.inj (hv.symm.trans hv')).symm
            rw [hveq]
            have hdne : ∀ e2 ∈ rest,
                (⟨T, e2.tgt_attr⟩ : Plug) ≠ ⟨T, e''.tgt_attr⟩ := by
              intro e2 he2
              exact plug_ne_of_attr_ne (fun hc => hpairrel e2 he2 hc.symm)
            have hselfc : st'.scene.conns.filter
                (fun c => c.2 = (⟨T, e''.tgt_attr⟩ : Plug)) =
                st1.scene.conns.filter
                  (fun c => c.2 = (⟨T, e''.tgt_attr⟩ : Plug)) :=
              huc' _ hdne
            have hselfv : st'.scene.vals.filter
                (fun q => q.1 = (⟨T, e''.tgt_attr⟩ : Plug)) =
                st1.scene.vals.filter
                  (fun q => q.1 = (⟨T, e''.tgt_attr⟩ : Plug)) :=
              huv' _ hdne
            refine ⟨?_, ?_, ?_⟩
            · rw [hselfc, hconns1]
              exact hun
            · exact all_bindings_of_filter_eq
                (hvals1 ▸ hselfv)
                (setVal_all_eq st.scene.vals ⟨T, e''.tgt_attr⟩ v)
            · exact any_binding_of_filter_eq
                (hvals1 ▸ hselfv)
                (setVal_any st.scene.vals ⟨T, e''.tgt_attr⟩ v)
        · exact hpost' e'' hmem'
      · intro d hd
        rw [huc' d (fun e2 he2 => hd e2 (List.mem_cons_of_mem e he2)),
          hconns1]
      · intro p hp
        rw [huv' p (fun e2 he2 => hp e2 (List.mem_cons_of_mem e he2)),
          hvals1, setVal_filter_other _ _ _ _
            (fun hc => hp e (List.mem_cons_self e rest) hc.symm)]

theorem okv_full_line (a b c d : String) :
    strStartsWith ("[OK-V] " ++ a ++ "." ++ b ++ "  →  " ++ c ++
      "  =  " ++ d) "[OK" = true := by
  unfold strStartsWith
  simp only [String.data_append]
  rfl

theorem skip_full_line (a b : String) :
    strStartsWith ("[SKIP] Already connected: " ++ a ++ " → " ++ b)
      "[OK" = false := by
  unfold strStartsWith
  simp only [String.data_append]
  rfl

/-- What a second execution of an already-satisfied entry needs: the
texture connection is in place, or the value is already stored so that
re-setting it is the identity. -/
def EntryPre2 (s : Scene) (T : String) (e : Entry) : Prop :=
  e.tgt_attr ≠ "_displacement_" ∧
  plugValid s ⟨T, e.tgt_attr⟩ = true ∧
  ((e.transfer_mode = "texture" ∧ ∃ srcN, e.source_node = some srcN ∧
      alookup s.ntypes srcN = some "file" ∧
      plugValid s ⟨srcN, e.preferred_plug⟩ = true ∧
      (⟨srcN, e.preferred_plug⟩, (⟨T, e.tgt_attr⟩ : Plug)) ∈ s.conns) ∨
   (e.transfer_mode = "value" ∧ ∃ v, e.raw_value = some v ∧
      s.conns.filter (fun c => c.2 = (⟨T, e.tgt_attr⟩ : Plug)) = [] ∧
      setVal s.vals ⟨T, e.tgt_attr⟩ v = s.vals))

theorem run2_loop (T tt r : String) (htt : ¬ (tt = "MASH"))
    (l : List Entry) :
    ∀ st : DTSt, (∀ e ∈ l, EntryPre2 st.scene T e) →
    ∃ lines, do_transfer_loop (some T) tt none r l st =
      (.ok (), { st with log := st.log ++ lines }) ∧
      okCount lines =
        (l.filter (fun e => e.transfer_mode = "value")).length := by
  induction l with
  | nil =>
    intro st _
    refine ⟨[], ?_, rfl⟩
    rw [show do_transfer_loop (some T) tt none r [] st = (.ok (), st)
      from rfl]
    rw [show st.log ++ [] = st.log from List.append_nil st.log]
  | cons e rest ih =>
    intro st hpre2
    obtain ⟨hdisp, hdv, hmodes⟩ := hpre2 e (List.mem_cons_self e rest)
    rcases hmodes with ⟨hmode, srcN, hsn, hty, hsv, hconn⟩ |
      ⟨hmode, v, hv, hun, hsetself⟩
    · -- texture entry: already connected, SKIP
      have hstep := run2_texture_step T tt r st e srcN htt hdisp hmode
        hsn hty hsv hdv hconn
      set line : String := "[SKIP] Already connected: " ++
        plugStr ⟨srcN, e.preferred_plug⟩ ++ " → " ++
        plugStr ⟨T, e.tgt_attr⟩ with hline
      obtain ⟨lines', hloop, hcount⟩ := ih (addLog st line)
        (fun e' he' => hpre2 e' (List.mem_cons_of_mem e he'))
      refine ⟨line :: lines', ?_, ?_⟩
      · rw [do_transfer_loop_cons _ _ _ _ _ _ _ _ hstep, hloop]
        obtain ⟨slog, scol, scach, ssc⟩ := st
        rw [show (addLog (DTSt.mk slog scol scach ssc) line).log =
          slog ++ [line] from rfl]
        rw [List.append_assoc]
        rfl
      · rw [show okCount (line :: lines') = okCount [line] + okCount lines'
          from okCount_append [line] lines']
        rw [show okCount [line] = 0 from by
          unfold okCount
          rw [List.filter_cons, hline, skip_full_line]
          rfl]
        rw [List.filter_cons, if_neg (by rw [hmode]; decide)]
        rw [hcount]
        exact Nat.zero_add _
    · -- value entry: re-set to the identical stored value
      have hmode' : ¬ (e.transfer_mode = "texture") := by
        rw [hmode]
        decide
      have hstep := run1_value_step T tt r st e v htt hdisp hmode hmode'
        hv hdv hun
      rw [hsetself, scene_with_vals_self] at hstep
      set line : String := "[OK-V] " ++ e.shader ++ "." ++
        padTo e.shader_attr 30 ++ "  →  " ++ plugStr ⟨T, e.tgt_attr⟩ ++
        "  =  " ++ mvalStr v with hline
      obtain ⟨lines', hloop, hcount⟩ := ih
        (addLog { st with scene := st.scene } line)
        (fun e' he' => hpre2 e' (List.mem_cons_of_mem e he'))
      refine ⟨line :: lines', ?_, ?_⟩
      · rw [do_transfer_loop_cons _ _ _ _ _ _ _ _ hstep, hloop]
        obtain ⟨slog, scol, scach, ssc⟩ := st
        rw [show (addLog { DTSt.mk slog scol scach ssc with
            scene := ssc } line).log = slog ++ [line] from rfl]
        rw [List.append_assoc]
        rfl
      · rw [show okCount (line :: lines') = okCount [line] + okCount lines'
          from okCount_append [line] lines']
        rw [show okCount [line] = 1 from by
          unfold okCount
          rw [List.filter_cons, hline, okv_full_line]
          rfl]
        rw [List.filter_cons, if_pos (by rw [hmode]; decide)]
        rw [List.length_cons, hcount]
        exact Nat.add_comm 1 _

/-- C4 (amended): for a plan of texture entries with live file-node
sources and value entries, all to distinct plain destination attributes
of an existing non-MASH target that start out unconnected, the second
run leaves the scene exactly as the first run left it — but its OK
count is the number of value entries, not 0: every texture entry is
reported SKIP (already connected) while every value entry is re-set
and reported OK-V again. -/
theorem C4_second_run_state_identical_values_reapplied
    (s : Scene) (data : List Entry) (T tt : String)
    (htt : ¬ (tt = "MASH"))
    (hpair : data.Pairwise (fun a b => ¬ (a.tgt_attr = b.tgt_attr)))
    (hpre : ∀ e ∈ data, EntryPre s T e) :
    ∃ log1 s1 log2,
      do_transfer data (some T) tt none s = (.ok log1, s1) ∧
      do_transfer data (some T) tt none s1 = (.ok log2, s1) ∧
      okCount log2 =
        (data.filter (fun e => e.transfer_mode = "value")).length := by
  obtain ⟨st', hloop1, hfr, hpost, _, _⟩ :=
    run1_loop T tt (get_renderer_from_mat_type tt) htt data
      ⟨[], none, [], s⟩ hpre hpair
  have h1 : do_transfer data (some T) tt none s =
      (.ok st'.log, st'.scene) := by
    unfold do_transfer
    dsimp only
    rw [hloop1]
  have hpre2 : ∀ e ∈ data, EntryPre2 st'.scene T e := by
    intro e he
    obtain ⟨hdisp, hdv, _, hmodes⟩ := hpre e he
    obtain ⟨hpostT, hpostV⟩ := hpost e he
    refine ⟨hdisp, by rw [plugValid_frame hfr]; exact hdv, ?_⟩
    rcases hmodes with ⟨hmode, srcN, hsn, hty, hsv⟩ | ⟨hmode, v, hv⟩
    · refine Or.inl ⟨hmode, srcN, hsn, by rw [hfr.2.1]; exact hty,
        by rw [plugValid_frame hfr]; exact hsv, ?_⟩
      have hfil := hpostT srcN hmode hsn
      have : (⟨srcN, e.preferred_plug⟩, (⟨T, e.tgt_attr⟩ : Plug)) ∈
          st'.scene.conns.filter
            (fun c => c.2 = (⟨T, e.tgt_attr⟩ : Plug)) := by
        rw [hfil]
        exact List.mem_singleton.mpr rfl
      exact List.mem_of_mem_filter this
    · obtain ⟨hfil, hall, hany⟩ := hpostV v hmode hv
      exact Or.inr ⟨hmode, v, hv, hfil,
        setVal_self st'.scene.vals ⟨T, e.tgt_attr⟩ v hall hany⟩
  obtain ⟨lines, hloop2, hcount⟩ :=
    run2_loop T tt (get_renderer_from_mat_type tt) htt data
      ⟨[], none, [], st'.scene⟩ hpre2
  have h2 : do_transfer data (some T) tt none st'.scene =
      (.ok lines, st'.scene) := by
    unfold do_transfer
    dsimp only
    rw [hloop2]
    rw [show ([] : List String) ++ lines = lines from List.nil_append lines]
  exact ⟨st'.log, st'.scene, lines, h1, h2, hcount⟩

/-- A Redshift target fed by an Arnold normal-map node (which must be
converted) and one literal colour. -/
def c4Scene : Scene :=
  { nodes := ["S", "U", "T"]
    ntypes := [("S", "aiStandardSurface"), ("U", "aiNormalMap"),
      ("T", "RedshiftStandardMaterial")]
    kindAttrs := [("aiStandardSurface", ["normalCamera", "baseColor"]),
      ("aiNormalMap", ["input", "outValue"]),
      ("RedshiftBumpMap", ["input", "out", "inputType"]),
      ("RedshiftStandardMaterial", ["bump_input", "base_color"])]
    conns := []
    vals := []
    avail := ["RedshiftBumpMap"]
    sgMembers := [] }

/-- One texture entry whose source needs node conversion and one value
entry. -/
def c4Plan : List Entry :=
  [texEntry "S" "normalCamera" ⟨"U", "outValue"⟩ none "" "bump_input"
    "out" "RedshiftStandardMaterial",
   valEntry "S" "baseColor" "base_color" "outColor"
    "RedshiftStandardMaterial" (.triple 1 0 0)]

def c4Run1 : Except String (List String) × Scene :=
  do_transfer c4Plan (some "T") "RedshiftStandardMaterial" none c4Scene

def c4Run2 : Except String (List String) × Scene :=
  do_transfer c4Plan (some "T") "RedshiftStandardMaterial" none c4Run1.2

/-- C4: executing the same two-entry plan twice against the same
target is not idempotent when a texture source needs conversion: the
second run's OK count is 2, not 0 (the texture entry is rewired, the
value entry re-set), and the final graphs differ — the second run
creates a duplicate converted node and moves the destination's
connection onto it. -/
theorem C4_second_run_changes_state_counterexample :
    c4Run1.1.map okCount = .ok 2 ∧
    c4Run2.1.map okCount = .ok 2 ∧
    ¬ (c4Run2.1.map okCount = .ok 0) ∧
    ¬ (c4Run2.2 = c4Run1.2) := by
  decide

/-- A file-node texture source and a literal colour, wired to two
distinct attributes of a Redshift target. -/
def c4wScene : Scene :=
  { nodes := ["F", "T"]
    ntypes := [("F", "file"), ("T", "RedshiftStandardMaterial")]
    kindAttrs := [("file", ["outColor", "fileTextureName"]),
      ("RedshiftStandardMaterial", ["base_color", "emission_color"])]
    conns := []
    vals := []
    avail := []
    sgMembers := [] }

def c4wPlan : List Entry :=
  [texEntry "S" "baseColor" ⟨"F", "outColor"⟩ none "" "base_color"
    "outColor" "RedshiftStandardMaterial",
   valEntry "S" "emissionColor" "emission_color" "outColor"
    "RedshiftStandardMaterial" (.triple 1 0 0)]

theorem C4_second_run_witness :
    ∃ log1 s1 log2,
      do_transfer c4wPlan (some "T") "RedshiftStandardMaterial" none
        c4wScene = (.ok log1, s1) ∧
      do_transfer c4wPlan (some "T") "RedshiftStandardMaterial" none
        s1 = (.ok log2, s1) ∧
      okCount log2 =
        (c4wPlan.filter (fun e => e.transfer_mode = "value")).length :=
  C4_second_run_state_identical_values_reapplied c4wScene c4wPlan "T"
    "RedshiftStandardMaterial" (by decide) (by decide)
    (by
      intro e he
      rcases List.mem_cons.mp he with h | h
      · subst h
        exact ⟨by decide, by decide, by decide,
          Or.inl ⟨rfl, "F", rfl, by decide, by decide⟩⟩
      · rcases List.mem_cons.mp h with h2 | h2
        · subst h2
          exact ⟨by decide, by decide, by decide,
            Or.inr ⟨rfl, .triple 1 0 0, rfl⟩⟩
        · exact absurd h2 (List.not_mem_nil e))

theorem validateEntry_value_clean (s : Scene) (X tt renderer : String)
    (slotSeen : List (String × Entry)) (e : Entry)
    (hfn : e.file_node = none)
    (hsn : e.source_node = none)
    (htt : tt ≠ "MASH")
    (hXne : X ≠ "")
    (hT1 : strStartsWith e.tgt_attr "_displacement_" = false)
    (hT2 : strStartsWith e.tgt_attr "MASH_" = false)
    (hXex : objExists s X = true)
    (hbase : (attrsOfNode s X).contains (baseOf e.tgt_attr) = true) :
    validateEntry s (some X) tt renderer slotSeen e =
      .ok (match alookup slotSeen e.tgt_attr with
        | some prev =>
          [⟨"warn", conflictMsg prev.shader_attr e.shader_attr e.tgt_attr, e⟩]
        | none => []) := by
  unfold validateEntry
  dsimp only
  rw [hfn, hsn]
  have hcond : (decide (tt ≠ "MASH") && truthyTarget (some X) &&
      !(strStartsWith e.tgt_attr "_displacement_") &&
      !(strStartsWith e.tgt_attr "MASH_")) = true := by
    rw [hT1, hT2]
    simp [truthyTarget, htt, hXne]
  rw [hcond]
  dsimp only
  rw [attrExistsE_ok_true s X (baseOf e.tgt_attr) hXex hbase]
  dsimp only
  cases alookup slotSeen e.tgt_attr <;> rfl

theorem value_step_connected (T tt r : String) (st : DTSt) (e : Entry)
    (v : MVal)
    (htt : ¬ (tt = "MASH")) (hdisp : ¬ (e.tgt_attr = "_displacement_"))
    (hmode : e.transfer_mode = "value")
    (hmode' : ¬ (e.transfer_mode = "texture"))
    (hv : e.raw_value = some v)
    (hdv : plugValid st.scene ⟨T, e.tgt_attr⟩ = true)
    (hconn : st.scene.conns.any
      (fun c => c.2 = (⟨T, e.tgt_attr⟩ : Plug)) = true) :
    do_transfer_entry (some T) tt none r st e =
      (.ok (), addLog { st with scene := st.scene }
        ("[FAIL] value set " ++ plugStr ⟨T, e.tgt_attr⟩ ++ ": " ++
          ("setAttr: destination attribute " ++ e.tgt_attr ++
            " is connected"))) := by
  have hTex : objExists st.scene T = true := plugValid_objExists hdv
  have hsa : setAttrE st.scene ⟨T, e.tgt_attr⟩ v =
      (.error ("setAttr: destination attribute " ++ e.tgt_attr ++
        " is connected"), st.scene) := by
    unfold setAttrE
    rw [if_pos hdv, hconn]
    rw [if_pos rfl]
  unfold do_transfer_entry
  rw [if_neg htt, if_neg hdisp]
  dsimp only
  rw [if_neg (fun hc => hc hTex)]
  unfold execModes
  rw [if_neg hmode', if_pos hmode]
  unfold execValue
  rw [hv]
  dsimp only
  rw [hsa]

/-- C7 (amended): for a plan of exactly two entries targeting the same
destination attribute — each either a texture entry with a live
file-node source or a value entry carrying a literal — the Validator
reports exactly one slot-collision warning whose message names both
entries' source channels, and after execution the destination carries
the connection or value of the last entry in plan order, except when a
texture entry precedes a value entry: the later setAttr fails on the
connected destination, so the earlier connection remains and no value
is stored. -/
theorem C7_amended_collision_warning_and_last_entry_wins
    (s : Scene) (X tt T : String) (e1 e2 : Entry)
    (ht1 : e1.tgt_attr = T) (ht2 : e2.tgt_attr = T)
    (hshape1 : (e1.transfer_mode = "texture" ∧ e1.file_node = none ∧
        ∃ n1, e1.source_node = some n1 ∧ objExists s n1 = true ∧
          alookup s.ntypes n1 = some "file" ∧
          plugValid s ⟨n1, e1.preferred_plug⟩ = true) ∨
      (e1.transfer_mode = "value" ∧ e1.file_node = none ∧
        e1.source_node = none ∧ ∃ v, e1.raw_value = some v))
    (hshape2 : (e2.transfer_mode = "texture" ∧ e2.file_node = none ∧
        ∃ n2, e2.source_node = some n2 ∧ objExists s n2 = true ∧
          alookup s.ntypes n2 = some "file" ∧
          plugValid s ⟨n2, e2.preferred_plug⟩ = true) ∨
      (e2.transfer_mode = "value" ∧ e2.file_node = none ∧
        e2.source_node = none ∧ ∃ v, e2.raw_value = some v))
    (hXex : objExists s X = true) (hXne : X ≠ "")
    (hdv : plugValid s ⟨X, T⟩ = true)
    (hbase : (attrsOfNode s X).contains (baseOf T) = true)
    (htt : tt ≠ "MASH") (hTd : T ≠ "_displacement_")
    (hT1 : strStartsWith T "_displacement_" = false)
    (hT2 : strStartsWith T "MASH_" = false)
    (hinc : s.conns.filter (fun c => c.2 = (⟨X, T⟩ : Plug)) = []) :
    validate_transfer [e1, e2] (some X) tt s =
      .ok [⟨"warn", conflictMsg e1.shader_attr e2.shader_attr T, e2⟩] ∧
    ∃ log s',
      do_transfer [e1, e2] (some X) tt none s = (.ok log, s') ∧
      (∀ n2, e2.transfer_mode = "texture" → e2.source_node = some n2 →
        s'.conns.filter (fun c => c.2 = (⟨X, T⟩ : Plug)) =
          [(⟨n2, e2.preferred_plug⟩, ⟨X, T⟩)]) ∧
      (e1.transfer_mode = "texture" → e2.transfer_mode = "value" →
        (∀ n1, e1.source_node = some n1 →
          s'.conns.filter (fun c => c.2 = (⟨X, T⟩ : Plug)) =
            [(⟨n1, e1.preferred_plug⟩, ⟨X, T⟩)]) ∧
        s'.vals = s.vals) ∧
      (∀ v2, e1.transfer_mode = "value" → e2.transfer_mode = "value" →
        e2.raw_value = some v2 →
        s'.conns.filter (fun c => c.2 = (⟨X, T⟩ : Plug)) = [] ∧
        (∀ q ∈ s'.vals, q.1 = (⟨X, T⟩ : Plug) → q = (⟨X, T⟩, v2)) ∧
        s'.vals.any (fun q => q.1 = (⟨X, T⟩ : Plug)) = true) := by
  have hd1 : (⟨X, e1.tgt_attr⟩ : Plug) = ⟨X, T⟩ := by rw [ht1]
  have hd2 : (⟨X, e2.tgt_attr⟩ : Plug) = ⟨X, T⟩ := by rw [ht2]
  have hdv1 : plugValid s ⟨X, e1.tgt_attr⟩ = true := by rw [hd1]; exact hdv
  have hdv2 : plugValid s ⟨X, e2.tgt_attr⟩ = true := by rw [hd2]; exact hdv
  have hun1 : s.conns.filter
      (fun c => c.2 = (⟨X, e1.tgt_attr⟩ : Plug)) = [] := by
    rw [hd1]
    exact hinc
  have hdisp1 : ¬ (e1.tgt_attr = "_displacement_") := by
    rw [ht1]
    exact hTd
  have hdisp2 : ¬ (e2.tgt_attr = "_displacement_") := by
    rw [ht2]
    exact hTd
  constructor
  · -- validator half: exactly one conflict warning
    have hval1 : validateEntry s (some X) tt (get_renderer_from_mat_type tt)
        [] e1 = .ok [] := by
      rcases hshape1 with ⟨hm1, hfn1, n1, hs1, hn1, hty1, hp1⟩ |
        ⟨hm1, hfn1, hs1, v1, hv1⟩
      · rw [validateEntry_clean s X tt (get_renderer_from_mat_type tt) [] e1 n1
          hfn1 hs1 hn1 hty1 htt hXne (ht1 ▸ hT1) (ht1 ▸ hT2) hXex (ht1 ▸ hbase)]
        rfl
      · rw [validateEntry_value_clean s X tt (get_renderer_from_mat_type tt)
          [] e1 hfn1 hs1 htt hXne (ht1 ▸ hT1) (ht1 ▸ hT2) hXex (ht1 ▸ hbase)]
        rfl
    have halk : alookup ((e1.tgt_attr, e1) :: []) e2.tgt_attr = some e1 := by
      show (if e1.tgt_attr = e2.tgt_attr then some e1
        else alookup [] e2.tgt_attr) = some e1
      rw [if_pos (by rw [ht1, ht2])]
    have hval2 : validateEntry s (some X) tt (get_renderer_from_mat_type tt)
        ((e1.tgt_attr, e1) :: []) e2 =
        .ok [⟨"warn", conflictMsg e1.shader_attr e2.shader_attr e2.tgt_attr,
          e2⟩] := by
      rcases hshape2 with ⟨hm2, hfn2, n2, hs2, hn2, hty2, hp2⟩ |
        ⟨hm2, hfn2, hs2, v2, hv2⟩
      · rw [validateEntry_clean s X tt (get_renderer_from_mat_type tt)
          ((e1.tgt_attr, e1) :: []) e2 n2
          hfn2 hs2 hn2 hty2 htt hXne (ht2 ▸ hT1) (ht2 ▸ hT2) hXex (ht2 ▸ hbase)]
        rw [halk]
      · rw [validateEntry_value_clean s X tt (get_renderer_from_mat_type tt)
          ((e1.tgt_attr, e1) :: []) e2
          hfn2 hs2 htt hXne (ht2 ▸ hT1) (ht2 ▸ hT2) hXex (ht2 ▸ hbase)]
        rw [halk]
    unfold validate_transfer
    rw [validateRows_cons s (some X) tt (get_renderer_from_mat_type tt) e1 [e2]
      [] [] hval1]
    rw [validateRows_cons s (some X) tt (get_renderer_from_mat_type tt) e2 []
      ((e1.tgt_attr, e1) :: [])
      [⟨"warn", conflictMsg e1.shader_attr e2.shader_attr e2.tgt_attr, e2⟩]
      hval2]
    rw [validateRows_nil]
    rw [ht2]
    rfl
  · -- executor half: four mode combinations
    rcases hshape1 with ⟨hm1, hfn1, n1, hs1, hn1, hty1, hp1⟩ |
      ⟨hm1, hfn1, hs1n, v1, hv1⟩
    · -- first entry texture
      have hstep1 := run1_texture_step X tt (get_renderer_from_mat_type tt)
        ⟨[], none, [], s⟩ e1 n1 htt hdisp1 hm1 hs1 hty1 hp1 hdv1 hun1
      rw [ht1] at hstep1
      rcases hshape2 with ⟨hm2, hfn2, n2, hs2, hn2, hty2, hp2⟩ |
        ⟨hm2, hfn2, hs2n, v2, hv2⟩
      · -- texture / texture: last connection wins
        set st1 : DTSt :=
          addLog
            { (⟨[], none, [], s⟩ : DTSt) with scene :=
                { (⟨[], none, [], s⟩ : DTSt).scene with conns :=
                    (⟨[], none, [], s⟩ : DTSt).scene.conns ++
                      [(⟨n1, e1.preferred_plug⟩, ⟨X, T⟩)] } }
            ("[OK-T] " ++ padTo (plugStr ⟨n1, e1.preferred_plug⟩) 50 ++
              "  →  " ++ plugStr ⟨X, T⟩) with hst1
        have hstep2pre : do_transfer_entry (some X) tt none
            (get_renderer_from_mat_type tt) st1 e2 =
            (.ok (),
              if st1.scene.conns.contains
                ((⟨n2, e2.preferred_plug⟩ : Plug), (⟨X, T⟩ : Plug)) = true
              then addLog st1 ("[SKIP] Already connected: " ++
                plugStr ⟨n2, e2.preferred_plug⟩ ++ " → " ++ plugStr ⟨X, T⟩)
              else addLog { st1 with scene :=
                  { st1.scene with conns := (st1.scene.conns.filter
                    (fun c => ¬ (c.2 = (⟨X, T⟩ : Plug)))) ++
                    [(⟨n2, e2.preferred_plug⟩, ⟨X, T⟩)] } }
                ("[OK-T] " ++ padTo (plugStr ⟨n2, e2.preferred_plug⟩) 50 ++
                  "  →  " ++ plugStr ⟨X, T⟩)) := by
          rw [do_transfer_entry_plain X tt none (get_renderer_from_mat_type tt)
            st1 e2 htt hdisp2 hXex]
          unfold execModes
          rw [hm2]
          rw [if_pos rfl]
          rw [show (⟨X, e2.tgt_attr⟩ : Plug) = ⟨X, T⟩ from hd2]
          rw [execTexture_file (get_renderer_from_mat_type tt) st1 e2 n2
            ⟨X, T⟩ hs2 hn2 hty2 hp2 hdv]
        by_cases hpp : (⟨n2, e2.preferred_plug⟩ : Plug) = ⟨n1, e1.preferred_plug⟩
        · have hmem2 : (((⟨n2, e2.preferred_plug⟩ : Plug), (⟨X, T⟩ : Plug))) ∈
              st1.scene.conns := by
            rw [hpp]
            exact List.mem_append_right _ (List.mem_singleton.mpr rfl)
          have hcont2 : st1.scene.conns.contains
              (((⟨n2, e2.preferred_plug⟩ : Plug), (⟨X, T⟩ : Plug))) = true := by
            simpa using hmem2
          rw [hcont2, if_pos rfl] at hstep2pre
          refine ⟨?_, ?_, ?_, ?_, ?_, ?_⟩
          rotate_left 2
          · unfold do_transfer
            dsimp only
            rw [do_transfer_loop_cons (some X) tt none
              (get_renderer_from_mat_type tt) e1 [e2] ⟨[], none, [], s⟩ _ hstep1]
            rw [do_transfer_loop_cons (some X) tt none
              (get_renderer_from_mat_type tt) e2 [] st1 _ hstep2pre]
            exact rfl
          · intro n2' _ hs2'
            have : n2' = n2 := (Option.some.inj (hs2.symm.trans hs2')).symm
            rw [this]
            show st1.scene.conns.filter
              (fun c => c.2 = (⟨X, T⟩ : Plug)) = _
            rw [show st1.scene.conns = s.conns ++
              [(⟨n1, e1.preferred_plug⟩, ⟨X, T⟩)] from rfl]
            rw [List.filter_append, hinc, List.nil_append,
              List.filter_cons, if_pos (by simp), List.filter_nil, hpp]
          · intro _ hmv
            rw [hm2] at hmv
            exact absurd hmv (by decide)
          · intro v' hmv _ _
            rw [hm1] at hmv
            exact absurd hmv (by decide)
        · have hnm2 : ¬ ((((⟨n2, e2.preferred_plug⟩ : Plug),
              (⟨X, T⟩ : Plug))) ∈ st1.scene.conns) := by
            intro hm
            rcases List.mem_append.mp hm with hl | hr
            · exact not_mem_of_filter_pair_nil hinc _ hl
            · have := List.mem_singleton.mp hr
              rw [Prod.mk.injEq] at this
              exact hpp this.1
          have hcont2 : st1.scene.conns.contains
              (((⟨n2, e2.preferred_plug⟩ : Plug), (⟨X, T⟩ : Plug))) = false := by
            simpa using hnm2
          rw [hcont2] at hstep2pre
          rw [if_neg (by simp)] at hstep2pre
          refine ⟨?_, ?_, ?_, ?_, ?_, ?_⟩
          rotate_left 2
          · unfold do_transfer
            dsimp only
            rw [do_transfer_loop_cons (some X) tt none
              (get_renderer_from_mat_type tt) e1 [e2] ⟨[], none, [], s⟩ _ hstep1]
            rw [do_transfer_loop_cons (some X) tt none
              (get_renderer_from_mat_type tt) e2 [] st1 _ hstep2pre]
            exact rfl
          · intro n2' _ hs2'
            have : n2' = n2 := (Option.some.inj (hs2.symm.trans hs2')).symm
            rw [this]
            exact incoming_after_connect st1.scene.conns
              ⟨n2, e2.preferred_plug⟩ ⟨X, T⟩
          · intro _ hmv
            rw [hm2] at hmv
            exact absurd hmv (by decide)
          · intro v' hmv _ _
            rw [hm1] at hmv
            exact absurd hmv (by decide)
      · -- texture / value: the later setAttr fails, connection stays
        set st1 : DTSt :=
          addLog
            { (⟨[], none, [], s⟩ : DTSt) with scene :=
                { (⟨[], none, [], s⟩ : DTSt).scene with conns :=
                    (⟨[], none, [], s⟩ : DTSt).scene.conns ++
                      [(⟨n1, e1.preferred_plug⟩, ⟨X, T⟩)] } }
            ("[OK-T] " ++ padTo (plugStr ⟨n1, e1.preferred_plug⟩) 50 ++
              "  →  " ++ plugStr ⟨X, T⟩) with hst1
        have hmode2' : ¬ (e2.transfer_mode = "texture") := by
          rw [hm2]
          decide
        have hany2 : st1.scene.conns.any
            (fun c => c.2 = (⟨X, e2.tgt_attr⟩ : Plug)) = true := by
          refine List.any_eq_true.mpr
            ⟨(⟨n1, e1.preferred_plug⟩, ⟨X, T⟩),
              List.mem_append_right _ (List.mem_singleton.mpr rfl), ?_⟩
          rw [ht2]
          simp
        have hstep2 := value_step_connected X tt
          (get_renderer_from_mat_type tt) st1 e2 v2 htt hdisp2 hm2 hmode2'
          hv2 hdv2 hany2
        rw [ht2] at hstep2
        refine ⟨?_, ?_, ?_, ?_, ?_, ?_⟩
        rotate_left 2
        · unfold do_transfer
          dsimp only
          rw [do_transfer_loop_cons (some X) tt none
            (get_renderer_from_mat_type tt) e1 [e2] ⟨[], none, [], s⟩ _ hstep1]
          rw [do_transfer_loop_cons (some X) tt none
            (get_renderer_from_mat_type tt) e2 [] st1 _ hstep2]
          exact rfl
        · intro n2' hmv _
          rw [hm2] at hmv
          exact absurd hmv (by decide)
        · intro _ _
          constructor
          · intro n1' hs1'
            have : n1' = n1 := (Option.some.inj (hs1.symm.trans hs1')).symm
            rw [this]
            show (s.conns ++
              [((⟨n1, e1.preferred_plug⟩ : Plug), (⟨X, T⟩ : Plug))]).filter
                (fun c => c.2 = (⟨X, T⟩ : Plug)) = _
            rw [List.filter_append, hinc, List.nil_append,
              List.filter_cons, if_pos (by simp), List.filter_nil]
          · rfl
        · intro v' hmv _ _
          rw [hm1] at hmv
          exact absurd hmv (by decide)
    · -- first entry value
      have hmode1' : ¬ (e1.transfer_mode = "texture") := by
        rw [hm1]
        decide
      have hstep1 := run1_value_step X tt (get_renderer_from_mat_type tt)
        ⟨[], none, [], s⟩ e1 v1 htt hdisp1 hm1 hmode1' hv1 hdv1 hun1
      rw [ht1] at hstep1
      set st1 : DTSt :=
        addLog
          { (⟨[], none, [], s⟩ : DTSt) with scene :=
              { (⟨[], none, [], s⟩ : DTSt).scene with
                  vals := setVal (⟨[], none, [], s⟩ : DTSt).scene.vals ⟨X, T⟩ v1 } }
          ("[OK-V] " ++ e1.shader ++ "." ++ padTo e1.shader_attr 30 ++
            "  →  " ++ plugStr ⟨X, T⟩ ++ "  =  " ++ mvalStr v1) with hst1
      have hun2 : st1.scene.conns.filter
          (fun c => c.2 = (⟨X, e2.tgt_attr⟩ : Plug)) = [] := by
        show s.conns.filter (fun c => c.2 = (⟨X, e2.tgt_attr⟩ : Plug)) = []
        rw [hd2]
        exact hinc
      rcases hshape2 with ⟨hm2, hfn2, n2, hs2, hn2, hty2, hp2⟩ |
        ⟨hm2, hfn2, hs2n, v2, hv2⟩
      · -- value / texture: the connection of the last entry wins
        have hstep2 := run1_texture_step X tt (get_renderer_from_mat_type tt)
          st1 e2 n2 htt hdisp2 hm2 hs2 hty2 hp2 hdv2 hun2
        rw [ht2] at hstep2
        refine ⟨?_, ?_, ?_, ?_, ?_, ?_⟩
        rotate_left 2
        · unfold do_transfer
          dsimp only
          rw [do_transfer_loop_cons (some X) tt none
            (get_renderer_from_mat_type tt) e1 [e2] ⟨[], none, [], s⟩ _ hstep1]
          rw [do_transfer_loop_cons (some X) tt none
            (get_renderer_from_mat_type tt) e2 [] st1 _ hstep2]
          exact rfl
        · intro n2' _ hs2'
          have : n2' = n2 := (Option.some.inj (hs2.symm.trans hs2')).symm
          rw [this]
          show (st1.scene.conns ++
            [((⟨n2, e2.preferred_plug⟩ : Plug), (⟨X, T⟩ : Plug))]).filter
              (fun c => c.2 = (⟨X, T⟩ : Plug)) = _
          rw [List.filter_append]
          rw [show st1.scene.conns.filter
            (fun c => c.2 = (⟨X, T⟩ : Plug)) = [] from hinc]
          rw [List.nil_append, List.filter_cons, if_pos (by simp),
            List.filter_nil]
        · intro hmv _
          rw [hm1] at hmv
          exact absurd hmv (by decide)
        · intro v' _ hmv _
          rw [hm2] at hmv
          exact absurd hmv (by decide)
      · -- value / value: the last value wins
        have hmode2' : ¬ (e2.transfer_mode = "texture") := by
          rw [hm2]
          decide
        have hstep2 := run1_value_step X tt (get_renderer_from_mat_type tt)
          st1 e2 v2 htt hdisp2 hm2 hmode2' hv2 hdv2 hun2
        rw [ht2] at hstep2
        refine ⟨?_, ?_, ?_, ?_, ?_, ?_⟩
        rotate_left 2
        · unfold do_transfer
          dsimp only
          rw [do_transfer_loop_cons (some X) tt none
            (get_renderer_from_mat_type tt) e1 [e2] ⟨[], none, [], s⟩ _ hstep1]
          rw [do_transfer_loop_cons (some X) tt none
            (get_renderer_from_mat_type tt) e2 [] st1 _ hstep2]
          exact rfl
        · intro n2' hmv _
          rw [hm2] at hmv
          exact absurd hmv (by decide)
        · intro hmv _
          rw [hm1] at hmv
          exact absurd hmv (by decide)
        · intro v2' _ _ hv2'
          have : v2' = v2 := (Option.some.inj (hv2.symm.trans hv2')).symm
          rw [this]
          refine ⟨?_, ?_, ?_⟩
          · show s.conns.filter (fun c => c.2 = (⟨X, T⟩ : Plug)) = []
            exact hinc
          · exact setVal_all_eq (setVal s.vals ⟨X, T⟩ v1) ⟨X, T⟩ v2
          · exact setVal_any (setVal s.vals ⟨X, T⟩ v1) ⟨X, T⟩ v2

def c7cVal : Entry :=
  valEntry "S" "eccentricity" "specularRoughness" "outAlpha"
    "standardSurface" (.num 7)

/-- Witness for the amended C7: a texture entry from a file node and a
later value entry colliding on specularRoughness of a standardSurface
target — one conflict warning, and the texture connection survives the
failed value set. -/
theorem C7_amended_witness :
    (validate_transfer [c7bTex1, c7cVal] (some "T") "standardSurface"
        c7bScene =
      .ok [⟨"warn",
        conflictMsg "specularRoughness" "eccentricity" "specularRoughness",
        c7cVal⟩] ∧
    ∃ log s',
      do_transfer [c7bTex1, c7cVal] (some "T") "standardSurface" none
        c7bScene = (.ok log, s') ∧
      (∀ n2, c7cVal.transfer_mode = "texture" →
        c7cVal.source_node = some n2 →
        s'.conns.filter
          (fun c => c.2 = (⟨"T", "specularRoughness"⟩ : Plug)) =
          [(⟨n2, c7cVal.preferred_plug⟩, ⟨"T", "specularRoughness"⟩)]) ∧
      (c7bTex1.transfer_mode = "texture" →
        c7cVal.transfer_mode = "value" →
        (∀ n1, c7bTex1.source_node = some n1 →
          s'.conns.filter
            (fun c => c.2 = (⟨"T", "specularRoughness"⟩ : Plug)) =
            [(⟨n1, c7bTex1.preferred_plug⟩, ⟨"T", "specularRoughness"⟩)]) ∧
        s'.vals = c7bScene.vals) ∧
      (∀ v2, c7bTex1.transfer_mode = "value" →
        c7cVal.transfer_mode = "value" →
        c7cVal.raw_value = some v2 →
        s'.conns.filter
          (fun c => c.2 = (⟨"T", "specularRoughness"⟩ : Plug)) = [] ∧
        (∀ q ∈ s'.vals, q.1 = (⟨"T", "specularRoughness"⟩ : Plug) →
          q = (⟨"T", "specularRoughness"⟩, v2)) ∧
        s'.vals.any
          (fun q => q.1 = (⟨"T", "specularRoughness"⟩ : Plug)) = true)) :=
  C7_amended_collision_warning_and_last_entry_wins c7bScene "T"
    "standardSurface" "specularRoughness" c7bTex1 c7cVal
    (by decide) (by decide)
    (Or.inl ⟨rfl, rfl, "F1", rfl, by decide, by decide, by decide⟩)
    (Or.inr ⟨rfl, rfl, rfl, .num 7, rfl⟩)
    (by decide) (by decide) (by decide) (by decide) (by decide) (by decide)
    (by decide) (by decide) (by decide)
